import Mathlib

/-!
# RetroArch `gfx/drivers/sdl_dingux_gfx.c`

A shallow embedding of the SDL/Dingux video driver: the frame blitters, the
glyph text blitters, the output mode manager and the per-frame state machine.

Conventions of the embedding.

* `unsigned` / `uint32_t` values are natural numbers reduced `% 2 ^ 32` where the
  source computes in that type; `uint16_t` values are reduced `% 2 ^ 16`.
  `size_t` is the 32-bit `size_t` of the Dingux targets.
* A buffer is a byte map `Mem` indexed by the byte offset from the buffer
  origin.  Pointer arithmetic is arithmetic on offsets and does not wrap.
* A function whose body is a sequence of `memcpy` calls is embedded as the list
  of those calls (`MemCpy`) together with the memory they produce, so that both
  the final bytes and the set of accessed offsets can be stated.
-/

namespace SdlDingux

/-! ## Memory -/

/-- Bytes of one buffer, by offset from its origin. -/
abbrev Mem := Nat → Nat

/-- One call `memcpy(dst + dst_off, src + src_off, n)` (offsets and length in bytes). -/
structure MemCpy where
  dst_off : Nat
  src_off : Nat
  n : Nat
deriving DecidableEq, Repr

/-- Effect of one `memcpy` from buffer `src` into buffer `dst`. -/
def MemCpy.apply (c : MemCpy) (src dst : Mem) : Mem :=
  fun k => if c.dst_off ≤ k ∧ k < c.dst_off + c.n then src (c.src_off + (k - c.dst_off)) else dst k

/-- Effect of a sequence of `memcpy` calls, in program order. -/
def run_copies (src : Mem) : List MemCpy → Mem → Mem
  | [], dst => dst
  | c :: cs, dst => run_copies src cs (c.apply src dst)

/-- The destination byte offset `k` is written by the call `c`. -/
def MemCpy.writes (c : MemCpy) (k : Nat) : Prop := c.dst_off ≤ k ∧ k < c.dst_off + c.n

/-- The source byte offset `k` is read by the call `c`. -/
def MemCpy.reads (c : MemCpy) (k : Nat) : Prop := c.src_off ≤ k ∧ k < c.src_off + c.n

instance (c : MemCpy) (k : Nat) : Decidable (c.writes k) := by
  unfold MemCpy.writes; infer_instance

instance (c : MemCpy) (k : Nat) : Decidable (c.reads k) := by
  unfold MemCpy.reads; infer_instance

/-- The 16-bit pixel with pixel index `k`: its two bytes. -/
def pixel16 (m : Mem) (k : Nat) : Nat × Nat := (m (2 * k), m (2 * k + 1))

/-- The 32-bit pixel with pixel index `k`: its four bytes. -/
def pixel32 (m : Mem) (k : Nat) : Nat × Nat × Nat × Nat :=
  (m (4 * k), m (4 * k + 1), m (4 * k + 2), m (4 * k + 3))

/-! ## Frame blitter (`sdl_dingux_blit_frame16`, `sdl_dingux_blit_frame32`) -/

/-- The row loop `for (y = 0; y < height; y++) { memcpy(out_ptr, in_ptr, row_bytes);
in_ptr += in_stride; out_ptr += out_stride; }` with the pointers as byte offsets:
`rows` iterations remain, each pointer advances by its stride in bytes. -/
def blit_rows (row_bytes in_stride_bytes out_stride_bytes : Nat) :
    Nat → Nat → Nat → List MemCpy
  | 0, _, _ => []
  | rows + 1, in_ptr, out_ptr =>
    ⟨out_ptr, in_ptr, row_bytes⟩ ::
      blit_rows row_bytes in_stride_bytes out_stride_bytes rows
        (in_ptr + in_stride_bytes) (out_ptr + out_stride_bytes)

/-- Stride of the 16-bit row loop: `(uint16_t)(pitch >> 1)`, in pixels. -/
def stride16 (pitch : Nat) : Nat := (pitch >>> 1) % 2 ^ 16

/-- Stride of the 32-bit row loop: `(uint32_t)(pitch >> 2)`, in pixels. -/
def stride32 (pitch : Nat) : Nat := (pitch >>> 2) % 2 ^ 32

/-- The `memcpy` calls of `sdl_dingux_blit_frame16`. -/
def sdl_dingux_blit_frame16_copies (width height dst_pitch src_pitch : Nat) : List MemCpy :=
  if src_pitch = dst_pitch then
    [⟨0, 0, (src_pitch * height) % 2 ^ 32⟩]
  else
    let in_stride := stride16 src_pitch
    let out_stride := stride16 dst_pitch
    blit_rows ((width * 2) % 2 ^ 32) (2 * in_stride) (2 * out_stride) height 0 0

/-- The `memcpy` calls of `sdl_dingux_blit_frame32`. -/
def sdl_dingux_blit_frame32_copies (width height dst_pitch src_pitch : Nat) : List MemCpy :=
  if src_pitch = dst_pitch then
    [⟨0, 0, (src_pitch * height) % 2 ^ 32⟩]
  else
    let in_stride := stride32 src_pitch
    let out_stride := stride32 dst_pitch
    blit_rows ((width * 4) % 2 ^ 32) (4 * in_stride) (4 * out_stride) height 0 0

/-- Destination buffer after `sdl_dingux_blit_frame16(dst, src, width, height, dst_pitch, src_pitch)`. -/
def sdl_dingux_blit_frame16 (dst src : Mem) (width height dst_pitch src_pitch : Nat) : Mem :=
  run_copies src (sdl_dingux_blit_frame16_copies width height dst_pitch src_pitch) dst

/-- Destination buffer after `sdl_dingux_blit_frame32(dst, src, width, height, dst_pitch, src_pitch)`. -/
def sdl_dingux_blit_frame32 (dst src : Mem) (width height dst_pitch src_pitch : Nat) : Mem :=
  run_copies src (sdl_dingux_blit_frame32_copies width height dst_pitch src_pitch) dst

/-! ## Declarations of headers that are not part of this file -/

/-- Font macros and tables of `gfx/drivers_font_renderer/bitmap.h`, the decoder
`utf8_walk` of `encodings/utf.h`, the message table entry
`msg_hash_to_str(MSG_UNSUPPORTED_VIDEO_MODE)` and the enum constant
`DINGUX_IPU_FILTER_BICUBIC` of `dingux/dingux_utils.h`.  None of them is defined
in this source file; they are parameters of the embedding.  The font macros are
small non-negative `int` constants.  `utf8_walk str` returns the decoded code
point and the advanced cursor. -/
structure Assets where
  FONT_WIDTH : Nat
  FONT_HEIGHT : Nat
  FONT_WIDTH_STRIDE : Nat
  FONT_HEIGHT_STRIDE : Nat
  FONT_OFFSET : Nat → Nat
  bitmap_bin : Nat → Nat
  utf8_walk : List Nat → Nat × List Nat
  MSG_UNSUPPORTED_VIDEO_MODE : List Nat
  DINGUX_IPU_FILTER_BICUBIC : Nat

/-- The flag word passed to `SDL_SetVideoMode`: which of the three flag constants
`SDL_HWSURFACE`, `SDL_TRIPLEBUF`, `SDL_FULLSCREEN` are or-ed into it. -/
structure SurfaceFlags where
  hwsurface : Bool
  triplebuf : Bool
  fullscreen : Bool
deriving DecidableEq, Repr

/-- The fields of `SDL_Surface` the driver reads, with the pixel buffer it points to.
`mustlock` is the value of `SDL_MUSTLOCK(surface)`. -/
structure SDL_Surface where
  w : Nat
  h : Nat
  pitch : Nat
  mustlock : Bool
  pixels : Mem

/-- Calls to external collaborators, and (as a call marker) entries into
`sdl_dingux_set_output`, in program order. -/
inductive Event where
  | set_output (width height : Nat) (rgb32 : Bool)
  | SDL_SetVideoMode (width height bpp : Nat) (flags : SurfaceFlags)
  | SDL_LockSurface
  | SDL_UnlockSurface
  | SDL_Flip
  | SDL_QuitSubSystem
  | SDL_ShowCursor
  | menu_driver_frame
  | dingux_ipu_set_downscaling_enable (enable : Bool)
  | dingux_ipu_set_aspect_ratio_enable (enable : Bool)
  | dingux_ipu_set_integer_scaling_enable (enable : Bool)
  | dingux_ipu_set_filter_type (filter_type : Nat)
deriving DecidableEq, Repr

/-- The display subsystem: the result of an `SDL_SetVideoMode` request (a surface,
or `none` for `NULL`) may depend on everything that happened before it. -/
structure Env where
  SDL_SetVideoMode : List Event → Nat → Nat → Nat → SurfaceFlags → Option SDL_Surface

/-- The driver state `sdl_dingux_video_t`. -/
structure sdl_dingux_video where
  screen : Option SDL_Surface
  frame_width : Nat
  frame_height : Nat
  filter_type : Nat
  font_colour32 : Nat
  font_colour16 : Nat
  menu_texture : Mem
  font_lut : Nat → Nat → Bool
  rgb32 : Bool
  vsync : Bool
  keep_aspect : Bool
  integer_scaling : Bool
  menu_active : Bool
  was_in_menu : Bool
  quitting : Bool
  mode_valid : Bool

/-- Driver state together with the trace of external calls made so far. -/
structure Sys where
  vid : sdl_dingux_video
  log : List Event

/-- Record one external call. -/
def Sys.emit (s : Sys) (e : Event) : Sys := { s with log := s.log ++ [e] }

/-- The fields of `settings_t` read by the driver.  The three message colour
channels are the values `(uint32_t)((c * 255.0f) + 0.5f)` before masking. -/
structure Settings where
  video_msg_color_r : Nat
  video_msg_color_g : Nat
  video_msg_color_b : Nat
  video_dingux_ipu_keep_aspect : Bool
  video_scale_integer : Bool
  video_dingux_ipu_filter_type : Nat

/-- `SDL_DINGUX_MENU_WIDTH`. -/
def SDL_DINGUX_MENU_WIDTH : Nat := 320

/-- `SDL_DINGUX_MENU_HEIGHT`. -/
def SDL_DINGUX_MENU_HEIGHT : Nat := 240

/-- `SDL_DINGUX_NUM_FONT_GLYPHS`. -/
def SDL_DINGUX_NUM_FONT_GLYPHS : Nat := 256

/-! ## Font colour and glyph table -/

/-- `sdl_dingux_init_font_color`: the pair `(font_colour32, font_colour16)`;
`settings = none` is the null configuration pointer. -/
def sdl_dingux_init_font_color (settings : Option Settings) : Nat × Nat :=
  let rgb : Nat × Nat × Nat :=
    match settings with
    | none => (0xFF, 0xFF, 0xFF)
    | some st =>
      ((st.video_msg_color_r % 2 ^ 32) &&& 0xFF,
       (st.video_msg_color_g % 2 ^ 32) &&& 0xFF,
       (st.video_msg_color_b % 2 ^ 32) &&& 0xFF)
  let red := rgb.1
  let green := rgb.2.1
  let blue := rgb.2.2
  let font_colour32 := (((red <<< 16) % 2 ^ 32) ||| ((green <<< 8) % 2 ^ 32)) ||| blue
  let red := red >>> 3
  let green := green >>> 3
  let blue := blue >>> 3
  let font_colour16 := ((((red <<< 11) % 2 ^ 32) ||| ((green <<< 6) % 2 ^ 32)) ||| blue) % 2 ^ 16
  (font_colour32, font_colour16)

/-- One assignment of the innermost loop body of `sdl_dingux_init_font_lut`. -/
def font_lut_entry (A : Assets) (symbol_index i j : Nat) : Bool :=
  let rem := (1 <<< ((i + j * A.FONT_WIDTH) &&& 7)) % 2 ^ 8
  let offset := (i + j * A.FONT_WIDTH) >>> 3
  decide ((A.bitmap_bin (A.FONT_OFFSET symbol_index + offset) &&& rem) > 0)

/-- Assignment `font_lut[symbol_index][k] = value`. -/
def font_lut_set (font_lut : Nat → Nat → Bool) (symbol_index k : Nat) (value : Bool) :
    Nat → Nat → Bool :=
  fun s c => if s = symbol_index ∧ c = k then value else font_lut s c

/-- `sdl_dingux_init_font_lut`: the three nested loops over `symbol_index`, `j`, `i`. -/
def sdl_dingux_init_font_lut (A : Assets) (font_lut : Nat → Nat → Bool) : Nat → Nat → Bool :=
  (List.range SDL_DINGUX_NUM_FONT_GLYPHS).foldl (fun lut symbol_index =>
    (List.range A.FONT_HEIGHT).foldl (fun lut j =>
      (List.range A.FONT_WIDTH).foldl (fun lut i =>
        font_lut_set lut symbol_index (i + j * A.FONT_WIDTH) (font_lut_entry A symbol_index i j))
        lut) lut) font_lut

/-! ## Text blitter (`sdl_dingux_blit_text16`, `sdl_dingux_blit_text32`) -/

/-- The pixel stores of one glyph, in program order, as `(pixel index, value)`:
the two nested `for` loops over `j < FONT_HEIGHT` and `i < FONT_WIDTH`.
`buff_offset` is a `uint32_t`. -/
def glyph_writes (A : Assets) (glyph : Nat → Bool) (colour screen_stride x y : Nat) :
    List (Nat × Nat) :=
  (List.range A.FONT_HEIGHT).flatMap fun j =>
    let buff_offset := ((y + j) * screen_stride + x) % 2 ^ 32
    (List.range A.FONT_WIDTH).flatMap fun i =>
      if glyph (i + j * A.FONT_WIDTH) then
        [(buff_offset + i, colour), (buff_offset + i + screen_stride, 0)]
      else []

/-- The `while (!string_is_empty(str))` loop shared, up to the width of the
locals, by the two text blitters.  `str` is the bytes at the cursor (a zero byte
or the end of the list is the terminator); `x` is the `unsigned` cursor column.
The first argument bounds the number of iterations. -/
def blit_text_loop (A : Assets) (font_lut : Nat → Nat → Bool)
    (colour screen_stride screen_width y : Nat) : Nat → Nat → List Nat → List (Nat × Nat)
  | 0, _, _ => []
  | fuel + 1, x, str =>
    match str with
    | [] => []
    | c :: rest =>
      if c = 0 then []
      else if (x + A.FONT_WIDTH_STRIDE + 1) % 2 ^ 32 ≥ screen_width then []
      else if c = 32 then
        blit_text_loop A font_lut colour screen_stride screen_width y fuel
          ((x + A.FONT_WIDTH_STRIDE) % 2 ^ 32) rest
      else
        let walked := A.utf8_walk (c :: rest)
        let symbol := walked.1 % 2 ^ 32
        let symbol := if symbol = 339 then 156 else symbol
        let symbol := if symbol = 338 then 140 else symbol
        if symbol ≥ SDL_DINGUX_NUM_FONT_GLYPHS then
          blit_text_loop A font_lut colour screen_stride screen_width y fuel x walked.2
        else
          glyph_writes A (font_lut symbol) colour screen_stride x y ++
            blit_text_loop A font_lut colour screen_stride screen_width y fuel
              ((x + A.FONT_WIDTH_STRIDE) % 2 ^ 32) walked.2

/-- Body of a text blitter after its locals are set: the `y` bounds check, then the loop. -/
def blit_text_writes (A : Assets) (font_lut : Nat → Nat → Bool)
    (colour screen_stride screen_width screen_height x y : Nat) (str : List Nat) :
    List (Nat × Nat) :=
  if (y + A.FONT_HEIGHT + 1) % 2 ^ 32 ≥ screen_height then []
  else blit_text_loop A font_lut colour screen_stride screen_width y (str.length + 1) x str

/-- Pixel stores of `sdl_dingux_blit_text16(vid, x, y, str)` on the surface `screen`
bound to `vid`: the locals `screen_stride`, `screen_width`, `screen_height` are `uint16_t`. -/
def sdl_dingux_blit_text16_writes (A : Assets) (vid : sdl_dingux_video) (screen : SDL_Surface)
    (x y : Nat) (str : List Nat) : List (Nat × Nat) :=
  blit_text_writes A vid.font_lut vid.font_colour16
    ((screen.pitch >>> 1) % 2 ^ 16) (screen.w % 2 ^ 16) (screen.h % 2 ^ 16) x y str

/-- Pixel stores of `sdl_dingux_blit_text32(vid, x, y, str)`: the locals are `uint32_t`. -/
def sdl_dingux_blit_text32_writes (A : Assets) (vid : sdl_dingux_video) (screen : SDL_Surface)
    (x y : Nat) (str : List Nat) : List (Nat × Nat) :=
  blit_text_writes A vid.font_lut vid.font_colour32
    ((screen.pitch >>> 2) % 2 ^ 32) (screen.w % 2 ^ 32) (screen.h % 2 ^ 32) x y str

/-- `memcpy(screen_buf + k, &v, sizeof(uint16_t))` on the little-endian target. -/
def store16 (m : Mem) (k v : Nat) : Mem :=
  fun a => if a = 2 * k then v % 256 else if a = 2 * k + 1 then v / 256 % 256 else m a

/-- `memcpy(screen_buf + k, &v, sizeof(uint32_t))` on the little-endian target. -/
def store32 (m : Mem) (k v : Nat) : Mem :=
  fun a =>
    if a = 4 * k then v % 256
    else if a = 4 * k + 1 then v / 256 % 256
    else if a = 4 * k + 2 then v / 65536 % 256
    else if a = 4 * k + 3 then v / 16777216 % 256
    else m a

/-- Pixel stores applied in program order (16-bit pixels). -/
def run_stores16 : List (Nat × Nat) → Mem → Mem
  | [], m => m
  | (k, v) :: ws, m => run_stores16 ws (store16 m k v)

/-- Pixel stores applied in program order (32-bit pixels). -/
def run_stores32 : List (Nat × Nat) → Mem → Mem
  | [], m => m
  | (k, v) :: ws, m => run_stores32 ws (store32 m k v)

/-- The surface after `sdl_dingux_blit_text16(vid, x, y, str)`. -/
def sdl_dingux_blit_text16 (A : Assets) (vid : sdl_dingux_video) (screen : SDL_Surface)
    (x y : Nat) (str : List Nat) : SDL_Surface :=
  { screen with pixels := run_stores16 (sdl_dingux_blit_text16_writes A vid screen x y str) screen.pixels }

/-- The surface after `sdl_dingux_blit_text32(vid, x, y, str)`. -/
def sdl_dingux_blit_text32 (A : Assets) (vid : sdl_dingux_video) (screen : SDL_Surface)
    (x y : Nat) (str : List Nat) : SDL_Surface :=
  { screen with pixels := run_stores32 (sdl_dingux_blit_text32_writes A vid screen x y str) screen.pixels }

/-! ## Diagnostic message (`sdl_dingux_blit_video_mode_error_msg`) -/

/-- `memset(buf, 0, n)`. -/
def memset_zero (m : Mem) (n : Nat) : Mem := fun k => if k < n then 0 else m k

/-- The bytes of an ASCII string literal. -/
def ascii (s : String) : List Nat := s.data.map Char.toNat

/-- Decimal digits of `n`, most significant first, prepended to `acc`; at most
`digits` digits are produced. -/
def fmt_u_aux : Nat → Nat → List Nat → List Nat
  | 0, _, acc => acc
  | digits + 1, n, acc =>
    if n < 10 then (48 + n) :: acc
    else fmt_u_aux digits (n / 10) ((48 + n % 10) :: acc)

/-- The conversion `%u` of `snprintf` for a 32-bit `unsigned`: its decimal digits
(at most ten) as ASCII bytes. -/
def fmt_u (n : Nat) : List Nat := fmt_u_aux 10 (n % 2 ^ 32) []

/-- The buffer contents after
`snprintf(display_mode, sizeof(display_mode), "> %ux%u, %s", frame_width, frame_height,
rgb32 ? "XRGB8888" : "RGB565")` with `char display_mode[64]`: the formatted
text cut to 63 bytes. -/
def display_mode_string (frame_width frame_height : Nat) (rgb32 : Bool) : List Nat :=
  (ascii "> " ++ fmt_u frame_width ++ ascii "x" ++ fmt_u frame_height ++ ascii ", " ++
    (if rgb32 then ascii "XRGB8888" else ascii "RGB565")).take 63

/-- The surface after `sdl_dingux_blit_video_mode_error_msg(vid)`, `screen` being the
surface bound to `vid`. -/
def sdl_dingux_blit_video_mode_error_msg (A : Assets) (vid : sdl_dingux_video)
    (screen : SDL_Surface) : SDL_Surface :=
  let error_msg := A.MSG_UNSUPPORTED_VIDEO_MODE
  let screen := { screen with
    pixels := memset_zero screen.pixels
      ((screen.w * screen.w * (if vid.rgb32 then 4 else 2)) % 2 ^ 32) }
  let display_mode := display_mode_string vid.frame_width vid.frame_height vid.rgb32
  if vid.rgb32 then
    let screen := sdl_dingux_blit_text32 A vid screen
      A.FONT_WIDTH_STRIDE A.FONT_WIDTH_STRIDE error_msg
    sdl_dingux_blit_text32 A vid screen
      A.FONT_WIDTH_STRIDE (A.FONT_WIDTH_STRIDE + A.FONT_HEIGHT_STRIDE) display_mode
  else
    let screen := sdl_dingux_blit_text16 A vid screen
      A.FONT_WIDTH_STRIDE A.FONT_WIDTH_STRIDE error_msg
    sdl_dingux_blit_text16 A vid screen
      A.FONT_WIDTH_STRIDE (A.FONT_WIDTH_STRIDE + A.FONT_HEIGHT_STRIDE) display_mode

/-! ## Output mode manager (`sdl_dingux_set_output`) -/

/-- The `surface_flags` local: `SDL_HWSURFACE | SDL_TRIPLEBUF | SDL_FULLSCREEN` with
vsync, `SDL_HWSURFACE | SDL_FULLSCREEN` without. -/
def surface_flags (vsync : Bool) : SurfaceFlags :=
  if vsync then ⟨true, true, true⟩ else ⟨true, false, true⟩

/-- The `bpp` argument `rgb32 ? 32 : 16`. -/
def bits_per_pixel (rgb32 : Bool) : Nat := if rgb32 then 32 else 16

/-- One call of `SDL_SetVideoMode`: its result, and the trace with the request appended. -/
def call_SDL_SetVideoMode (E : Env) (log : List Event) (width height bpp : Nat)
    (flags : SurfaceFlags) : Option SDL_Surface × List Event :=
  (E.SDL_SetVideoMode log width height bpp flags,
   log ++ [Event.SDL_SetVideoMode width height bpp flags])

/-- `sdl_dingux_set_output(vid, width, height, rgb32)`. -/
def sdl_dingux_set_output (E : Env) (s : Sys) (width height : Nat) (rgb32 : Bool) : Sys :=
  let s := s.emit (Event.set_output width height rgb32)
  let flags := surface_flags s.vid.vsync
  let vid := { s.vid with frame_width := width, frame_height := height }
  let r := call_SDL_SetVideoMode E s.log vid.frame_width vid.frame_height
    (bits_per_pixel rgb32) flags
  let vid := { vid with screen := r.1 }
  match r.1 with
  | none =>
    let r2 := call_SDL_SetVideoMode E r.2 SDL_DINGUX_MENU_WIDTH SDL_DINGUX_MENU_HEIGHT
      (bits_per_pixel rgb32) flags
    { vid := { vid with screen := r2.1, mode_valid := false }, log := r2.2 }
  | some _ =>
    { vid := { vid with mode_valid := true }, log := r.2 }

/-! ## Frame state machine (`sdl_dingux_gfx_frame`) -/

/-- The `unsigned y` argument of the on-screen message:
`vid->screen->h - (FONT_HEIGHT + FONT_WIDTH_STRIDE)` computed in `int` and converted. -/
def osd_text_y (A : Assets) (screen : SDL_Surface) : Nat :=
  (((screen.h : Int) - ((A.FONT_HEIGHT : Int) + (A.FONT_WIDTH_STRIDE : Int))) % 2 ^ 32).toNat

/-- The block `if (msg) { ... }` of `sdl_dingux_gfx_frame`: the on-screen text, drawn by
the 32-bit blitter only when the driver is 32-bit and the menu is not active.
`msg = none` is the null pointer. -/
def osd_text (A : Assets) (vid : sdl_dingux_video) (screen : SDL_Surface)
    (msg : Option (List Nat)) : SDL_Surface :=
  match msg with
  | none => screen
  | some msg =>
    if vid.rgb32 && !vid.menu_active then
      sdl_dingux_blit_text32 A vid screen A.FONT_WIDTH_STRIDE (osd_text_y A screen) msg
    else
      sdl_dingux_blit_text16 A vid screen A.FONT_WIDTH_STRIDE (osd_text_y A screen) msg

/-- The tail of `sdl_dingux_gfx_frame` from `if (msg)` on: on-screen text, unlock,
flip, `return true`.  `screen` is the surface bound to `s.vid`. -/
def frame_present (A : Assets) (s : Sys) (screen : SDL_Surface) (msg : Option (List Nat)) :
    Sys × Option Bool :=
  let screen := osd_text A s.vid screen msg
  let s := { s with vid := { s.vid with screen := some screen } }
  let s := if screen.mustlock then s.emit Event.SDL_UnlockSurface else s
  let s := s.emit Event.SDL_Flip
  (s, some true)

/-- `sdl_dingux_gfx_frame(data, frame, width, height, frame_count, pitch, msg, video_info)`
(built with `HAVE_MENU`).  `frame = none` and `msg = none` are null pointers.  The
result is the new state and the return value; the return value `none` means
that the call dereferenced a null `vid->screen` and did not return. -/
def sdl_dingux_gfx_frame (E : Env) (A : Assets) (s : Sys) (frame : Option Mem)
    (width height pitch : Nat) (msg : Option (List Nat)) : Sys × Option Bool :=
  match frame with
  | none => (s, some true)
  | some frame =>
    let s := s.emit Event.menu_driver_frame
    if !s.vid.menu_active then
      let s :=
        if s.vid.was_in_menu || s.vid.frame_width != width || s.vid.frame_height != height then
          sdl_dingux_set_output E s width height s.vid.rgb32
        else s
      match s.vid.screen with
      | none => (s, none)
      | some screen =>
        let s := if screen.mustlock then s.emit Event.SDL_LockSurface else s
        let screen :=
          if s.vid.mode_valid then
            if s.vid.rgb32 then
              { screen with pixels :=
                  sdl_dingux_blit_frame32 screen.pixels frame width height screen.pitch pitch }
            else
              { screen with pixels :=
                  sdl_dingux_blit_frame16 screen.pixels frame width height screen.pitch pitch }
          else sdl_dingux_blit_video_mode_error_msg A s.vid screen
        let s := { s with vid := { s.vid with screen := some screen, was_in_menu := false } }
        frame_present A s screen msg
    else
      let s :=
        if !s.vid.was_in_menu then
          let s := sdl_dingux_set_output E s SDL_DINGUX_MENU_WIDTH SDL_DINGUX_MENU_HEIGHT false
          { s with vid := { s.vid with was_in_menu := true } }
        else s
      match s.vid.screen with
      | none => (s, none)
      | some screen =>
        let s := if screen.mustlock then s.emit Event.SDL_LockSurface else s
        let pixels :=
          sdl_dingux_blit_frame16 screen.pixels s.vid.menu_texture
            SDL_DINGUX_MENU_WIDTH SDL_DINGUX_MENU_HEIGHT screen.pitch
            (SDL_DINGUX_MENU_WIDTH * 2)
        let screen := { screen with pixels := pixels }
        let s := { s with vid := { s.vid with screen := some screen } }
        frame_present A s screen msg

/-- The state in which `sdl_dingux_gfx_frame` (non-null `frame`) first dereferences
`vid->screen`: after `menu_driver_frame` and the mode change of the frame, if any. -/
def frame_mode_step (E : Env) (s : Sys) (width height : Nat) : Sys :=
  let s := s.emit Event.menu_driver_frame
  if !s.vid.menu_active then
    if s.vid.was_in_menu || s.vid.frame_width != width || s.vid.frame_height != height then
      sdl_dingux_set_output E s width height s.vid.rgb32
    else s
  else
    if !s.vid.was_in_menu then
      let s := sdl_dingux_set_output E s SDL_DINGUX_MENU_WIDTH SDL_DINGUX_MENU_HEIGHT false
      { s with vid := { s.vid with was_in_menu := true } }
    else s

/-- What `sdl_dingux_gfx_frame` draws on the bound surface `screen` before the
on-screen text: the content frame or the diagnostic message, or the menu texture. -/
def frame_draw (A : Assets) (vid : sdl_dingux_video) (screen : SDL_Surface) (frame : Mem)
    (width height pitch : Nat) : SDL_Surface :=
  if !vid.menu_active then
    if vid.mode_valid then
      if vid.rgb32 then
        { screen with pixels :=
            sdl_dingux_blit_frame32 screen.pixels frame width height screen.pitch pitch }
      else
        { screen with pixels :=
            sdl_dingux_blit_frame16 screen.pixels frame width height screen.pitch pitch }
    else sdl_dingux_blit_video_mode_error_msg A vid screen
  else
    { screen with pixels :=
        (sdl_dingux_blit_frame16 screen.pixels vid.menu_texture
          SDL_DINGUX_MENU_WIDTH SDL_DINGUX_MENU_HEIGHT screen.pitch (SDL_DINGUX_MENU_WIDTH * 2)) }

/-- The external calls of `sdl_dingux_gfx_frame` once the surface is bound. -/
def frame_surface_calls (screen : SDL_Surface) : List Event :=
  if screen.mustlock then [Event.SDL_LockSurface, Event.SDL_UnlockSurface, Event.SDL_Flip]
  else [Event.SDL_Flip]

/-! ## Other driver operations -/

/-- `sdl_dingux_set_texture_enable(data, state, full_screen)`. -/
def sdl_dingux_set_texture_enable (s : Sys) (state : Bool) : Sys :=
  if s.vid.menu_active != state then { s with vid := { s.vid with menu_active := state } } else s

/-- `sdl_dingux_set_texture_frame(data, frame, rgb32, width, height, alpha)`. -/
def sdl_dingux_set_texture_frame (s : Sys) (frame : Mem) (rgb32 : Bool) (width height : Nat) :
    Sys :=
  if rgb32 || decide (width > SDL_DINGUX_MENU_WIDTH) || decide (height > SDL_DINGUX_MENU_HEIGHT) then s
  else
    { s with vid := { s.vid with
        menu_texture :=
          MemCpy.apply ⟨0, 0, ((width * height) % 2 ^ 32 * 2) % 2 ^ 32⟩ frame s.vid.menu_texture } }

/-- `sdl_dingux_gfx_set_nonblock_state(data, toggle, adaptive_vsync_enabled, swap_interval)`
on a non-null `data`. -/
def sdl_dingux_gfx_set_nonblock_state (E : Env) (s : Sys) (toggle : Bool) : Sys :=
  let vsync := !toggle
  if s.vid.vsync != vsync then
    let s := { s with vid := { s.vid with vsync := vsync } }
    sdl_dingux_set_output E s s.vid.frame_width s.vid.frame_height s.vid.rgb32
  else s

/-- `sdl_dingux_gfx_alive(data)` with `sdl_dingux_gfx_check_window`: `quit_event` tells
whether an `SDL_QUIT` event was pending.  Returns the state and `!vid->quitting`. -/
def sdl_dingux_gfx_alive (s : Sys) (quit_event : Bool) : Sys × Bool :=
  let s := if quit_event then { s with vid := { s.vid with quitting := true } } else s
  (s, !s.vid.quitting)

/-- `sdl_dingux_set_filtering(data, index, smooth, ctx_scaling)` on a non-null `data`;
`settings = none` is a null configuration pointer. -/
def sdl_dingux_set_filtering (s : Sys) (settings : Option Settings) : Sys :=
  match settings with
  | none => s
  | some st =>
    let ipu_filter_type := st.video_dingux_ipu_filter_type
    if s.vid.filter_type != ipu_filter_type then
      let s := s.emit (Event.dingux_ipu_set_filter_type ipu_filter_type)
      { s with vid := { s.vid with filter_type := ipu_filter_type } }
    else s

/-- `sdl_dingux_apply_state_changes(data)` on a non-null `data`. -/
def sdl_dingux_apply_state_changes (s : Sys) (settings : Option Settings) : Sys :=
  match settings with
  | none => s
  | some st =>
    let ipu_keep_aspect := st.video_dingux_ipu_keep_aspect
    let ipu_integer_scaling := st.video_scale_integer
    let s :=
      if s.vid.keep_aspect != ipu_keep_aspect then
        let s := s.emit (Event.dingux_ipu_set_aspect_ratio_enable ipu_keep_aspect)
        { s with vid := { s.vid with keep_aspect := ipu_keep_aspect } }
      else s
    if s.vid.integer_scaling != ipu_integer_scaling then
      let s := s.emit (Event.dingux_ipu_set_integer_scaling_enable ipu_integer_scaling)
      { s with vid := { s.vid with integer_scaling := ipu_integer_scaling } }
    else s

/-- `sdl_dingux_gfx_free(data)` on a non-null `data`: the trace afterwards. -/
def sdl_dingux_gfx_free (A : Assets) (s : Sys) : List Event :=
  let log := s.log ++ [Event.SDL_QuitSubSystem]
  let log := if !s.vid.keep_aspect then
    log ++ [Event.dingux_ipu_set_aspect_ratio_enable true] else log
  let log := if s.vid.integer_scaling then
    log ++ [Event.dingux_ipu_set_integer_scaling_enable false] else log
  if s.vid.filter_type != A.DINGUX_IPU_FILTER_BICUBIC then
    log ++ [Event.dingux_ipu_set_filter_type A.DINGUX_IPU_FILTER_BICUBIC]
  else log

/-- The fields of `video_info_t` read by `sdl_dingux_gfx_init`. -/
structure video_info where
  rgb32 : Bool
  vsync : Bool

/-- The zero-filled `sdl_dingux_video_t` returned by `calloc`. -/
def calloc_vid : sdl_dingux_video :=
  { screen := none, frame_width := 0, frame_height := 0, filter_type := 0,
    font_colour32 := 0, font_colour16 := 0, menu_texture := fun _ => 0,
    font_lut := fun _ _ => false, rgb32 := false, vsync := false, keep_aspect := false,
    integer_scaling := false, menu_active := false, was_in_menu := false,
    quitting := false, mode_valid := false }

/-- `sdl_dingux_gfx_init(video, input, input_data)`, the input driver wiring left out.
`log` is the trace before the call, `sdl_init_ok` tells whether `SDL_Init` /
`SDL_InitSubSystem` succeeded and `calloc_ok` whether the allocation did.  The result
is the handle (`none` for `NULL`) and the trace. -/
def sdl_dingux_gfx_init (E : Env) (A : Assets) (log : List Event) (video : video_info)
    (settings : Settings) (sdl_init_ok calloc_ok : Bool) : Option sdl_dingux_video × List Event :=
  let ipu_keep_aspect := settings.video_dingux_ipu_keep_aspect
  let ipu_integer_scaling := settings.video_scale_integer
  let ipu_filter_type := settings.video_dingux_ipu_filter_type
  let flags := surface_flags video.vsync
  let log := log ++ [Event.dingux_ipu_set_downscaling_enable true,
    Event.dingux_ipu_set_aspect_ratio_enable ipu_keep_aspect,
    Event.dingux_ipu_set_integer_scaling_enable ipu_integer_scaling,
    Event.dingux_ipu_set_filter_type ipu_filter_type]
  if !sdl_init_ok then (none, log)
  else if !calloc_ok then (none, log)
  else
    let vid := calloc_vid
    let r := call_SDL_SetVideoMode E log SDL_DINGUX_MENU_WIDTH SDL_DINGUX_MENU_HEIGHT
      (bits_per_pixel video.rgb32) flags
    let vid := { vid with screen := r.1 }
    match r.1 with
    | none => (none, sdl_dingux_gfx_free A { vid := vid, log := r.2 })
    | some _ =>
      let vid := { vid with
        frame_width := SDL_DINGUX_MENU_WIDTH, frame_height := SDL_DINGUX_MENU_HEIGHT,
        rgb32 := video.rgb32, vsync := video.vsync, keep_aspect := ipu_keep_aspect,
        integer_scaling := ipu_integer_scaling, filter_type := ipu_filter_type,
        menu_active := false, was_in_menu := false, quitting := false, mode_valid := true }
      let log := r.2 ++ [Event.SDL_ShowCursor]
      let colours := sdl_dingux_init_font_color (some settings)
      let vid := { vid with font_colour32 := colours.1, font_colour16 := colours.2 }
      let vid := { vid with font_lut := sdl_dingux_init_font_lut A vid.font_lut }
      (some vid, log)

/-! ## Sessions -/

/-- One call of a public driver operation after `init`, with its arguments. -/
inductive Op where
  | frame (frame : Option Mem) (width height pitch : Nat) (msg : Option (List Nat))
  | set_texture_enable (state : Bool)
  | set_texture_frame (frame : Mem) (rgb32 : Bool) (width height : Nat)
  | set_nonblock_state (toggle : Bool)
  | set_filtering (settings : Option Settings)
  | apply_state_changes (settings : Option Settings)
  | alive (quit_event : Bool)

/-- The state after one operation; `none` when the operation did not return. -/
def step (E : Env) (A : Assets) (s : Sys) : Op → Option Sys
  | Op.frame frame width height pitch msg =>
    let r := sdl_dingux_gfx_frame E A s frame width height pitch msg
    match r.2 with
    | none => none
    | some _ => some r.1
  | Op.set_texture_enable state => some (sdl_dingux_set_texture_enable s state)
  | Op.set_texture_frame frame rgb32 width height =>
    some (sdl_dingux_set_texture_frame s frame rgb32 width height)
  | Op.set_nonblock_state toggle => some (sdl_dingux_gfx_set_nonblock_state E s toggle)
  | Op.set_filtering settings => some (sdl_dingux_set_filtering s settings)
  | Op.apply_state_changes settings => some (sdl_dingux_apply_state_changes s settings)
  | Op.alive quit_event => some (sdl_dingux_gfx_alive s quit_event).1

/-- The state after a sequence of operations, each of which returned. -/
def run (E : Env) (A : Assets) : Sys → List Op → Option Sys
  | s, [] => some s
  | s, op :: ops =>
    match step E A s op with
    | none => none
    | some s1 => run E A s1 ops

/-- States the driver can be in: after a successful `init` and any sequence of
public operations that returned. -/
inductive Reachable (E : Env) (A : Assets) : Sys → Prop where
  | init (log : List Event) (video : video_info) (settings : Settings) (vid : sdl_dingux_video)
      (log1 : List Event)
      (h : sdl_dingux_gfx_init E A log video settings true true = (some vid, log1)) :
      Reachable E A { vid := vid, log := log1 }
  | step (s s1 : Sys) (op : Op) (hs : Reachable E A s) (h : step E A s op = some s1) :
      Reachable E A s1

/-- The display-mode request made by an event, as `(width, height, bpp)`. -/
def Event.mode_request : Event → Option (Nat × Nat × Nat)
  | Event.SDL_SetVideoMode width height bpp _ => some (width, height, bpp)
  | _ => none

/-- The arguments of the entry into `sdl_dingux_set_output` marked by an event. -/
def Event.set_output_call : Event → Option (Nat × Nat × Bool)
  | Event.set_output width height rgb32 => some (width, height, rgb32)
  | _ => none

/-- The display-mode requests in a trace, oldest first, as `(width, height, bpp)`. -/
def mode_requests (log : List Event) : List (Nat × Nat × Nat) :=
  log.filterMap Event.mode_request

/-- The entries into `sdl_dingux_set_output` in a trace, oldest first, with their arguments. -/
def set_output_calls (log : List Event) : List (Nat × Nat × Bool) :=
  log.filterMap Event.set_output_call

/-- Width, height and pitch of a surface. -/
def SDL_Surface.geometry (screen : SDL_Surface) : Nat × Nat × Nat :=
  (screen.w, screen.h, screen.pitch)

/-- The display-mode requests that one call of `sdl_dingux_gfx_frame` adds to the trace. -/
def frame_requests (E : Env) (A : Assets) (s : Sys) (frame : Option Mem)
    (width height pitch : Nat) (msg : Option (List Nat)) : List (Nat × Nat × Nat) :=
  (mode_requests (sdl_dingux_gfx_frame E A s frame width height pitch msg).1.log).drop
    (mode_requests s.log).length

/-- The assumption under which the source binds the fallback surface unchecked
("this cannot fail"): the request for the menu resolution that directly follows a
failed request, with the same depth and flags, returns a surface. -/
def FallbackNeverFails (E : Env) : Prop :=
  ∀ log width height bpp flags,
    E.SDL_SetVideoMode log width height bpp flags = none →
    E.SDL_SetVideoMode (log ++ [Event.SDL_SetVideoMode width height bpp flags])
      SDL_DINGUX_MENU_WIDTH SDL_DINGUX_MENU_HEIGHT bpp flags ≠ none

/-! ## Properties of the frame state machine, as the specification words them -/

/-- The mode change the transition rule asks of a frame: none, or one call of the
output mode manager with the given arguments. -/
def transition_rule (vid : sdl_dingux_video) (width height : Nat) : List (Nat × Nat × Bool) :=
  if vid.menu_active then
    if vid.was_in_menu then [] else [(320, 240, false)]
  else
    if vid.was_in_menu = true ∨ vid.frame_width ≠ width ∨ vid.frame_height ≠ height then
      [(width, height, vid.rgb32)]
    else []

/-- The diagnostic rendering on the surface `screen`: the pixel buffer cleared as
the source clears it, the message for an unsupported mode at `(FONT_WIDTH_STRIDE,
FONT_WIDTH_STRIDE)` and, one text row below, the display-mode string
`"> WxH, XRGB8888"` (32-bit driver) or `"> WxH, RGB565"` (16-bit driver), `W` and `H`
in decimal, drawn by the text blitter of the driver's format. -/
def diagnostic_surface (A : Assets) (vid : sdl_dingux_video) (screen : SDL_Surface)
    (W H : Nat) : SDL_Surface :=
  let cleared : SDL_Surface := { screen with
    pixels := memset_zero screen.pixels
      ((screen.w * screen.w * (if vid.rgb32 then 4 else 2)) % 2 ^ 32) }
  if vid.rgb32 then
    sdl_dingux_blit_text32 A vid
      (sdl_dingux_blit_text32 A vid cleared A.FONT_WIDTH_STRIDE A.FONT_WIDTH_STRIDE
        A.MSG_UNSUPPORTED_VIDEO_MODE)
      A.FONT_WIDTH_STRIDE (A.FONT_WIDTH_STRIDE + A.FONT_HEIGHT_STRIDE)
      (ascii "> " ++ ascii (Nat.repr W) ++ ascii "x" ++ ascii (Nat.repr H) ++ ascii ", XRGB8888")
  else
    sdl_dingux_blit_text16 A vid
      (sdl_dingux_blit_text16 A vid cleared A.FONT_WIDTH_STRIDE A.FONT_WIDTH_STRIDE
        A.MSG_UNSUPPORTED_VIDEO_MODE)
      A.FONT_WIDTH_STRIDE (A.FONT_WIDTH_STRIDE + A.FONT_HEIGHT_STRIDE)
      (ascii "> " ++ ascii (Nat.repr W) ++ ascii "x" ++ ascii (Nat.repr H) ++ ascii ", RGB565")

/-- The driver shows content of resolution `W`x`H` in degraded mode: the menu is
off, the last mode change asked for `W`x`H` and failed, and `screen` is bound. -/
def Degraded (s : Sys) (W H : Nat) (screen : SDL_Surface) : Prop :=
  s.vid.menu_active = false ∧ s.vid.was_in_menu = false ∧ s.vid.frame_width = W ∧
  s.vid.frame_height = H ∧ s.vid.mode_valid = false ∧ s.vid.screen = some screen

/-! ## Properties of the frame blitter, as the specification words them -/

/-- `result` is `dst` with its first `n` bytes replaced by the first `n` bytes of `src`. -/
def BulkCopied (result dst src : Mem) (n : Nat) : Prop :=
  (∀ k, k < n → result k = src k) ∧ (∀ k, n ≤ k → result k = dst k)

/-- Row-by-row copy of 16-bit pixels: pixel `c` of row `y` of the destination (row
stride `out_stride` pixels) is pixel `c` of row `y` of the source (row stride
`in_stride` pixels) for `y < height`, `c < width`; every other destination pixel
is unchanged. -/
def RowCopied16 (result dst src : Mem) (width height out_stride in_stride : Nat) : Prop :=
  (∀ y c, y < height → c < width →
      pixel16 result (y * out_stride + c) = pixel16 src (y * in_stride + c)) ∧
  (∀ k, (¬ ∃ y c, y < height ∧ c < width ∧ k = y * out_stride + c) →
      pixel16 result k = pixel16 dst k)

/-- Row-by-row copy of 32-bit pixels, as `RowCopied16`. -/
def RowCopied32 (result dst src : Mem) (width height out_stride in_stride : Nat) : Prop :=
  (∀ y c, y < height → c < width →
      pixel32 result (y * out_stride + c) = pixel32 src (y * in_stride + c)) ∧
  (∀ k, (¬ ∃ y c, y < height ∧ c < width ∧ k = y * out_stride + c) →
      pixel32 result k = pixel32 dst k)

/-- The calls are `height` row copies of `row_bytes` bytes each. -/
def RowsCopied (copies : List MemCpy) (height row_bytes : Nat) : Prop :=
  copies.length = height ∧ ∀ c ∈ copies, c.n = row_bytes

/-- No call reads the source at a byte offset `≥ src_bound` or writes the
destination at a byte offset `≥ dst_bound`. -/
def AccessBelow (copies : List MemCpy) (src_bound dst_bound : Nat) : Prop :=
  ∀ c ∈ copies, (∀ k, c.reads k → k < src_bound) ∧ (∀ k, c.writes k → k < dst_bound)

/-! ## Concrete instances -/

/-- Modelled from the spec: `decodeNextCodePoint`, the UTF-8 walk `utf8_walk` of
`encodings/utf.h`, which this source file only calls.  One to four bytes are
consumed according to the first byte; a byte past the end reads as the
terminator.  Used for concrete instances of `Assets` only. -/
def utf8_walk_bytes (str : List Nat) : Nat × List Nat :=
  let first := str.headD 0
  let str := str.tail
  if first < 128 then (first, str)
  else
    let ret := str.headD 0 &&& 0x3F
    let str := str.tail
    if first ≥ 0xE0 then
      let ret := (ret <<< 6) ||| (str.headD 0 &&& 0x3F)
      let str := str.tail
      if first ≥ 0xF0 then
        let ret := (ret <<< 6) ||| (str.headD 0 &&& 0x3F)
        let str := str.tail
        (ret ||| ((first &&& 7) <<< 18), str)
      else (ret ||| ((first &&& 15) <<< 12), str)
    else (ret ||| ((first &&& 31) <<< 6), str)

/-- An instance of the header parameters: 5x10 glyph cells with strides 6 and 11,
seven bytes of bitmap per glyph, a font in which only the glyph of `A` has a
pixel (its top-left one), and `"Bad mode"` as the message for an unsupported mode. -/
def demo_assets : Assets :=
  { FONT_WIDTH := 5, FONT_HEIGHT := 10, FONT_WIDTH_STRIDE := 6, FONT_HEIGHT_STRIDE := 11,
    FONT_OFFSET := fun x => x * ((10 * 5 + 7) / 8),
    bitmap_bin := fun k => if k = 65 * 7 then 1 else 0,
    utf8_walk := utf8_walk_bytes,
    MSG_UNSUPPORTED_VIDEO_MODE := ascii "Bad mode",
    DINGUX_IPU_FILTER_BICUBIC := 0 }

/-- A zero-filled surface of the given size and pitch that needs no locking. -/
def demo_surface (w h pitch : Nat) : SDL_Surface :=
  { w := w, h := h, pitch := pitch, mustlock := false, pixels := fun _ => 0 }

/-- A driver state with white text colours and the glyph table of `demo_assets`,
bound to `screen`. -/
def demo_vid (rgb32 : Bool) (screen : SDL_Surface) : sdl_dingux_video :=
  { calloc_vid with
    screen := some screen, frame_width := screen.w, frame_height := screen.h,
    font_colour32 := 0xFFFFFF, font_colour16 := 0xFFFF,
    font_lut := fun symbol_index k =>
      font_lut_entry demo_assets symbol_index (k % 5) (k / 5),
    rgb32 := rgb32, keep_aspect := true, mode_valid := true }

/-- A display that grants exactly the modes of at most 320x240. -/
def demo_env : Env :=
  { SDL_SetVideoMode := fun _ width height bpp _ =>
      if width ≤ 320 ∧ height ≤ 240 then some (demo_surface width height (width * (bpp / 8)))
      else none }

/-- A configuration: white message colour, aspect kept, no integer scaling, filter 0. -/
def demo_settings : Settings :=
  { video_msg_color_r := 255, video_msg_color_g := 255, video_msg_color_b := 255,
    video_dingux_ipu_keep_aspect := true, video_scale_integer := false,
    video_dingux_ipu_filter_type := 0 }

/-- The state right after `init` on `demo_env` from an empty trace (`init` succeeds
there; the zero-filled state stands for a null handle). -/
def demo_boot (rgb32 vsync : Bool) : Sys :=
  { vid := (sdl_dingux_gfx_init demo_env demo_assets [] ⟨rgb32, vsync⟩ demo_settings
      true true).1.getD calloc_vid,
    log := (sdl_dingux_gfx_init demo_env demo_assets [] ⟨rgb32, vsync⟩ demo_settings
      true true).2 }

/-- A driver state bound to a zero-filled 320x240 surface of its format, empty trace. -/
def demo_sys (rgb32 : Bool) : Sys :=
  { vid := demo_vid rgb32 (demo_surface 320 240 (if rgb32 then 1280 else 640)), log := [] }

/-- A session on a 32-bit driver, menu switched on, one
menu frame, then the vsync flag toggled. -/
def menu_session : List Op :=
  [Op.set_texture_enable true, Op.frame (some (fun _ => 0)) 320 240 640 none,
   Op.set_nonblock_state false]

/-- The state after `menu_session` on the 32-bit demo driver. -/
def menu_state : Sys :=
  (run demo_env demo_assets (demo_boot true false) menu_session).getD (demo_boot true false)

/-! ## Scaler state -/

/-- The hardware scaler as the claims model it: the three settings the driver
configures, changed only by the driver's scaler calls. -/
structure Scaler where
  aspect_ratio_enable : Bool
  integer_scaling_enable : Bool
  filter_type : Nat
deriving DecidableEq, Repr

/-- The scaler after one event of the trace. -/
def Scaler.call (sc : Scaler) : Event → Scaler
  | Event.dingux_ipu_set_aspect_ratio_enable b => { sc with aspect_ratio_enable := b }
  | Event.dingux_ipu_set_integer_scaling_enable b => { sc with integer_scaling_enable := b }
  | Event.dingux_ipu_set_filter_type t => { sc with filter_type := t }
  | _ => sc

/-- The scaler after a trace, starting from `sc`. -/
def scaler_after (sc : Scaler) (log : List Event) : Scaler := log.foldl Scaler.call sc

/-- The driver's cached copy of the scaler settings. -/
def cached_scaler (vid : sdl_dingux_video) : Scaler :=
  { aspect_ratio_enable := vid.keep_aspect, integer_scaling_enable := vid.integer_scaling,
    filter_type := vid.filter_type }

/-- The documented default state of the scaler: aspect ratio kept, no integer
scaling, bicubic filter. -/
def default_scaler (A : Assets) : Scaler :=
  { aspect_ratio_enable := true, integer_scaling_enable := false,
    filter_type := A.DINGUX_IPU_FILTER_BICUBIC }

/-! ## Pixels of the text surface -/

/-- The two bytes `store16` writes for the value `v`, as a 16-bit pixel. -/
def bytes16 (v : Nat) : Nat × Nat := (v % 256, v / 256 % 256)

/-- The four bytes `store32` writes for the value `v`, as a 32-bit pixel. -/
def bytes32 (v : Nat) : Nat × Nat × Nat × Nat :=
  (v % 256, v / 256 % 256, v / 65536 % 256, v / 16777216 % 256)

/-- The glyph index drawn for a decoded code point: `if (symbol == 339) symbol = 156;
if (symbol == 338) symbol = 140;` of the text blitters. -/
def glyph_index (symbol : Nat) : Nat :=
  let symbol := if symbol = 339 then 156 else symbol
  if symbol = 338 then 140 else symbol

/-! ## Strings as decoded code points -/

/-- One item of a string as the text loop reads it: a space byte, or the code
point returned by `utf8_walk`. -/
inductive Token where
  | space
  | cp (symbol : Nat)
deriving DecidableEq, Repr

/-- Whether the text loop draws or steps over the item: false for a code point
whose glyph index is `SDL_DINGUX_NUM_FONT_GLYPHS` or more. -/
def Token.supported : Token → Bool
  | Token.space => true
  | Token.cp symbol => decide (glyph_index (symbol % 2 ^ 32) < SDL_DINGUX_NUM_FONT_GLYPHS)

/-- The items of `str` up to its terminator, read as the text loop reads them: a
space byte is one item, any other byte starts a code point decoded by `utf8_walk`.
The first argument bounds the number of items. -/
def decode_string (A : Assets) : Nat → List Nat → List Token
  | 0, _ => []
  | fuel + 1, str =>
    match str with
    | [] => []
    | c :: rest =>
      if c = 0 then []
      else if c = 32 then Token.space :: decode_string A fuel rest
      else
        let walked := A.utf8_walk (c :: rest)
        Token.cp walked.1 :: decode_string A fuel walked.2

/-- The text loop over a sequence of decoded items: the `x` check before each
item, a cell to the right after a space or a drawn glyph, nothing for a code point
without a glyph. -/
def blit_tokens (A : Assets) (font_lut : Nat → Nat → Bool)
    (colour screen_stride screen_width y : Nat) : Nat → List Token → List (Nat × Nat)
  | _, [] => []
  | x, t :: ts =>
    if (x + A.FONT_WIDTH_STRIDE + 1) % 2 ^ 32 ≥ screen_width then []
    else
      match t with
      | Token.space =>
        blit_tokens A font_lut colour screen_stride screen_width y
          ((x + A.FONT_WIDTH_STRIDE) % 2 ^ 32) ts
      | Token.cp symbol =>
        if glyph_index (symbol % 2 ^ 32) ≥ SDL_DINGUX_NUM_FONT_GLYPHS then
          blit_tokens A font_lut colour screen_stride screen_width y x ts
        else
          glyph_writes A (font_lut (glyph_index (symbol % 2 ^ 32))) colour screen_stride x y ++
            blit_tokens A font_lut colour screen_stride screen_width y
              ((x + A.FONT_WIDTH_STRIDE) % 2 ^ 32) ts

/-! ## Negotiated display mode -/

/-- What a display-mode request in the trace asked for, as `(width, height, bpp)`,
and whether `SDL_SetVideoMode` granted it; `before` is the trace before the
request.  `none` for an event that is not a request. -/
def mode_request_result (E : Env) (before : List Event) :
    Event → Option ((Nat × Nat × Nat) × Bool)
  | Event.SDL_SetVideoMode width height bpp flags =>
    some ((width, height, bpp), (E.SDL_SetVideoMode before width height bpp flags).isSome)
  | _ => none

/-- The most recent display-mode request of a trace given newest first. -/
def last_mode_request_rev (E : Env) : List Event → Option ((Nat × Nat × Nat) × Bool)
  | [] => none
  | e :: before =>
    match mode_request_result E before.reverse e with
    | some r => some r
    | none => last_mode_request_rev E before

/-- The most recent display-mode request of a trace, as `(width, height, bpp)`, and
whether it was granted. -/
def last_mode_request (E : Env) (log : List Event) : Option ((Nat × Nat × Nat) × Bool) :=
  last_mode_request_rev E log.reverse

/-- The driver's record of a valid mode agrees with the display: when `mode_valid`
is set, a surface is bound, the most recent request was for the recorded frame size
and was granted, and outside the menu it was for the driver's pixel format. -/
def ModeNegotiated (E : Env) (s : Sys) : Prop :=
  s.vid.mode_valid = true →
    s.vid.screen ≠ none ∧
    ∃ bpp, last_mode_request E s.log =
        some ((s.vid.frame_width, s.vid.frame_height, bpp), true) ∧
      (s.vid.was_in_menu = false → bpp = bits_per_pixel s.vid.rgb32)

/-- A 320x240 16-bit surface with pitch 640 whose memory, from the start of the
pixel buffer on, holds the byte `0xAA` everywhere. -/
def dirty_surface : SDL_Surface :=
  { w := 320, h := 240, pitch := 640, mustlock := false, pixels := fun _ => 0xAA }

/-! # Theorems -/

/-! ### Lemmas on the row loop -/

theorem run_copies_untouched (src : Mem) (cs : List MemCpy) (dst : Mem) (k : Nat)
    (h : ∀ c ∈ cs, ¬ c.writes k) : run_copies src cs dst k = dst k := by
  induction cs generalizing dst with
  | nil => rfl
  | cons c cs ih =>
    have hc : ¬ c.writes k := h c (List.mem_cons_self _ _)
    have hrest : ∀ c' ∈ cs, ¬ c'.writes k := fun c' hc' => h c' (List.mem_cons_of_mem _ hc')
    simp only [run_copies]
    rw [ih _ hrest]
    unfold MemCpy.writes at hc
    simp [MemCpy.apply, hc]

theorem mem_blit_rows {n si so : Nat} {c : MemCpy} :
    ∀ {rows ip op : Nat}, c ∈ blit_rows n si so rows ip op →
      ∃ y, y < rows ∧ c = ⟨op + y * so, ip + y * si, n⟩ := by
  intro rows
  induction rows with
  | zero => intro ip op h; simp [blit_rows] at h
  | succ r ih =>
    intro ip op h
    simp only [blit_rows, List.mem_cons] at h
    rcases h with h | h
    · exact ⟨0, Nat.succ_pos _, by simp [h]⟩
    · obtain ⟨y, hy, hc⟩ := ih h
      refine ⟨y + 1, Nat.succ_lt_succ hy, ?_⟩
      rw [hc]
      simp only [MemCpy.mk.injEq, and_true]
      constructor <;> ring

theorem blit_rows_mem (n si so : Nat) :
    ∀ (rows ip op y : Nat), y < rows →
      (⟨op + y * so, ip + y * si, n⟩ : MemCpy) ∈ blit_rows n si so rows ip op := by
  intro rows
  induction rows with
  | zero => intro ip op y h; omega
  | succ r ih =>
    intro ip op y h
    simp only [blit_rows, List.mem_cons]
    cases y with
    | zero => left; simp
    | succ y =>
      right
      have := ih (ip + si) (op + so) y (by omega)
      have e1 : op + so + y * so = op + (y + 1) * so := by ring
      have e2 : ip + si + y * si = ip + (y + 1) * si := by ring
      rw [e1, e2] at this
      exact this

theorem blit_rows_length (n si so : Nat) :
    ∀ rows ip op : Nat, (blit_rows n si so rows ip op).length = rows := by
  intro rows
  induction rows with
  | zero => intro ip op; rfl
  | succ r ih => intro ip op; simp [blit_rows, ih]

theorem blit_rows_n {n si so rows ip op : Nat} {c : MemCpy}
    (h : c ∈ blit_rows n si so rows ip op) : c.n = n := by
  obtain ⟨y, _, hc⟩ := mem_blit_rows h
  rw [hc]

/-- Bytes outside every destination row are unchanged by the row loop. -/
theorem run_blit_rows_outside (src dst : Mem) (n si so rows ip op k : Nat)
    (h : ∀ y, y < rows → ¬ (op + y * so ≤ k ∧ k < op + y * so + n)) :
    run_copies src (blit_rows n si so rows ip op) dst k = dst k := by
  apply run_copies_untouched
  intro c hc
  obtain ⟨y, hy, rfl⟩ := mem_blit_rows hc
  exact h y hy

/-- When rows do not overlap in the destination (`n ≤ so`), the byte at offset
`b` of destination row `y` is the byte at offset `b` of source row `y`. -/
theorem run_blit_rows_inside (src : Mem) (n si so : Nat) (hn : n ≤ so) :
    ∀ (rows ip op : Nat) (dst : Mem) (y b : Nat), y < rows → b < n →
      run_copies src (blit_rows n si so rows ip op) dst (op + y * so + b)
        = src (ip + y * si + b) := by
  intro rows
  induction rows with
  | zero => intro ip op dst y b hy; omega
  | succ r ih =>
    intro ip op dst y b hy hb
    simp only [blit_rows, run_copies]
    cases y with
    | zero =>
      rw [run_blit_rows_outside]
      · simp [MemCpy.apply, hb]
      · intro y' _
        have : so ≤ so + y' * so := Nat.le_add_right _ _
        simp only [Nat.zero_mul, Nat.add_zero]
        omega
    | succ y =>
      have := ih (ip + si) (op + so) (MemCpy.apply ⟨op, ip, n⟩ src dst) y b (by omega) hb
      have e1 : op + so + y * so = op + (y + 1) * so := by ring
      have e2 : ip + si + y * si = ip + (y + 1) * si := by ring
      rw [e1, e2] at this
      exact this

/-! ## Frame blitter -/

theorem stride16_eq (pitch : Nat) (h : pitch < 2 ^ 17) : stride16 pitch = pitch / 2 := by
  simp only [stride16, Nat.shiftRight_eq_div_pow]
  omega

theorem stride32_eq (pitch : Nat) (h : pitch < 2 ^ 32) : stride32 pitch = pitch / 4 := by
  simp only [stride32, Nat.shiftRight_eq_div_pow]
  omega

theorem stride16_le (pitch : Nat) : 2 * stride16 pitch ≤ pitch := by
  simp only [stride16, Nat.shiftRight_eq_div_pow]
  omega

theorem stride32_le (pitch : Nat) : 4 * stride32 pitch ≤ pitch := by
  simp only [stride32, Nat.shiftRight_eq_div_pow]
  omega

theorem bulk_copied (dst src : Mem) (n : Nat) :
    BulkCopied (run_copies src [⟨0, 0, n⟩] dst) dst src n := by
  constructor
  · intro k hk
    simp [run_copies, MemCpy.apply, hk]
  · intro k hk
    simp [run_copies, MemCpy.apply, Nat.not_lt.mpr hk]

/-- C1 (as stated, refuted): with pitch 65536 and height 65536 the byte count
`src_pitch * height` wraps to 0 in `unsigned` arithmetic, so neither blitter copies
anything: destination byte 0, which lies among the first `p * height` bytes,
keeps its old value 0 instead of the source byte 1. -/
theorem blit_frame_equal_pitch_wraps :
    ¬ BulkCopied (sdl_dingux_blit_frame16 (fun _ => 0) (fun _ => 1) 1 65536 65536 65536)
        (fun _ => 0) (fun _ => 1) (65536 * 65536) ∧
    ¬ BulkCopied (sdl_dingux_blit_frame32 (fun _ => 0) (fun _ => 1) 1 65536 65536 65536)
        (fun _ => 0) (fun _ => 1) (65536 * 65536) := by
  constructor
  · intro h
    have := h.1 0 (by norm_num)
    simp [sdl_dingux_blit_frame16, sdl_dingux_blit_frame16_copies, run_copies, MemCpy.apply] at this
  · intro h
    have := h.1 0 (by norm_num)
    simp [sdl_dingux_blit_frame32, sdl_dingux_blit_frame32_copies, run_copies, MemCpy.apply] at this

/-- C1 (amended): for equal source and destination pitch `p` whose byte count
`p * height` fits in 32 bits, both frame blitters make the first `p * height` bytes
of the destination equal to those of the source, whatever `width` is, and leave
every destination byte at offset `≥ p * height` unchanged. -/
theorem blit_frame_equal_pitch (dst src : Mem) (width height p : Nat)
    (hfit : p * height < 2 ^ 32) :
    BulkCopied (sdl_dingux_blit_frame16 dst src width height p p) dst src (p * height) ∧
    BulkCopied (sdl_dingux_blit_frame32 dst src width height p p) dst src (p * height) := by
  have e : (p * height) % 2 ^ 32 = p * height := Nat.mod_eq_of_lt hfit
  constructor
  · simp only [sdl_dingux_blit_frame16, sdl_dingux_blit_frame16_copies, if_true, e]
    exact bulk_copied dst src _
  · simp only [sdl_dingux_blit_frame32, sdl_dingux_blit_frame32_copies, if_true, e]
    exact bulk_copied dst src _

/-- Witness of `blit_frame_equal_pitch`: a 512-byte pitch and 224 rows. -/
theorem blit_frame_equal_pitch_witness :
    512 * 224 < 2 ^ 32 ∧
    BulkCopied (sdl_dingux_blit_frame16 (fun _ => 0) (fun k => k % 256) 256 224 512 512)
        (fun _ => 0) (fun k => k % 256) (512 * 224) ∧
    BulkCopied (sdl_dingux_blit_frame32 (fun _ => 0) (fun k => k % 256) 256 224 512 512)
        (fun _ => 0) (fun k => k % 256) (512 * 224) :=
  ⟨by decide, blit_frame_equal_pitch (fun _ => 0) (fun k => k % 256) 256 224 512 (by decide)⟩

theorem rows_copied16 (dst src : Mem) (width height os is : Nat) (hw : width ≤ os) :
    RowCopied16 (run_copies src (blit_rows (width * 2) (2 * is) (2 * os) height 0 0) dst)
      dst src width height os is := by
  constructor
  · intro y c hy hc
    have h0 := run_blit_rows_inside src (width * 2) (2 * is) (2 * os) (by omega)
      height 0 0 dst y (2 * c) hy (by omega)
    have h1 := run_blit_rows_inside src (width * 2) (2 * is) (2 * os) (by omega)
      height 0 0 dst y (2 * c + 1) hy (by omega)
    have e0 : 0 + y * (2 * os) + 2 * c = 2 * (y * os + c) := by ring
    have e1 : 0 + y * (2 * is) + 2 * c = 2 * (y * is + c) := by ring
    have e2 : 0 + y * (2 * os) + (2 * c + 1) = 2 * (y * os + c) + 1 := by ring
    have e3 : 0 + y * (2 * is) + (2 * c + 1) = 2 * (y * is + c) + 1 := by ring
    rw [e0, e1] at h0
    rw [e2, e3] at h1
    simp only [pixel16, h0, h1]
  · intro k hk
    have out : ∀ t, t < 2 →
        run_copies src (blit_rows (width * 2) (2 * is) (2 * os) height 0 0) dst (2 * k + t)
          = dst (2 * k + t) := by
      intro t ht
      apply run_blit_rows_outside
      intro y hy hcov
      apply hk
      have e : y * (2 * os) = 2 * (y * os) := by ring
      rw [e] at hcov
      exact ⟨y, k - y * os, hy, by omega, by omega⟩
    have o0 := out 0 (by omega)
    have o1 := out 1 (by omega)
    simp only [Nat.add_zero] at o0
    simp only [pixel16, o0, o1]

theorem rows_copied32 (dst src : Mem) (width height os is : Nat) (hw : width ≤ os) :
    RowCopied32 (run_copies src (blit_rows (width * 4) (4 * is) (4 * os) height 0 0) dst)
      dst src width height os is := by
  constructor
  · intro y c hy hc
    have hin : ∀ t, t < 4 →
        run_copies src (blit_rows (width * 4) (4 * is) (4 * os) height 0 0) dst
          (4 * (y * os + c) + t) = src (4 * (y * is + c) + t) := by
      intro t ht
      have h0 := run_blit_rows_inside src (width * 4) (4 * is) (4 * os) (by omega)
        height 0 0 dst y (4 * c + t) hy (by omega)
      have e0 : 0 + y * (4 * os) + (4 * c + t) = 4 * (y * os + c) + t := by ring
      have e1 : 0 + y * (4 * is) + (4 * c + t) = 4 * (y * is + c) + t := by ring
      rw [e0, e1] at h0
      exact h0
    have h0 := hin 0 (by omega)
    simp only [Nat.add_zero] at h0
    simp only [pixel32, h0, hin 1 (by omega), hin 2 (by omega), hin 3 (by omega)]
  · intro k hk
    have out : ∀ t, t < 4 →
        run_copies src (blit_rows (width * 4) (4 * is) (4 * os) height 0 0) dst (4 * k + t)
          = dst (4 * k + t) := by
      intro t ht
      apply run_blit_rows_outside
      intro y hy hcov
      apply hk
      have e : y * (4 * os) = 4 * (y * os) := by ring
      rw [e] at hcov
      exact ⟨y, k - y * os, hy, by omega, by omega⟩
    have o0 := out 0 (by omega)
    simp only [Nat.add_zero] at o0
    simp only [pixel32, o0, out 1 (by omega), out 2 (by omega), out 3 (by omega)]

/-- C2 (as stated, refuted).  (1) With `width = 2` and a destination pitch of 2 bytes
the rows overlap in the destination: destination pixel `0 * 1 + 1` ends up as source
pixel 2 (written by row 1), not source pixel `0 * 2 + 1`.  (2) With a source pitch of
131072 bytes the 16-bit path's `uint16_t` stride is 0, not `131072 / 2`: row 1 of the
destination is a copy of source pixel 0, not of source pixel 65536. -/
theorem blit_frame_row_by_row_fails :
    ¬ RowCopied16 (sdl_dingux_blit_frame16 (fun _ => 0) (fun k => k % 256) 2 2 2 4)
        (fun _ => 0) (fun k => k % 256) 2 2 (2 / 2) (4 / 2) ∧
    ¬ RowCopied16
        (sdl_dingux_blit_frame16 (fun _ => 0) (fun k => if k < 4 then 7 else 9) 1 2 4 131072)
        (fun _ => 0) (fun k => if k < 4 then 7 else 9) 1 2 (4 / 2) (131072 / 2) ∧
    stride16 131072 ≠ 131072 / 2 := by
  refine ⟨?_, ?_, ?_⟩
  · intro h
    have := h.1 0 1 (by decide) (by decide)
    simp [sdl_dingux_blit_frame16, sdl_dingux_blit_frame16_copies, stride16, blit_rows,
      run_copies, MemCpy.apply, pixel16] at this
  · intro h
    have := h.1 1 0 (by decide) (by decide)
    simp [sdl_dingux_blit_frame16, sdl_dingux_blit_frame16_copies, stride16, blit_rows,
      run_copies, MemCpy.apply, pixel16] at this
  · decide

/-- C2 (amended): for `src_pitch ≠ dst_pitch` (both `unsigned`) and a width that does
not exceed the destination stride `dst_pitch / bytesPerPixel`, the blit copies row
by row: destination pixel `y * (dst_pitch / bpp) + c` becomes source pixel
`y * (src_pitch / bpp) + c` for `y < height`, `c < width`, and every other destination
pixel is unchanged.  This holds on the 32-bit path for all pitches and on the
16-bit path for pitches below 131072; in these ranges the stride is the byte
pitch divided by the pixel size. -/
theorem blit_frame_row_by_row (dst src : Mem) (width height dst_pitch src_pitch : Nat)
    (hne : src_pitch ≠ dst_pitch) (hs : src_pitch < 2 ^ 32) (hd : dst_pitch < 2 ^ 32) :
    (src_pitch < 2 ^ 17 → dst_pitch < 2 ^ 17 → width ≤ dst_pitch / 2 →
      RowCopied16 (sdl_dingux_blit_frame16 dst src width height dst_pitch src_pitch)
        dst src width height (dst_pitch / 2) (src_pitch / 2) ∧
      stride16 dst_pitch = dst_pitch / 2 ∧ stride16 src_pitch = src_pitch / 2) ∧
    (width ≤ dst_pitch / 4 →
      RowCopied32 (sdl_dingux_blit_frame32 dst src width height dst_pitch src_pitch)
        dst src width height (dst_pitch / 4) (src_pitch / 4)) ∧
    stride32 dst_pitch = dst_pitch / 4 ∧ stride32 src_pitch = src_pitch / 4 := by
  refine ⟨?_, ?_, stride32_eq _ hd, stride32_eq _ hs⟩
  · intro hs17 hd17 hw
    refine ⟨?_, stride16_eq _ hd17, stride16_eq _ hs17⟩
    have e : (width * 2) % 2 ^ 32 = width * 2 := Nat.mod_eq_of_lt (by omega)
    simp only [sdl_dingux_blit_frame16, sdl_dingux_blit_frame16_copies, if_neg hne,
      stride16_eq _ hd17, stride16_eq _ hs17, e]
    exact rows_copied16 dst src width height _ _ hw
  · intro hw
    have e : (width * 4) % 2 ^ 32 = width * 4 := Nat.mod_eq_of_lt (by omega)
    simp only [sdl_dingux_blit_frame32, sdl_dingux_blit_frame32_copies, if_neg hne,
      stride32_eq _ hd, stride32_eq _ hs, e]
    exact rows_copied32 dst src width height _ _ hw

/-- Witness of `blit_frame_row_by_row`: a 256x224 frame of pitch 512 (16-bit) or 1024
(32-bit) into a surface of pitch 640 or 1280. -/
theorem blit_frame_row_by_row_witness :
    RowCopied16 (sdl_dingux_blit_frame16 (fun _ => 0) (fun k => k % 256) 256 224 640 512)
        (fun _ => 0) (fun k => k % 256) 256 224 (640 / 2) (512 / 2) ∧
    RowCopied32 (sdl_dingux_blit_frame32 (fun _ => 0) (fun k => k % 256) 256 224 1280 1024)
        (fun _ => 0) (fun k => k % 256) 256 224 (1280 / 4) (1024 / 4) :=
  ⟨((blit_frame_row_by_row (fun _ => 0) (fun k => k % 256) 256 224 640 512
      (by decide) (by decide) (by decide)).1 (by decide) (by decide) (by decide)).1,
   (blit_frame_row_by_row (fun _ => 0) (fun k => k % 256) 256 224 1280 1024
      (by decide) (by decide) (by decide)).2.1 (by decide)⟩

theorem row_end_le (y rows st n p : Nat) (hy : y < rows) (hst : st ≤ p) (hn : n ≤ p) :
    y * st + n ≤ p * rows := by
  have h1 : y * st ≤ y * p := Nat.mul_le_mul_left y hst
  have h2 : (y + 1) * p ≤ rows * p := Nat.mul_le_mul_right p hy
  have h3 : (y + 1) * p = y * p + p := Nat.succ_mul y p
  have h4 : rows * p = p * rows := Nat.mul_comm _ _
  omega

theorem blit_rows_access (n si so rows sp dp : Nat) (hsi : si ≤ sp) (hso : so ≤ dp)
    (hns : n ≤ sp) (hnd : n ≤ dp) :
    AccessBelow (blit_rows n si so rows 0 0) (sp * rows) (dp * rows) := by
  intro c hc
  obtain ⟨y, hy, rfl⟩ := mem_blit_rows hc
  constructor
  · intro k hk
    have := row_end_le y rows si n sp hy hsi hns
    simp only [MemCpy.reads] at hk
    omega
  · intro k hk
    have := row_end_le y rows so n dp hy hso hnd
    simp only [MemCpy.writes] at hk
    omega

theorem blit_rows_rows (n si so rows ip op : Nat) :
    RowsCopied (blit_rows n si so rows ip op) rows n :=
  ⟨blit_rows_length n si so rows ip op, fun _ hc => blit_rows_n hc⟩

/-- C3 (as stated, refuted): copying 2 pixels per row for 2 rows from a source of
pitch 4 into a destination of pitch 8, the 16-bit blitter writes row 1 at
destination bytes 8..11, at and beyond `min(4, 8) * 2 = 8`; the 32-bit blitter does
the same with 1 pixel per row. -/
theorem blit_frame_min_pitch_bound_fails :
    ¬ AccessBelow (sdl_dingux_blit_frame16_copies 2 2 8 4) (min 4 8 * 2) (min 4 8 * 2) ∧
    ¬ AccessBelow (sdl_dingux_blit_frame32_copies 1 2 8 4) (min 4 8 * 2) (min 4 8 * 2) := by
  constructor
  · intro h
    have := (h ⟨8, 4, 4⟩ (by decide)).2 8 (by decide)
    omega
  · intro h
    have := (h ⟨8, 4, 4⟩ (by decide)).2 8 (by decide)
    omega

/-- C3 (amended): for differing `unsigned` pitches and a row of `width` pixels that
fits in both pitches, the frame blit performs exactly `height` row copies of
exactly `width` pixels each, never reads the source at a byte offset
`≥ src_pitch * height` and never writes the destination at a byte offset
`≥ dst_pitch * height`: each buffer is bounded by its own pitch. -/
theorem blit_frame_own_pitch_bound (width height dst_pitch src_pitch : Nat)
    (hne : src_pitch ≠ dst_pitch) (hs : src_pitch < 2 ^ 32) :
    (width * 2 ≤ src_pitch → width * 2 ≤ dst_pitch →
      RowsCopied (sdl_dingux_blit_frame16_copies width height dst_pitch src_pitch)
        height (width * 2) ∧
      AccessBelow (sdl_dingux_blit_frame16_copies width height dst_pitch src_pitch)
        (src_pitch * height) (dst_pitch * height)) ∧
    (width * 4 ≤ src_pitch → width * 4 ≤ dst_pitch →
      RowsCopied (sdl_dingux_blit_frame32_copies width height dst_pitch src_pitch)
        height (width * 4) ∧
      AccessBelow (sdl_dingux_blit_frame32_copies width height dst_pitch src_pitch)
        (src_pitch * height) (dst_pitch * height)) := by
  constructor
  · intro hws hwd
    have e : (width * 2) % 2 ^ 32 = width * 2 := Nat.mod_eq_of_lt (by omega)
    simp only [sdl_dingux_blit_frame16_copies, if_neg hne, e]
    exact ⟨blit_rows_rows _ _ _ _ _ _,
      blit_rows_access _ _ _ _ _ _ (stride16_le _) (stride16_le _) hws hwd⟩
  · intro hws hwd
    have e : (width * 4) % 2 ^ 32 = width * 4 := Nat.mod_eq_of_lt (by omega)
    simp only [sdl_dingux_blit_frame32_copies, if_neg hne, e]
    exact ⟨blit_rows_rows _ _ _ _ _ _,
      blit_rows_access _ _ _ _ _ _ (stride32_le _) (stride32_le _) hws hwd⟩

/-- Witness of `blit_frame_own_pitch_bound`: a 256x224 frame of pitch 512 (16-bit) or
1024 (32-bit) into a surface of pitch 640 or 1280. -/
theorem blit_frame_own_pitch_bound_witness :
    (RowsCopied (sdl_dingux_blit_frame16_copies 256 224 640 512) 224 (256 * 2) ∧
      AccessBelow (sdl_dingux_blit_frame16_copies 256 224 640 512) (512 * 224) (640 * 224)) ∧
    (RowsCopied (sdl_dingux_blit_frame32_copies 256 224 1280 1024) 224 (256 * 4) ∧
      AccessBelow (sdl_dingux_blit_frame32_copies 256 224 1280 1024) (1024 * 224) (1280 * 224)) :=
  ⟨(blit_frame_own_pitch_bound 256 224 640 512 (by decide) (by decide)).1
      (by decide) (by decide),
   (blit_frame_own_pitch_bound 256 224 1280 1024 (by decide) (by decide)).2
      (by decide) (by decide)⟩

/-! ## Text blitter -/

/-- C4 (the code at a failing input): on a 320x10 surface the row of the on-screen
message, `h - (FONT_HEIGHT + FONT_WIDTH_STRIDE)`, is `10 - 16`, i.e. 4294967290 as
`unsigned`; the check `y + FONT_HEIGHT + 1 >= screen_height` wraps to `5 >= 10` and
passes, and both text blitters store the pixel of `A` and its shadow at pixel
indices 4294965382 and 4294965702, far outside the `10 * 320` pixels of the buffer.
So a call of `sdl_dingux_gfx_frame` with the message `"A"` on a driver bound to that
surface, which requests no mode, writes the byte at offset `2 * 4294965382` from
the start of a pixel buffer of `10 * 640` bytes. -/
theorem blit_text_out_of_bounds :
    osd_text_y demo_assets (demo_surface 320 10 640) = 4294967290 ∧
    sdl_dingux_blit_text16_writes demo_assets (demo_vid false (demo_surface 320 10 640))
        (demo_surface 320 10 640) 6 4294967290 [65]
      = [(4294965382, 0xFFFF), (4294965702, 0)] ∧
    sdl_dingux_blit_text32_writes demo_assets (demo_vid true (demo_surface 320 10 1280))
        (demo_surface 320 10 1280) 6 4294967290 [65]
      = [(4294965382, 0xFFFFFF), (4294965702, 0)] ∧
    ¬ 4294965382 < 10 * 320 ∧
    frame_requests demo_env demo_assets ⟨demo_vid false (demo_surface 320 10 640), []⟩
      (some (fun _ => 0)) 320 10 640 (some [65]) = [] ∧
    (sdl_dingux_gfx_frame demo_env demo_assets ⟨demo_vid false (demo_surface 320 10 640), []⟩
        (some (fun _ => 0)) 320 10 640 (some [65])).1.vid.screen.map
          (fun sc => (sc.h, sc.pitch, sc.pixels (2 * 4294965382)))
      = some (10, 640, 255) := by
  refine ⟨by decide, by decide, by decide, by decide, by decide, by decide⟩

theorem blit_text_loop_stop (A : Assets) (font_lut : Nat → Nat → Bool)
    (colour screen_stride screen_width y fuel x : Nat) (str : List Nat)
    (h : (x + A.FONT_WIDTH_STRIDE + 1) % 2 ^ 32 ≥ screen_width) :
    blit_text_loop A font_lut colour screen_stride screen_width y fuel x str = [] := by
  cases fuel with
  | zero => rfl
  | succ fuel =>
    cases str with
    | nil => rfl
    | cons c rest =>
      by_cases hc : c = 0
      · simp [blit_text_loop, hc]
      · simp only [blit_text_loop, if_neg hc, ge_iff_le, if_pos h]

theorem run_stores16_nil (screen : SDL_Surface) :
    ({ screen with pixels := run_stores16 [] screen.pixels } : SDL_Surface) = screen := rfl

theorem run_stores32_nil (screen : SDL_Surface) :
    ({ screen with pixels := run_stores32 [] screen.pixels } : SDL_Surface) = screen := rfl

/-- What the two checks of the text blitters do achieve, with the sums read as the
blitters compute them, in `unsigned` arithmetic modulo `2^32`: once
`(x + FONT_WIDTH_STRIDE + 1) mod 2^32 >= surface width`, the loop stores no pixel
for the glyph at the cursor nor for any later byte of the string `str`, however
many iterations remain; and when that holds at the start position, or
`(y + FONT_HEIGHT + 1) mod 2^32 >= surface height` does, the whole call stores no
pixel and leaves the surface as it was. -/
theorem blit_text_stops_at_edge (A : Assets) (vid : sdl_dingux_video) (screen : SDL_Surface)
    (x y : Nat) (str : List Nat) :
    ((x + A.FONT_WIDTH_STRIDE + 1) % 2 ^ 32 ≥ screen.w →
      ∀ fuel,
        blit_text_loop A vid.font_lut vid.font_colour16 ((screen.pitch >>> 1) % 2 ^ 16)
          (screen.w % 2 ^ 16) y fuel x str = [] ∧
        blit_text_loop A vid.font_lut vid.font_colour32 ((screen.pitch >>> 2) % 2 ^ 32)
          (screen.w % 2 ^ 32) y fuel x str = []) ∧
    ((x + A.FONT_WIDTH_STRIDE + 1) % 2 ^ 32 ≥ screen.w ∨
        (y + A.FONT_HEIGHT + 1) % 2 ^ 32 ≥ screen.h →
      sdl_dingux_blit_text16_writes A vid screen x y str = [] ∧
      sdl_dingux_blit_text32_writes A vid screen x y str = [] ∧
      sdl_dingux_blit_text16 A vid screen x y str = screen ∧
      sdl_dingux_blit_text32 A vid screen x y str = screen) := by
  have w16 : screen.w % 2 ^ 16 ≤ screen.w := Nat.mod_le _ _
  have w32 : screen.w % 2 ^ 32 ≤ screen.w := Nat.mod_le _ _
  have h16 : screen.h % 2 ^ 16 ≤ screen.h := Nat.mod_le _ _
  have h32 : screen.h % 2 ^ 32 ≤ screen.h := Nat.mod_le _ _
  constructor
  · intro hx fuel
    exact ⟨blit_text_loop_stop _ _ _ _ _ _ _ _ _ (le_trans w16 hx),
      blit_text_loop_stop _ _ _ _ _ _ _ _ _ (le_trans w32 hx)⟩
  · intro hxy
    have e16 : sdl_dingux_blit_text16_writes A vid screen x y str = [] := by
      unfold sdl_dingux_blit_text16_writes blit_text_writes
      rcases hxy with hx | hy
      · split
        · rfl
        · exact blit_text_loop_stop _ _ _ _ _ _ _ _ _ (le_trans w16 hx)
      · rw [if_pos (le_trans h16 hy)]
    have e32 : sdl_dingux_blit_text32_writes A vid screen x y str = [] := by
      unfold sdl_dingux_blit_text32_writes blit_text_writes
      rcases hxy with hx | hy
      · split
        · rfl
        · exact blit_text_loop_stop _ _ _ _ _ _ _ _ _ (le_trans w32 hx)
      · rw [if_pos (le_trans h32 hy)]
    refine ⟨e16, e32, ?_, ?_⟩
    · unfold sdl_dingux_blit_text16
      rw [e16]
      rfl
    · unfold sdl_dingux_blit_text32
      rw [e32]
      rfl

/-- Witness of `blit_text_stops_at_edge`: on a 320x240 surface, column 314 is past
the right limit (`314 + 7 >= 320`) and row 229 past the bottom limit
(`229 + 11 >= 240`). -/
theorem blit_text_stops_at_edge_witness :
    (314 + demo_assets.FONT_WIDTH_STRIDE + 1) % 2 ^ 32 ≥ (demo_surface 320 240 640).w ∧
    (229 + demo_assets.FONT_HEIGHT + 1) % 2 ^ 32 ≥ (demo_surface 320 240 640).h ∧
    (∀ fuel,
      blit_text_loop demo_assets (demo_vid false (demo_surface 320 240 640)).font_lut 0xFFFF
        320 320 6 fuel 314 [65, 65] = [] ∧
      blit_text_loop demo_assets (demo_vid false (demo_surface 320 240 640)).font_lut 0xFFFFFF
        160 320 6 fuel 314 [65, 65] = []) ∧
    sdl_dingux_blit_text16 demo_assets (demo_vid false (demo_surface 320 240 640))
      (demo_surface 320 240 640) 6 229 [65, 65] = demo_surface 320 240 640 :=
  ⟨by decide, by decide,
   (blit_text_stops_at_edge demo_assets (demo_vid false (demo_surface 320 240 640))
      (demo_surface 320 240 640) 314 6 [65, 65]).1 (by decide),
   ((blit_text_stops_at_edge demo_assets (demo_vid false (demo_surface 320 240 640))
      (demo_surface 320 240 640) 6 229 [65, 65]).2 (Or.inr (by decide))).2.2.1⟩

/-- C5 (the code at two failing inputs): start positions past the edge whose sums
exceed `2^32 - 1`.  On a 320x10 surface with `x = 6`, `y = 4294967290` (the row
`h - (FONT_HEIGHT + FONT_WIDTH_STRIDE)` of the on-screen message) the sum
`y + FONT_HEIGHT + 1` is `4294967301 >= 10`; on a 320x240 surface with
`x = 4294967290`, `y = 6` the sum `x + FONT_WIDTH_STRIDE + 1` is
`4294967297 >= 320`.  The blitters compute both sums modulo `2^32` (5 and 1), do
not return, and store the pixel of `A` and its shadow: the surface is not left
as it was. -/
theorem blit_text_guard_wraps :
    (4294967290 + demo_assets.FONT_HEIGHT + 1 ≥ (demo_surface 320 10 640).h ∧
      (4294967290 + demo_assets.FONT_HEIGHT + 1) % 2 ^ 32 = 5) ∧
    sdl_dingux_blit_text16_writes demo_assets (demo_vid false (demo_surface 320 10 640))
        (demo_surface 320 10 640) 6 4294967290 [65]
      = [(4294965382, 0xFFFF), (4294965702, 0)] ∧
    sdl_dingux_blit_text32_writes demo_assets (demo_vid true (demo_surface 320 10 1280))
        (demo_surface 320 10 1280) 6 4294967290 [65]
      = [(4294965382, 0xFFFFFF), (4294965702, 0)] ∧
    (4294967290 + demo_assets.FONT_WIDTH_STRIDE + 1 ≥ (demo_surface 320 240 640).w ∧
      (4294967290 + demo_assets.FONT_WIDTH_STRIDE + 1) % 2 ^ 32 = 1) ∧
    sdl_dingux_blit_text16_writes demo_assets (demo_vid false (demo_surface 320 240 640))
        (demo_surface 320 240 640) 4294967290 6 [65]
      = [(1914, 0xFFFF), (2234, 0)] ∧
    sdl_dingux_blit_text32_writes demo_assets (demo_vid true (demo_surface 320 240 1280))
        (demo_surface 320 240 1280) 4294967290 6 [65]
      = [(1914, 0xFFFFFF), (2234, 0)] ∧
    (demo_surface 320 240 640).pixels (2 * 1914) = 0 ∧
    (sdl_dingux_blit_text16 demo_assets (demo_vid false (demo_surface 320 240 640))
      (demo_surface 320 240 640) 4294967290 6 [65]).pixels (2 * 1914) = 0xFF ∧
    (sdl_dingux_blit_text32 demo_assets (demo_vid true (demo_surface 320 240 1280))
      (demo_surface 320 240 1280) 4294967290 6 [65]).pixels (4 * 1914) = 0xFF := by
  refine ⟨by decide, by decide, by decide, by decide, by decide, by decide, by decide,
    by decide, by decide⟩

theorem utf8_walk_bytes_advances (c : Nat) (rest : List Nat) :
    (utf8_walk_bytes (c :: rest)).2.length ≤ rest.length := by
  unfold utf8_walk_bytes
  simp only [List.headD_cons, List.tail_cons]
  split
  · exact Nat.le_refl _
  · split
    · split
      · simp only [List.length_tail]; omega
      · simp only [List.length_tail]; omega
    · simp only [List.length_tail]; omega

theorem blit_text_loop_fuel_aux (A : Assets)
    (hwalk : ∀ c rest, (A.utf8_walk (c :: rest)).2.length ≤ rest.length)
    (font_lut : Nat → Nat → Bool) (colour screen_stride screen_width y : Nat) :
    ∀ (n fuel1 fuel2 x : Nat) (str : List Nat), str.length ≤ n → str.length < fuel1 →
      str.length < fuel2 →
      blit_text_loop A font_lut colour screen_stride screen_width y fuel1 x str =
        blit_text_loop A font_lut colour screen_stride screen_width y fuel2 x str := by
  intro n
  induction n with
  | zero =>
    intro fuel1 fuel2 x str hn h1 h2
    have : str = [] := List.length_eq_zero.mp (by omega)
    subst this
    obtain ⟨f1, rfl⟩ : ∃ f, fuel1 = f + 1 := ⟨fuel1 - 1, by simp at h1; omega⟩
    obtain ⟨f2, rfl⟩ : ∃ f, fuel2 = f + 1 := ⟨fuel2 - 1, by simp at h2; omega⟩
    rfl
  | succ m ih =>
    intro fuel1 fuel2 x str hn h1 h2
    obtain ⟨f1, rfl⟩ : ∃ f, fuel1 = f + 1 := ⟨fuel1 - 1, by omega⟩
    obtain ⟨f2, rfl⟩ : ∃ f, fuel2 = f + 1 := ⟨fuel2 - 1, by omega⟩
    cases str with
    | nil => rfl
    | cons c rest =>
      simp only [List.length_cons] at hn h1 h2
      have hw := hwalk c rest
      have e1 := ih f1 f2 ((x + A.FONT_WIDTH_STRIDE) % 2 ^ 32) rest (by omega) (by omega)
        (by omega)
      have e2 := ih f1 f2 x (A.utf8_walk (c :: rest)).2 (by omega) (by omega) (by omega)
      have e3 := ih f1 f2 ((x + A.FONT_WIDTH_STRIDE) % 2 ^ 32) (A.utf8_walk (c :: rest)).2
        (by omega) (by omega) (by omega)
      simp only [blit_text_loop, e1, e2, e3]

/-- The iteration bound of `blit_text_loop` is never reached: when the decoder
advances the cursor by at least one byte, any bound above the length of the
string gives the same stores as the bound `str.length + 1` of the blitters. -/
theorem blit_text_loop_fuel (A : Assets)
    (hwalk : ∀ c rest, (A.utf8_walk (c :: rest)).2.length ≤ rest.length)
    (font_lut : Nat → Nat → Bool) (colour screen_stride screen_width y fuel x : Nat)
    (str : List Nat) (h : str.length < fuel) :
    blit_text_loop A font_lut colour screen_stride screen_width y fuel x str =
      blit_text_loop A font_lut colour screen_stride screen_width y (str.length + 1) x str :=
  blit_text_loop_fuel_aux A hwalk font_lut colour screen_stride screen_width y str.length
    fuel (str.length + 1) x str (Nat.le_refl _) h (Nat.lt_succ_self _)


theorem mem_glyph_writes (A : Assets) (glyph : Nat → Bool) (colour screen_stride x y : Nat)
    (w : Nat × Nat) (h : w ∈ glyph_writes A glyph colour screen_stride x y) :
    ∃ i j, i < A.FONT_WIDTH ∧ j < A.FONT_HEIGHT ∧ glyph (i + j * A.FONT_WIDTH) = true ∧
      (w = (((y + j) * screen_stride + x) % 2 ^ 32 + i, colour) ∨
       w = (((y + j) * screen_stride + x) % 2 ^ 32 + i + screen_stride, 0)) := by
  unfold glyph_writes at h
  simp only [List.mem_flatMap, List.mem_range] at h
  obtain ⟨j, hj, i, hi, hw⟩ := h
  by_cases hg : glyph (i + j * A.FONT_WIDTH) = true
  · simp only [hg, if_true, List.mem_cons, List.mem_singleton, List.not_mem_nil,
      or_false] at hw
    exact ⟨i, j, hi, hj, hg, hw⟩
  · simp [hg] at hw

/-- Where the guard sums do not wrap, every store of a glyph drawn at a cursor
that passed both guards lies inside the `screen_height * screen_stride` pixels. -/
theorem glyph_writes_in_bounds (A : Assets) (glyph : Nat → Bool)
    (colour screen_stride screen_width screen_height x y : Nat)
    (hfont : A.FONT_WIDTH ≤ A.FONT_WIDTH_STRIDE + 1)
    (hstride : screen_width ≤ screen_stride)
    (hx : x + A.FONT_WIDTH_STRIDE + 1 < screen_width)
    (hy : y + A.FONT_HEIGHT + 1 < screen_height)
    (w : Nat × Nat) (h : w ∈ glyph_writes A glyph colour screen_stride x y) :
    w.1 < screen_height * screen_stride := by
  obtain ⟨i, j, hi, hj, _, hw⟩ := mem_glyph_writes A glyph colour screen_stride x y w h
  have hmod : ((y + j) * screen_stride + x) % 2 ^ 32 ≤ (y + j) * screen_stride + x :=
    Nat.mod_le _ _
  have hrows : (y + j + 2) * screen_stride ≤ screen_height * screen_stride :=
    Nat.mul_le_mul_right _ (by omega)
  have e : (y + j + 2) * screen_stride = (y + j) * screen_stride + 2 * screen_stride := by ring
  rcases hw with rfl | rfl
  · simp only; omega
  · simp only; omega

theorem blit_text_loop_in_bounds (A : Assets) (font_lut : Nat → Nat → Bool)
    (colour screen_stride screen_width screen_height y : Nat)
    (hfont : A.FONT_WIDTH ≤ A.FONT_WIDTH_STRIDE + 1)
    (hstride : screen_width ≤ screen_stride)
    (hwidth : screen_width + A.FONT_WIDTH_STRIDE ≤ 2 ^ 32)
    (hy : y + A.FONT_HEIGHT + 1 < screen_height) :
    ∀ (fuel x : Nat) (str : List Nat), x + A.FONT_WIDTH_STRIDE + 1 < 2 ^ 32 →
      ∀ w ∈ blit_text_loop A font_lut colour screen_stride screen_width y fuel x str,
        w.1 < screen_height * screen_stride := by
  intro fuel
  induction fuel with
  | zero => intro x str _ w hw; simp [blit_text_loop] at hw
  | succ fuel ih =>
    intro x str hx w hw
    cases str with
    | nil => simp [blit_text_loop] at hw
    | cons c rest =>
      simp only [blit_text_loop] at hw
      have hmodx : (x + A.FONT_WIDTH_STRIDE + 1) % 2 ^ 32 = x + A.FONT_WIDTH_STRIDE + 1 :=
        Nat.mod_eq_of_lt hx
      have hmodx2 : (x + A.FONT_WIDTH_STRIDE) % 2 ^ 32 = x + A.FONT_WIDTH_STRIDE :=
        Nat.mod_eq_of_lt (by omega)
      rw [hmodx, hmodx2] at hw
      by_cases hc0 : c = 0
      · simp [hc0] at hw
      · rw [if_neg hc0] at hw
        by_cases hguard : x + A.FONT_WIDTH_STRIDE + 1 ≥ screen_width
        · simp [hguard] at hw
        · rw [if_neg hguard] at hw
          have hg : x + A.FONT_WIDTH_STRIDE + 1 < screen_width := by omega
          by_cases hsp : c = 32
          · rw [if_pos hsp] at hw
            exact ih _ rest (by omega) w hw
          · rw [if_neg hsp] at hw
            generalize (if (if (A.utf8_walk (c :: rest)).1 % 2 ^ 32 = 339 then 156
              else (A.utf8_walk (c :: rest)).1 % 2 ^ 32) = 338 then 140
              else if (A.utf8_walk (c :: rest)).1 % 2 ^ 32 = 339 then 156
              else (A.utf8_walk (c :: rest)).1 % 2 ^ 32) = symbol at hw
            by_cases hsym : symbol ≥ SDL_DINGUX_NUM_FONT_GLYPHS
            · rw [if_pos hsym] at hw
              exact ih _ _ hx w hw
            · rw [if_neg hsym, List.mem_append] at hw
              rcases hw with hw | hw
              · exact glyph_writes_in_bounds A _ colour screen_stride screen_width
                  screen_height x y hfont hstride hg hy w hw
              · exact ih _ _ (by omega) w hw

/-- Where the guard sums do not wrap (`x + FONT_WIDTH_STRIDE + 1` and
`y + FONT_HEIGHT + 1` below `2 ^ 32`), no text blitter stores a pixel outside the
pixel buffer of a surface whose pixel stride is at least its width. -/
theorem blit_text_writes_in_bounds (A : Assets) (font_lut : Nat → Nat → Bool)
    (colour screen_stride screen_width screen_height x y : Nat) (str : List Nat)
    (hfont : A.FONT_WIDTH ≤ A.FONT_WIDTH_STRIDE + 1)
    (hstride : screen_width ≤ screen_stride)
    (hwidth : screen_width + A.FONT_WIDTH_STRIDE ≤ 2 ^ 32)
    (hx : x + A.FONT_WIDTH_STRIDE + 1 < 2 ^ 32) (hy : y + A.FONT_HEIGHT + 1 < 2 ^ 32) :
    ∀ w ∈ blit_text_writes A font_lut colour screen_stride screen_width screen_height x y str,
      w.1 < screen_height * screen_stride := by
  intro w hw
  unfold blit_text_writes at hw
  rw [Nat.mod_eq_of_lt hy] at hw
  split at hw
  · simp at hw
  · exact blit_text_loop_in_bounds A font_lut colour screen_stride screen_width screen_height y
      hfont hstride hwidth (by omega) _ x str hx w hw


/-! ## Traces -/

theorem set_output_calls_append (l1 l2 : List Event) :
    set_output_calls (l1 ++ l2) = set_output_calls l1 ++ set_output_calls l2 :=
  List.filterMap_append _ _ _

theorem mode_requests_append (l1 l2 : List Event) :
    mode_requests (l1 ++ l2) = mode_requests l1 ++ mode_requests l2 :=
  List.filterMap_append _ _ _

theorem osd_text_mustlock (A : Assets) (vid : sdl_dingux_video) (screen : SDL_Surface)
    (msg : Option (List Nat)) : (osd_text A vid screen msg).mustlock = screen.mustlock := by
  unfold osd_text
  cases msg with
  | none => rfl
  | some m =>
    simp only
    split <;> rfl

theorem frame_present_eq (A : Assets) (s : Sys) (screen : SDL_Surface)
    (msg : Option (List Nat)) :
    frame_present A s screen msg =
      ({ vid := { s.vid with screen := some (osd_text A s.vid screen msg) },
         log := s.log ++ ((if screen.mustlock then [Event.SDL_UnlockSurface] else []) ++
           [Event.SDL_Flip]) }, some true) := by
  unfold frame_present
  simp only [osd_text_mustlock, Sys.emit]
  cases screen.mustlock <;> simp

/-! ## Output mode manager -/

theorem set_output_some (E : Env) (s : Sys) (width height : Nat) (rgb32 : Bool)
    (sc : SDL_Surface)
    (h : E.SDL_SetVideoMode (s.log ++ [Event.set_output width height rgb32]) width height
      (bits_per_pixel rgb32) (surface_flags s.vid.vsync) = some sc) :
    sdl_dingux_set_output E s width height rgb32 =
      { vid := { s.vid with frame_width := width, frame_height := height, screen := some sc,
                            mode_valid := true },
        log := s.log ++ [Event.set_output width height rgb32,
          Event.SDL_SetVideoMode width height (bits_per_pixel rgb32)
            (surface_flags s.vid.vsync)] } := by
  simp [sdl_dingux_set_output, call_SDL_SetVideoMode, Sys.emit, h]

theorem set_output_none (E : Env) (s : Sys) (width height : Nat) (rgb32 : Bool)
    (h : E.SDL_SetVideoMode (s.log ++ [Event.set_output width height rgb32]) width height
      (bits_per_pixel rgb32) (surface_flags s.vid.vsync) = none) :
    sdl_dingux_set_output E s width height rgb32 =
      { vid := { s.vid with frame_width := width, frame_height := height,
                            screen := E.SDL_SetVideoMode
                              (s.log ++ [Event.set_output width height rgb32,
                                Event.SDL_SetVideoMode width height (bits_per_pixel rgb32)
                                  (surface_flags s.vid.vsync)])
                              SDL_DINGUX_MENU_WIDTH SDL_DINGUX_MENU_HEIGHT
                              (bits_per_pixel rgb32) (surface_flags s.vid.vsync),
                            mode_valid := false },
        log := s.log ++ [Event.set_output width height rgb32,
          Event.SDL_SetVideoMode width height (bits_per_pixel rgb32)
            (surface_flags s.vid.vsync),
          Event.SDL_SetVideoMode SDL_DINGUX_MENU_WIDTH SDL_DINGUX_MENU_HEIGHT
            (bits_per_pixel rgb32) (surface_flags s.vid.vsync)] } := by
  simp [sdl_dingux_set_output, call_SDL_SetVideoMode, Sys.emit, h]

/-! ## Frame state machine -/

theorem osd_text_congr (A : Assets) (vid vid1 : sdl_dingux_video) (screen : SDL_Surface)
    (msg : Option (List Nat)) (h1 : vid1.rgb32 = vid.rgb32)
    (h2 : vid1.menu_active = vid.menu_active) (h3 : vid1.font_lut = vid.font_lut)
    (h4 : vid1.font_colour16 = vid.font_colour16) (h5 : vid1.font_colour32 = vid.font_colour32) :
    osd_text A vid1 screen msg = osd_text A vid screen msg := by
  unfold osd_text sdl_dingux_blit_text32 sdl_dingux_blit_text16
    sdl_dingux_blit_text32_writes sdl_dingux_blit_text16_writes
  rw [h1, h2, h3, h4, h5]

theorem frame_draw_mustlock (A : Assets) (vid : sdl_dingux_video) (screen : SDL_Surface)
    (frame : Mem) (width height pitch : Nat) :
    (frame_draw A vid screen frame width height pitch).mustlock = screen.mustlock := by
  unfold frame_draw sdl_dingux_blit_video_mode_error_msg
    sdl_dingux_blit_text32 sdl_dingux_blit_text16
  split
  · split
    · split <;> rfl
    · simp only
      split <;> rfl
  · rfl

theorem set_output_keeps (E : Env) (s : Sys) (width height : Nat) (rgb32 : Bool) :
    (sdl_dingux_set_output E s width height rgb32).vid =
      { s.vid with
        frame_width := width, frame_height := height,
        screen := (sdl_dingux_set_output E s width height rgb32).vid.screen,
        mode_valid := (sdl_dingux_set_output E s width height rgb32).vid.mode_valid } := by
  unfold sdl_dingux_set_output
  simp only [call_SDL_SetVideoMode, Sys.emit]
  split <;> rfl

theorem error_msg_mustlock (A : Assets) (vid : sdl_dingux_video) (screen : SDL_Surface) :
    (sdl_dingux_blit_video_mode_error_msg A vid screen).mustlock = screen.mustlock := by
  unfold sdl_dingux_blit_video_mode_error_msg sdl_dingux_blit_text32 sdl_dingux_blit_text16
  simp only
  split <;> rfl

/-- The part of `sdl_dingux_gfx_frame` after the mode step, on a bound surface. -/
theorem frame_tail_eq (A : Assets) (s1 : Sys) (sc : SDL_Surface) (frame : Mem)
    (width height pitch : Nat) (msg : Option (List Nat)) (wim : Bool) :
    frame_present A
      { vid := { (if sc.mustlock then s1.emit Event.SDL_LockSurface else s1).vid with
                 screen := some (frame_draw A s1.vid sc frame width height pitch),
                 was_in_menu := wim },
        log := (if sc.mustlock then s1.emit Event.SDL_LockSurface else s1).log }
      (frame_draw A s1.vid sc frame width height pitch) msg =
    ({ vid := { s1.vid with
                screen := some (osd_text A s1.vid
                  (frame_draw A s1.vid sc frame width height pitch) msg),
                was_in_menu := wim },
       log := s1.log ++ frame_surface_calls sc }, some true) := by
  rw [frame_present_eq]
  simp only [frame_draw_mustlock, frame_surface_calls]
  obtain ⟨⟨screen0, fw, fh, ft, c32, c16, mt, lut, rgb, vs, ka, isc, ma, wim0, q, mv⟩, log⟩ := s1
  cases hl : sc.mustlock <;> cases msg <;> simp [Sys.emit] <;> rfl


/-- `sdl_dingux_gfx_frame` with a non-null frame, in two steps: the mode step, then
(when a surface is bound) drawing and presentation. -/
theorem frame_eq (E : Env) (A : Assets) (s : Sys) (frame : Mem) (width height pitch : Nat)
    (msg : Option (List Nat)) :
    sdl_dingux_gfx_frame E A s (some frame) width height pitch msg =
      match (frame_mode_step E s width height).vid.screen with
      | none => (frame_mode_step E s width height, none)
      | some screen =>
        ({ vid := { (frame_mode_step E s width height).vid with
                    screen := some (osd_text A (frame_mode_step E s width height).vid
                      (frame_draw A (frame_mode_step E s width height).vid screen frame
                        width height pitch) msg),
                    was_in_menu := s.vid.menu_active },
           log := (frame_mode_step E s width height).log ++ frame_surface_calls screen },
         some true) := by
  unfold sdl_dingux_gfx_frame
  simp only []
  by_cases hm : s.vid.menu_active = true
  · have e : frame_mode_step E s width height =
        (if (!(s.emit Event.menu_driver_frame).vid.was_in_menu) = true then
          { sdl_dingux_set_output E (s.emit Event.menu_driver_frame)
                SDL_DINGUX_MENU_WIDTH SDL_DINGUX_MENU_HEIGHT false with
            vid := { (sdl_dingux_set_output E (s.emit Event.menu_driver_frame)
                SDL_DINGUX_MENU_WIDTH SDL_DINGUX_MENU_HEIGHT false).vid with
              was_in_menu := true } }
        else s.emit Event.menu_driver_frame) := by
      simp [frame_mode_step, Sys.emit, hm]
    have hma : (frame_mode_step E s width height).vid.menu_active = true := by
      rw [e]; split
      · simp only; rw [set_output_keeps]; exact hm
      · exact hm
    have hwim : (frame_mode_step E s width height).vid.was_in_menu = true := by
      rw [e]; split
      · rfl
      · rename_i h
        simpa [Sys.emit] using h
    have hlhs : (s.emit Event.menu_driver_frame).vid.menu_active = true := hm
    simp only [hlhs, Bool.not_true, Bool.false_eq_true, if_false]
    rw [← e]
    generalize frame_mode_step E s width height = s1 at hma hwim ⊢
    cases hsc : s1.vid.screen with
    | none => rfl
    | some sc =>
      have t := frame_tail_eq A s1 sc frame width height pitch msg s1.vid.was_in_menu
      have hv : (if sc.mustlock = true then s1.emit Event.SDL_LockSurface else s1).vid = s1.vid := by
        split <;> rfl
      simp only [frame_draw, hma, hm, Bool.not_true, Bool.false_eq_true, if_false, hv, hwim] at t ⊢
      exact t
  · have hm' : s.vid.menu_active = false := by simpa using hm
    have e : frame_mode_step E s width height =
        (if ((s.emit Event.menu_driver_frame).vid.was_in_menu ||
              (s.emit Event.menu_driver_frame).vid.frame_width != width ||
              (s.emit Event.menu_driver_frame).vid.frame_height != height) = true then
          sdl_dingux_set_output E (s.emit Event.menu_driver_frame) width height
            (s.emit Event.menu_driver_frame).vid.rgb32
        else s.emit Event.menu_driver_frame) := by
      simp [frame_mode_step, Sys.emit, hm']
    have hma : (frame_mode_step E s width height).vid.menu_active = false := by
      rw [e]; split
      · rw [set_output_keeps]; exact hm'
      · exact hm'
    have hlhs : (s.emit Event.menu_driver_frame).vid.menu_active = false := hm'
    simp only [hlhs, Bool.not_false, if_true]
    rw [← e]
    generalize frame_mode_step E s width height = s1 at hma ⊢
    cases hsc : s1.vid.screen with
    | none => rfl
    | some sc =>
      have t := frame_tail_eq A s1 sc frame width height pitch msg false
      have hv : (if sc.mustlock = true then s1.emit Event.SDL_LockSurface else s1).vid = s1.vid := by
        split <;> rfl
      simp only [frame_draw, hma, hm', Bool.not_false, if_true, hv] at t ⊢
      exact t

theorem set_output_log (E : Env) (s : Sys) (width height : Nat) (rgb32 : Bool) :
    (sdl_dingux_set_output E s width height rgb32).log =
      s.log ++ (Event.set_output width height rgb32 ::
        Event.SDL_SetVideoMode width height (bits_per_pixel rgb32) (surface_flags s.vid.vsync) ::
        (match E.SDL_SetVideoMode (s.log ++ [Event.set_output width height rgb32]) width height
            (bits_per_pixel rgb32) (surface_flags s.vid.vsync) with
          | none => [Event.SDL_SetVideoMode SDL_DINGUX_MENU_WIDTH SDL_DINGUX_MENU_HEIGHT
              (bits_per_pixel rgb32) (surface_flags s.vid.vsync)]
          | some _ => [])) := by
  cases h : E.SDL_SetVideoMode (s.log ++ [Event.set_output width height rgb32]) width height
      (bits_per_pixel rgb32) (surface_flags s.vid.vsync) with
  | none => rw [set_output_none E s width height rgb32 h]
  | some sc => rw [set_output_some E s width height rgb32 sc h]

theorem set_output_calls_set_output (E : Env) (s : Sys) (width height : Nat) (rgb32 : Bool) :
    set_output_calls (sdl_dingux_set_output E s width height rgb32).log =
      set_output_calls s.log ++ [(width, height, rgb32)] := by
  rw [set_output_log, set_output_calls_append]
  congr 1
  split <;> rfl

theorem mode_requests_set_output (E : Env) (s : Sys) (width height : Nat) (rgb32 : Bool) :
    mode_requests (sdl_dingux_set_output E s width height rgb32).log =
      mode_requests s.log ++ ((width, height, bits_per_pixel rgb32) ::
        (match E.SDL_SetVideoMode (s.log ++ [Event.set_output width height rgb32]) width height
            (bits_per_pixel rgb32) (surface_flags s.vid.vsync) with
          | none => [(SDL_DINGUX_MENU_WIDTH, SDL_DINGUX_MENU_HEIGHT, bits_per_pixel rgb32)]
          | some _ => [])) := by
  rw [set_output_log, mode_requests_append]
  congr 1
  split <;> rfl

theorem set_output_screen (E : Env) (hE : FallbackNeverFails E) (s : Sys) (width height : Nat)
    (rgb32 : Bool) : (sdl_dingux_set_output E s width height rgb32).vid.screen ≠ none := by
  cases h : E.SDL_SetVideoMode (s.log ++ [Event.set_output width height rgb32]) width height
      (bits_per_pixel rgb32) (surface_flags s.vid.vsync) with
  | none =>
    rw [set_output_none E s width height rgb32 h]
    have := hE _ _ _ _ _ h
    simpa using this
  | some sc =>
    rw [set_output_some E s width height rgb32 sc h]
    simp

theorem set_output_calls_emit (s : Sys) (e : Event) (h : e.set_output_call = none) :
    set_output_calls (s.emit e).log = set_output_calls s.log := by
  simp [Sys.emit, set_output_calls, List.filterMap_append, h]

theorem mode_requests_emit (s : Sys) (e : Event) (h : e.mode_request = none) :
    mode_requests (s.emit e).log = mode_requests s.log := by
  simp [Sys.emit, mode_requests, List.filterMap_append, h]

theorem set_output_calls_surface_calls (screen : SDL_Surface) :
    set_output_calls (frame_surface_calls screen) = [] := by
  unfold frame_surface_calls
  split <;> rfl

theorem mode_requests_surface_calls (screen : SDL_Surface) :
    mode_requests (frame_surface_calls screen) = [] := by
  unfold frame_surface_calls
  split <;> rfl

/-- The mode step calls the output mode manager as the transition rule says. -/
theorem frame_mode_step_calls (E : Env) (s : Sys) (width height : Nat) :
    set_output_calls (frame_mode_step E s width height).log =
      set_output_calls s.log ++ transition_rule s.vid width height := by
  unfold frame_mode_step transition_rule
  by_cases hm : s.vid.menu_active = true
  · by_cases hw : s.vid.was_in_menu = true
    · simp [Sys.emit, hm, hw, set_output_calls_append, set_output_calls, Event.set_output_call]
    · simp only [Bool.not_eq_true] at hw
      simp [Sys.emit, hm, hw, set_output_calls_set_output, set_output_calls_append]
      simp [set_output_calls, Event.set_output_call, SDL_DINGUX_MENU_WIDTH, SDL_DINGUX_MENU_HEIGHT]
  · simp only [Bool.not_eq_true] at hm
    by_cases hc : s.vid.was_in_menu = true ∨ s.vid.frame_width ≠ width ∨ s.vid.frame_height ≠ height
    · have hc2 : (s.vid.was_in_menu || s.vid.frame_width != width ||
          s.vid.frame_height != height) = true := by
        simpa [Bool.or_eq_true, bne_iff_ne, or_assoc] using hc
      simp only [Sys.emit, hm, Bool.not_false, if_true, hc2, if_pos hc,
        set_output_calls_set_output, set_output_calls_append, Bool.false_eq_true, if_false]
      simp [set_output_calls, Event.set_output_call]
    · have hc2 : (s.vid.was_in_menu || s.vid.frame_width != width ||
          s.vid.frame_height != height) = false := by
        rw [← Bool.not_eq_true]
        simpa [Bool.or_eq_true, bne_iff_ne, or_assoc] using hc
      simp only [Sys.emit, hm, Bool.not_false, if_true, hc2, if_neg hc,
        set_output_calls_append, Bool.false_eq_true, if_false]
      simp [set_output_calls, Event.set_output_call]


theorem frame_mode_step_screen (E : Env) (hE : FallbackNeverFails E) (s : Sys)
    (width height : Nat) (hs : s.vid.screen ≠ none) :
    (frame_mode_step E s width height).vid.screen ≠ none := by
  unfold frame_mode_step
  simp only [Sys.emit]
  split
  · split
    · exact set_output_screen E hE _ _ _ _
    · exact hs
  · split
    · exact set_output_screen E hE _ _ _ _
    · exact hs

theorem transition_rule_length (vid : sdl_dingux_video) (width height : Nat) :
    (transition_rule vid width height).length ≤ 1 := by
  unfold transition_rule
  split <;> split <;> simp

theorem frame_calls (E : Env) (A : Assets) (s : Sys) (frame : Mem)
    (width height pitch : Nat) (msg : Option (List Nat)) :
    set_output_calls (sdl_dingux_gfx_frame E A s (some frame) width height pitch msg).1.log =
      set_output_calls s.log ++ transition_rule s.vid width height := by
  rw [frame_eq]
  cases hsc : (frame_mode_step E s width height).vid.screen with
  | none => exact frame_mode_step_calls E s width height
  | some sc =>
    simp only [set_output_calls_append, set_output_calls_surface_calls, List.append_nil]
    exact frame_mode_step_calls E s width height

/-- C6: a call of `sdl_dingux_gfx_frame` with a non-null frame enters
`sdl_dingux_set_output` exactly as the transition rule says: not at all, or once with
`(width, height, vid->rgb32)` when the menu is off and the driver was in the menu
or the resolution differs from the recorded one, or once with `(320, 240, false)`
(16-bit) when the menu is on and the driver was not in the menu.  When the call
returns, `was_in_menu` equals `menu_active`; and it returns `true` whenever a
surface was bound and the fallback request cannot fail. -/
theorem frame_mode_transition (E : Env) (A : Assets) (s : Sys) (frame : Mem)
    (width height pitch : Nat) (msg : Option (List Nat)) :
    set_output_calls (sdl_dingux_gfx_frame E A s (some frame) width height pitch msg).1.log =
      set_output_calls s.log ++ transition_rule s.vid width height ∧
    (transition_rule s.vid width height).length ≤ 1 ∧
    ((sdl_dingux_gfx_frame E A s (some frame) width height pitch msg).2 = some true →
      (sdl_dingux_gfx_frame E A s (some frame) width height pitch msg).1.vid.was_in_menu =
        s.vid.menu_active) ∧
    (s.vid.screen ≠ none → FallbackNeverFails E →
      (sdl_dingux_gfx_frame E A s (some frame) width height pitch msg).2 = some true) := by
  refine ⟨frame_calls E A s frame width height pitch msg, transition_rule_length _ _ _, ?_, ?_⟩
  · rw [frame_eq]
    cases hsc : (frame_mode_step E s width height).vid.screen with
    | none => simp
    | some sc => simp
  · intro hs hE
    rw [frame_eq]
    have := frame_mode_step_screen E hE s width height hs
    cases hsc : (frame_mode_step E s width height).vid.screen with
    | none => exact absurd hsc this
    | some sc => rfl

theorem demo_env_fallback : FallbackNeverFails demo_env := by
  intro log width height bpp flags _
  simp [demo_env, SDL_DINGUX_MENU_WIDTH, SDL_DINGUX_MENU_HEIGHT]

/-- Witness of `frame_mode_transition`: a 256x224 content frame on the 16-bit demo
driver, which is bound to a 320x240 surface. -/
theorem frame_mode_transition_witness :
    (sdl_dingux_gfx_frame demo_env demo_assets (demo_sys false) (some (fun _ => 0))
        256 224 512 none).2 = some true ∧
    (demo_sys false).vid.screen ≠ none ∧
    (sdl_dingux_gfx_frame demo_env demo_assets (demo_sys false) (some (fun _ => 0))
        256 224 512 none).1.vid.was_in_menu = (demo_sys false).vid.menu_active :=
  ⟨(frame_mode_transition demo_env demo_assets (demo_sys false) (fun _ => 0) 256 224 512
      none).2.2.2 (by simp [demo_sys, demo_vid]) demo_env_fallback,
   by simp [demo_sys, demo_vid],
   (frame_mode_transition demo_env demo_assets (demo_sys false) (fun _ => 0) 256 224 512
      none).2.2.1 (by decide)⟩

theorem frame_mode_step_idle (E : Env) (s : Sys) (width height : Nat)
    (h : transition_rule s.vid width height = []) :
    frame_mode_step E s width height = s.emit Event.menu_driver_frame := by
  unfold transition_rule at h
  unfold frame_mode_step
  by_cases hm : s.vid.menu_active = true
  · by_cases hw : s.vid.was_in_menu = true
    · simp [Sys.emit, hm, hw]
    · simp [hm, hw] at h
  · simp only [Bool.not_eq_true] at hm
    by_cases hc : s.vid.was_in_menu = true ∨ s.vid.frame_width ≠ width ∨ s.vid.frame_height ≠ height
    · simp [hm, hc] at h
    · have hc2 : (s.vid.was_in_menu || s.vid.frame_width != width ||
          s.vid.frame_height != height) = false := by
        rw [← Bool.not_eq_true]
        simpa [Bool.or_eq_true, bne_iff_ne, or_assoc] using hc
      simp only [Sys.emit, hm, Bool.not_false, if_true, hc2, Bool.false_eq_true, if_false]

theorem frame_mode_step_menu_active (E : Env) (s : Sys) (width height : Nat) :
    (frame_mode_step E s width height).vid.menu_active = s.vid.menu_active := by
  unfold frame_mode_step
  simp only [Sys.emit]
  split
  · split
    · rw [set_output_keeps]
    · rfl
  · split
    · simp only; rw [set_output_keeps]
    · rfl

theorem frame_mode_step_size (E : Env) (s : Sys) (width height : Nat)
    (hm : s.vid.menu_active = false) :
    (frame_mode_step E s width height).vid.frame_width = width ∧
    (frame_mode_step E s width height).vid.frame_height = height := by
  unfold frame_mode_step
  by_cases hc : s.vid.was_in_menu = true ∨ s.vid.frame_width ≠ width ∨ s.vid.frame_height ≠ height
  · have hc2 : (s.vid.was_in_menu || s.vid.frame_width != width ||
        s.vid.frame_height != height) = true := by
      simpa [Bool.or_eq_true, bne_iff_ne, or_assoc] using hc
    simp only [Sys.emit, hm, Bool.not_false, if_true, hc2]
    rw [set_output_keeps]
    exact ⟨rfl, rfl⟩
  · have hc2 : (s.vid.was_in_menu || s.vid.frame_width != width ||
        s.vid.frame_height != height) = false := by
      rw [← Bool.not_eq_true]
      simpa [Bool.or_eq_true, bne_iff_ne, or_assoc] using hc
    simp only [Sys.emit, hm, Bool.not_false, if_true, hc2, Bool.false_eq_true, if_false]
    push_neg at hc
    exact ⟨hc.2.1, hc.2.2⟩

/-- After a frame call that returned, the transition rule asks for nothing on a
frame of the same size. -/
theorem transition_rule_after_frame (E : Env) (A : Assets) (s : Sys) (frame : Mem)
    (width height pitch : Nat) (msg : Option (List Nat))
    (hret : (sdl_dingux_gfx_frame E A s (some frame) width height pitch msg).2 = some true) :
    transition_rule (sdl_dingux_gfx_frame E A s (some frame) width height pitch msg).1.vid
      width height = [] ∧
    (sdl_dingux_gfx_frame E A s (some frame) width height pitch msg).1.vid.screen ≠ none := by
  rw [frame_eq] at hret ⊢
  cases hsc : (frame_mode_step E s width height).vid.screen with
  | none => rw [hsc] at hret; simp at hret
  | some sc =>
    simp only
    have hma := frame_mode_step_menu_active E s width height
    refine ⟨?_, by simp⟩
    unfold transition_rule
    simp only [hma]
    cases hm : s.vid.menu_active
    · have := frame_mode_step_size E s width height hm
      simp [this.1, this.2]
    · simp

theorem mode_requests_frame (E : Env) (A : Assets) (s : Sys) (frame : Mem)
    (width height pitch : Nat) (msg : Option (List Nat)) :
    mode_requests (sdl_dingux_gfx_frame E A s (some frame) width height pitch msg).1.log =
      mode_requests (frame_mode_step E s width height).log := by
  rw [frame_eq]
  cases hsc : (frame_mode_step E s width height).vid.screen with
  | none => rfl
  | some sc => simp [mode_requests_append, mode_requests_surface_calls]

theorem frame_requests_idle (E : Env) (A : Assets) (s : Sys) (frame : Mem)
    (width height pitch : Nat) (msg : Option (List Nat))
    (h : transition_rule s.vid width height = []) :
    frame_requests E A s (some frame) width height pitch msg = [] := by
  unfold frame_requests
  rw [mode_requests_frame, frame_mode_step_idle E s width height h,
    mode_requests_emit s Event.menu_driver_frame rfl]
  simp


theorem init_ok (E : Env) (A : Assets) (log : List Event) (video : video_info)
    (settings : Settings) (vid : sdl_dingux_video) (log1 : List Event)
    (h : sdl_dingux_gfx_init E A log video settings true true = (some vid, log1)) :
    vid.screen ≠ none ∧ vid.frame_width = SDL_DINGUX_MENU_WIDTH ∧
    vid.frame_height = SDL_DINGUX_MENU_HEIGHT ∧ vid.rgb32 = video.rgb32 ∧
    vid.vsync = video.vsync ∧ vid.menu_active = false ∧ vid.was_in_menu = false ∧
    vid.mode_valid = true := by
  unfold sdl_dingux_gfx_init at h
  simp only [call_SDL_SetVideoMode, Bool.not_true, Bool.false_eq_true, if_false] at h
  split at h
  · simp at h
  · rename_i sc hsc
    simp only [Prod.mk.injEq, Option.some.injEq] at h
    obtain ⟨hv, _⟩ := h
    subst hv
    simp [hsc]

/-- C7: lazy mode change.  From every driver state, when a frame call with a
non-null payload has returned, the next frame call with a non-null payload, the
same width and the same height issues no display-mode request and does not enter
the output mode manager, whether or not a request of the first call succeeded;
and it returns.  From the state after `init` of a 16-bit, non-vsync driver, a
first 256x224 frame at pitch 512 whose request succeeds issues exactly the one
request `(256, 224, 16)`, and the next 256x224 frame issues none. -/
theorem frame_lazy_mode_change (E : Env) (A : Assets) :
    (∀ (s : Sys) (f1 f2 : Mem) (width height p1 p2 : Nat) (m1 m2 : Option (List Nat)),
      (sdl_dingux_gfx_frame E A s (some f1) width height p1 m1).2 = some true →
      frame_requests E A (sdl_dingux_gfx_frame E A s (some f1) width height p1 m1).1
        (some f2) width height p2 m2 = [] ∧
      set_output_calls (sdl_dingux_gfx_frame E A
          (sdl_dingux_gfx_frame E A s (some f1) width height p1 m1).1
          (some f2) width height p2 m2).1.log =
        set_output_calls (sdl_dingux_gfx_frame E A s (some f1) width height p1 m1).1.log ∧
      (sdl_dingux_gfx_frame E A (sdl_dingux_gfx_frame E A s (some f1) width height p1 m1).1
        (some f2) width height p2 m2).2 = some true) ∧
    (∀ (log : List Event) (settings : Settings) (vid : sdl_dingux_video) (log1 : List Event)
        (f1 f2 : Mem) (m1 m2 : Option (List Nat)),
      sdl_dingux_gfx_init E A log ⟨false, false⟩ settings true true = (some vid, log1) →
      E.SDL_SetVideoMode (log1 ++ [Event.menu_driver_frame, Event.set_output 256 224 false])
        256 224 16 (surface_flags false) ≠ none →
      frame_requests E A ⟨vid, log1⟩ (some f1) 256 224 512 m1 = [(256, 224, 16)] ∧
      frame_requests E A (sdl_dingux_gfx_frame E A ⟨vid, log1⟩ (some f1) 256 224 512 m1).1
        (some f2) 256 224 512 m2 = []) := by
  have general : ∀ (s : Sys) (f1 f2 : Mem) (width height p1 p2 : Nat)
      (m1 m2 : Option (List Nat)),
      (sdl_dingux_gfx_frame E A s (some f1) width height p1 m1).2 = some true →
      frame_requests E A (sdl_dingux_gfx_frame E A s (some f1) width height p1 m1).1
        (some f2) width height p2 m2 = [] ∧
      set_output_calls (sdl_dingux_gfx_frame E A
          (sdl_dingux_gfx_frame E A s (some f1) width height p1 m1).1
          (some f2) width height p2 m2).1.log =
        set_output_calls (sdl_dingux_gfx_frame E A s (some f1) width height p1 m1).1.log ∧
      (sdl_dingux_gfx_frame E A (sdl_dingux_gfx_frame E A s (some f1) width height p1 m1).1
        (some f2) width height p2 m2).2 = some true := by
    intro s f1 f2 width height p1 p2 m1 m2 hret
    obtain ⟨hrule, hscreen⟩ := transition_rule_after_frame E A s f1 width height p1 m1 hret
    refine ⟨frame_requests_idle E A _ f2 width height p2 m2 hrule, ?_, ?_⟩
    · rw [frame_calls E A _ f2 width height p2 m2, hrule, List.append_nil]
    · rw [frame_eq, frame_mode_step_idle E _ width height hrule]
      simp only [Sys.emit]
      cases hsc : (sdl_dingux_gfx_frame E A s (some f1) width height p1 m1).1.vid.screen with
      | none => exact absurd hsc hscreen
      | some sc => rfl
  refine ⟨general, ?_⟩
  intro log settings vid log1 f1 f2 m1 m2 hinit hok
  obtain ⟨hscr, hfw, hfh, hrgb, hvs, hma, hwim, hmv⟩ := init_ok E A log _ settings vid log1 hinit
  simp only at hrgb hvs
  obtain ⟨sc, hsc⟩ := Option.ne_none_iff_exists'.mp hok
  have hstep : frame_mode_step E ⟨vid, log1⟩ 256 224 =
      sdl_dingux_set_output E (Sys.emit ⟨vid, log1⟩ Event.menu_driver_frame) 256 224 false := by
    unfold frame_mode_step
    simp [Sys.emit, hma, hwim, hfw, hrgb, SDL_DINGUX_MENU_WIDTH]
  have hso := set_output_some E (Sys.emit ⟨vid, log1⟩ Event.menu_driver_frame) 256 224 false sc
    (by simpa [Sys.emit, bits_per_pixel, hvs] using hsc)
  have hreq : frame_requests E A ⟨vid, log1⟩ (some f1) 256 224 512 m1 = [(256, 224, 16)] := by
    unfold frame_requests
    rw [mode_requests_frame, hstep, hso]
    simp [Sys.emit, mode_requests, List.filterMap_append, Event.mode_request, bits_per_pixel]
  have hret : (sdl_dingux_gfx_frame E A ⟨vid, log1⟩ (some f1) 256 224 512 m1).2 = some true := by
    rw [frame_eq, hstep, hso]
  exact ⟨hreq, (general ⟨vid, log1⟩ f1 f2 256 224 512 512 m1 m2 hret).1⟩

/-- Witness of `frame_lazy_mode_change`: the 16-bit, non-vsync demo driver right
after `init`, fed two 256x224 frames at pitch 512. -/
theorem frame_lazy_mode_change_witness :
    (sdl_dingux_gfx_frame demo_env demo_assets (demo_boot false false) (some (fun _ => 0))
      256 224 512 none).2 = some true ∧
    frame_requests demo_env demo_assets (demo_boot false false) (some (fun _ => 0))
      256 224 512 none = [(256, 224, 16)] ∧
    frame_requests demo_env demo_assets
      (sdl_dingux_gfx_frame demo_env demo_assets (demo_boot false false) (some (fun _ => 0))
        256 224 512 none).1 (some (fun _ => 1)) 256 224 512 none = [] ∧
    (sdl_dingux_gfx_frame demo_env demo_assets
      (sdl_dingux_gfx_frame demo_env demo_assets (demo_boot false false) (some (fun _ => 0))
        256 224 512 none).1 (some (fun _ => 1)) 256 224 512 none).2 = some true :=
  ⟨by decide,
   ((frame_lazy_mode_change demo_env demo_assets).2 [] demo_settings
      (demo_boot false false).vid (demo_boot false false).log (fun _ => 0) (fun _ => 1)
      none none rfl (by simp [demo_env])).1,
   ((frame_lazy_mode_change demo_env demo_assets).2 [] demo_settings
      (demo_boot false false).vid (demo_boot false false).log (fun _ => 0) (fun _ => 1)
      none none rfl (by simp [demo_env])).2,
   ((frame_lazy_mode_change demo_env demo_assets).1 (demo_boot false false)
      (fun _ => 0) (fun _ => 1) 256 224 512 512 none none (by decide)).2.2⟩


theorem error_msg_geometry (A : Assets) (vid : sdl_dingux_video) (screen : SDL_Surface) :
    (sdl_dingux_blit_video_mode_error_msg A vid screen).geometry = screen.geometry := by
  unfold sdl_dingux_blit_video_mode_error_msg sdl_dingux_blit_text32 sdl_dingux_blit_text16
  simp only
  split <;> rfl

theorem frame_draw_geometry (A : Assets) (vid : sdl_dingux_video) (screen : SDL_Surface)
    (frame : Mem) (width height pitch : Nat) :
    (frame_draw A vid screen frame width height pitch).geometry = screen.geometry := by
  unfold frame_draw
  split
  · split
    · split <;> rfl
    · exact error_msg_geometry A vid screen
  · rfl

theorem osd_text_geometry (A : Assets) (vid : sdl_dingux_video) (screen : SDL_Surface)
    (msg : Option (List Nat)) : (osd_text A vid screen msg).geometry = screen.geometry := by
  unfold osd_text
  cases msg with
  | none => rfl
  | some m =>
    simp only
    split <;> rfl

/-- An operation that does not enter the output mode manager leaves `mode_valid`
and the geometry of the bound surface as they were. -/
theorem step_keeps_mode (E : Env) (A : Assets) (s s1 : Sys) (op : Op)
    (hstep : step E A s op = some s1)
    (hcalls : set_output_calls s1.log = set_output_calls s.log) :
    s1.vid.mode_valid = s.vid.mode_valid ∧
    s1.vid.screen.map SDL_Surface.geometry = s.vid.screen.map SDL_Surface.geometry := by
  cases op with
  | frame frame width height pitch msg =>
    cases frame with
    | none =>
      simp only [step, sdl_dingux_gfx_frame, Option.some.injEq] at hstep
      subst hstep
      exact ⟨rfl, rfl⟩
    | some f =>
      have hc := frame_calls E A s f width height pitch msg
      simp only [step] at hstep
      split at hstep
      · simp at hstep
      · simp only [Option.some.injEq] at hstep
        subst hstep
        rw [hcalls] at hc
        have hrule : transition_rule s.vid width height = [] := by
          simpa using hc
        rw [frame_eq, frame_mode_step_idle E s width height hrule]
        simp only [Sys.emit]
        cases hsc : s.vid.screen with
        | none => exact ⟨rfl, by simp [hsc]⟩
        | some sc =>
          simp [osd_text_geometry, frame_draw_geometry]
  | set_texture_enable state =>
    simp only [step, sdl_dingux_set_texture_enable, Option.some.injEq] at hstep
    subst hstep
    split <;> exact ⟨rfl, rfl⟩
  | set_texture_frame frame rgb32 width height =>
    simp only [step, sdl_dingux_set_texture_frame, Option.some.injEq] at hstep
    subst hstep
    split <;> exact ⟨rfl, rfl⟩
  | set_nonblock_state toggle =>
    simp only [step, sdl_dingux_gfx_set_nonblock_state, Option.some.injEq] at hstep
    subst hstep
    split
    · rename_i h
      rw [if_pos h, set_output_calls_set_output] at hcalls
      simp at hcalls
    · exact ⟨rfl, rfl⟩
  | set_filtering settings =>
    simp only [step, sdl_dingux_set_filtering, Option.some.injEq] at hstep
    subst hstep
    cases settings with
    | none => exact ⟨rfl, rfl⟩
    | some st =>
      simp only
      split <;> exact ⟨rfl, rfl⟩
  | apply_state_changes settings =>
    simp only [step, sdl_dingux_apply_state_changes, Option.some.injEq] at hstep
    subst hstep
    cases settings with
    | none => exact ⟨rfl, rfl⟩
    | some st =>
      simp only
      split <;> split <;> exact ⟨rfl, rfl⟩
  | alive quit_event =>
    simp only [step, sdl_dingux_gfx_alive, Option.some.injEq] at hstep
    subst hstep
    split <;> exact ⟨rfl, rfl⟩


/-- C8: `sdl_dingux_set_output(vid, width, height, rgb32)` first requests the mode
`(width, height, rgb32 ? 32 : 16)` with the flags of the current vsync flag.  If the
request returns a surface, that surface is bound, `frame_width`/`frame_height` are
the requested size, `mode_valid` is true and nothing else is requested.  If it
fails, exactly one more request is made, for `(320, 240)` with the same depth and
flags, its result is bound and `mode_valid` is false.  So `mode_valid` is true iff
the primary request succeeded, and `mode_valid = false` implies that the bound
surface is the answer to the fallback request; both stay so until the next mode
change, since an operation that does not enter the output mode manager changes
neither `mode_valid` nor the geometry of the bound surface. -/
theorem set_output_spec (E : Env) (s : Sys) (width height : Nat) (rgb32 : Bool) :
    (∀ sc, E.SDL_SetVideoMode (s.log ++ [Event.set_output width height rgb32]) width height
        (bits_per_pixel rgb32) (surface_flags s.vid.vsync) = some sc →
      (sdl_dingux_set_output E s width height rgb32).log =
        s.log ++ [Event.set_output width height rgb32,
          Event.SDL_SetVideoMode width height (bits_per_pixel rgb32)
            (surface_flags s.vid.vsync)] ∧
      (sdl_dingux_set_output E s width height rgb32).vid.screen = some sc ∧
      (sdl_dingux_set_output E s width height rgb32).vid.frame_width = width ∧
      (sdl_dingux_set_output E s width height rgb32).vid.frame_height = height ∧
      (sdl_dingux_set_output E s width height rgb32).vid.mode_valid = true) ∧
    (E.SDL_SetVideoMode (s.log ++ [Event.set_output width height rgb32]) width height
        (bits_per_pixel rgb32) (surface_flags s.vid.vsync) = none →
      (sdl_dingux_set_output E s width height rgb32).log =
        s.log ++ [Event.set_output width height rgb32,
          Event.SDL_SetVideoMode width height (bits_per_pixel rgb32)
            (surface_flags s.vid.vsync),
          Event.SDL_SetVideoMode 320 240 (bits_per_pixel rgb32) (surface_flags s.vid.vsync)] ∧
      (sdl_dingux_set_output E s width height rgb32).vid.screen =
        E.SDL_SetVideoMode (s.log ++ [Event.set_output width height rgb32,
          Event.SDL_SetVideoMode width height (bits_per_pixel rgb32)
            (surface_flags s.vid.vsync)]) 320 240 (bits_per_pixel rgb32)
          (surface_flags s.vid.vsync) ∧
      (sdl_dingux_set_output E s width height rgb32).vid.mode_valid = false) ∧
    ((sdl_dingux_set_output E s width height rgb32).vid.mode_valid = true ↔
      E.SDL_SetVideoMode (s.log ++ [Event.set_output width height rgb32]) width height
        (bits_per_pixel rgb32) (surface_flags s.vid.vsync) ≠ none) ∧
    (∀ (A : Assets) (t t1 : Sys) (op : Op), step E A t op = some t1 →
      set_output_calls t1.log = set_output_calls t.log →
      t1.vid.mode_valid = t.vid.mode_valid ∧
      t1.vid.screen.map SDL_Surface.geometry = t.vid.screen.map SDL_Surface.geometry) := by
  refine ⟨?_, ?_, ?_, fun A t t1 op h1 h2 => step_keeps_mode E A t t1 op h1 h2⟩
  · intro sc h
    rw [set_output_some E s width height rgb32 sc h]
    exact ⟨rfl, rfl, rfl, rfl, rfl⟩
  · intro h
    rw [set_output_none E s width height rgb32 h]
    exact ⟨rfl, rfl, rfl⟩
  · cases h : E.SDL_SetVideoMode (s.log ++ [Event.set_output width height rgb32]) width height
        (bits_per_pixel rgb32) (surface_flags s.vid.vsync) with
    | none => rw [set_output_none E s width height rgb32 h]; simp
    | some sc => rw [set_output_some E s width height rgb32 sc h]; simp

/-- Witness of `set_output_spec` on `demo_env`: the request for 256x224 at 16 bits
succeeds, the request for 640x480 at 32 bits fails and falls back to 320x240, and
switching the menu on is an operation without a mode change. -/
theorem set_output_spec_witness :
    (sdl_dingux_set_output demo_env (demo_sys false) 256 224 false).vid.mode_valid = true ∧
    (sdl_dingux_set_output demo_env (demo_sys false) 256 224 false).vid.frame_width = 256 ∧
    (sdl_dingux_set_output demo_env (demo_sys true) 640 480 true).vid.mode_valid = false ∧
    (sdl_dingux_set_output demo_env (demo_sys true) 640 480 true).log =
      [Event.set_output 640 480 true,
       Event.SDL_SetVideoMode 640 480 32 (surface_flags false),
       Event.SDL_SetVideoMode 320 240 32 (surface_flags false)] ∧
    (sdl_dingux_set_texture_enable (demo_sys false) true).vid.mode_valid =
      (demo_sys false).vid.mode_valid :=
  ⟨((set_output_spec demo_env (demo_sys false) 256 224 false).1
      (demo_surface 256 224 512) (by simp [demo_env, bits_per_pixel])).2.2.2.2,
   ((set_output_spec demo_env (demo_sys false) 256 224 false).1
      (demo_surface 256 224 512) (by simp [demo_env, bits_per_pixel])).2.2.1,
   ((set_output_spec demo_env (demo_sys true) 640 480 true).2.1
      (by simp [demo_env])).2.2,
   ((set_output_spec demo_env (demo_sys true) 640 480 true).2.1
      (by simp [demo_env])).1,
   ((set_output_spec demo_env (demo_sys false) 256 224 false).2.2.2 demo_assets
      (demo_sys false) (sdl_dingux_set_texture_enable (demo_sys false) true)
      (Op.set_texture_enable true) rfl rfl).1⟩


/-! ## Degraded mode -/

theorem fmt_u_aux_length (digits n : Nat) (acc : List Nat) :
    (fmt_u_aux digits n acc).length ≤ digits + acc.length := by
  induction digits generalizing n acc with
  | zero => simp [fmt_u_aux]
  | succ d ih =>
    unfold fmt_u_aux
    split
    · simp; omega
    · have := ih (n / 10) ((48 + n % 10) :: acc)
      simp at this
      omega

theorem fmt_u_length (n : Nat) : (fmt_u n).length ≤ 10 := by
  have := fmt_u_aux_length 10 (n % 2 ^ 32) []
  simpa [fmt_u] using this

theorem digitChar_toNat (d : Nat) (h : d < 10) : (Nat.digitChar d).toNat = 48 + d := by
  interval_cases d <;> rfl

theorem toDigitsCore_eq_fmt_u_aux (k : Nat) :
    ∀ (fuel n : Nat) (acc : List Char), n < 10 ^ (k + 1) → n < fuel →
      (Nat.toDigitsCore 10 fuel n acc).map Char.toNat
        = fmt_u_aux (k + 1) n (acc.map Char.toNat) := by
  induction k with
  | zero =>
    intro fuel n acc hn hf
    obtain ⟨f, rfl⟩ : ∃ f, fuel = f + 1 := ⟨fuel - 1, by omega⟩
    have h10 : n < 10 := by simpa using hn
    have hdiv : n / 10 = 0 := by omega
    have hmod : n % 10 = n := by omega
    simp [Nat.toDigitsCore, fmt_u_aux, h10, hdiv, hmod, digitChar_toNat n h10]
  | succ k ih =>
    intro fuel n acc hn hf
    obtain ⟨f, rfl⟩ : ∃ f, fuel = f + 1 := ⟨fuel - 1, by omega⟩
    by_cases h10 : n < 10
    · have hdiv : n / 10 = 0 := by omega
      have hmod : n % 10 = n := by omega
      simp [Nat.toDigitsCore, fmt_u_aux, h10, hdiv, hmod, digitChar_toNat n h10]
    · have hdiv : n / 10 ≠ 0 := by omega
      have hlt : n / 10 < 10 ^ (k + 1) := by
        rw [Nat.div_lt_iff_lt_mul (by decide)]
        calc n < 10 ^ (k + 1 + 1) := hn
          _ = 10 ^ (k + 1) * 10 := by rw [pow_succ]
      have := ih f (n / 10) (Nat.digitChar (n % 10) :: acc) hlt (by omega)
      rw [fmt_u_aux]
      simp only [h10, if_false]
      rw [Nat.toDigitsCore]
      simp only [hdiv, if_false]
      rw [this]
      simp [digitChar_toNat (n % 10) (Nat.mod_lt _ (by decide))]

/-- `fmt_u` is the decimal representation. -/
theorem fmt_u_eq_repr (n : Nat) (h : n < 2 ^ 32) : fmt_u n = ascii (Nat.repr n) := by
  have := toDigitsCore_eq_fmt_u_aux 9 (n + 1) n [] (by omega) (by omega)
  simp only [List.map_nil] at this
  simp only [fmt_u, Nat.mod_eq_of_lt h, ascii, Nat.repr, Nat.toDigits, List.asString]
  exact this.symm


theorem display_mode_string_eq (W H : Nat) (rgb32 : Bool) (hW : W < 2 ^ 32) (hH : H < 2 ^ 32) :
    display_mode_string W H rgb32 =
      ascii "> " ++ ascii (Nat.repr W) ++ ascii "x" ++ ascii (Nat.repr H) ++
        (if rgb32 then ascii ", XRGB8888" else ascii ", RGB565") := by
  have hw := fmt_u_length W
  have hh := fmt_u_length H
  unfold display_mode_string
  rw [List.take_of_length_le]
  · rw [fmt_u_eq_repr W hW, fmt_u_eq_repr H hH]
    cases rgb32
    · simp only [Bool.false_eq_true, if_false, List.append_assoc]
      rfl
    · simp only [if_true, List.append_assoc]
      rfl
  · cases rgb32
    · simp only [Bool.false_eq_true, if_false, List.length_append]
      have e1 : (ascii "> ").length = 2 := rfl
      have e2 : (ascii "x").length = 1 := rfl
      have e3 : (ascii ", ").length = 2 := rfl
      have e4 : (ascii "RGB565").length = 6 := rfl
      omega
    · simp only [if_true, List.length_append]
      have e1 : (ascii "> ").length = 2 := rfl
      have e2 : (ascii "x").length = 1 := rfl
      have e3 : (ascii ", ").length = 2 := rfl
      have e4 : (ascii "XRGB8888").length = 8 := rfl
      omega

theorem diagnostic_surface_congr (A : Assets) (vid vid1 : sdl_dingux_video)
    (screen : SDL_Surface) (W H : Nat) (h1 : vid1.rgb32 = vid.rgb32)
    (h3 : vid1.font_lut = vid.font_lut) (h4 : vid1.font_colour16 = vid.font_colour16)
    (h5 : vid1.font_colour32 = vid.font_colour32) :
    diagnostic_surface A vid1 screen W H = diagnostic_surface A vid screen W H := by
  unfold diagnostic_surface sdl_dingux_blit_text32 sdl_dingux_blit_text16
    sdl_dingux_blit_text32_writes sdl_dingux_blit_text16_writes
  rw [h1, h3, h4, h5]

/-- The diagnostic path of the source draws the diagnostic rendering of the
recorded resolution. -/
theorem error_msg_eq_diagnostic (A : Assets) (vid : sdl_dingux_video) (screen : SDL_Surface)
    (hW : vid.frame_width < 2 ^ 32) (hH : vid.frame_height < 2 ^ 32) :
    sdl_dingux_blit_video_mode_error_msg A vid screen =
      diagnostic_surface A vid screen vid.frame_width vid.frame_height := by
  unfold sdl_dingux_blit_video_mode_error_msg diagnostic_surface
  simp only [display_mode_string_eq _ _ _ hW hH]
  cases vid.rgb32 <;> rfl


theorem frame_draw_degraded (A : Assets) (vid : sdl_dingux_video) (screen : SDL_Surface)
    (frame : Mem) (width height pitch : Nat) (hm : vid.menu_active = false)
    (hv : vid.mode_valid = false) (hW : vid.frame_width < 2 ^ 32)
    (hH : vid.frame_height < 2 ^ 32) :
    frame_draw A vid screen frame width height pitch =
      diagnostic_surface A vid screen vid.frame_width vid.frame_height := by
  unfold frame_draw
  simp only [hm, hv, Bool.not_false, if_true, Bool.false_eq_true, if_false]
  exact error_msg_eq_diagnostic A vid screen hW hH

/-- C9: degraded-mode rendering.  If a content frame of resolution `W`x`H` requests a
mode change and the request fails, `mode_valid` is false after the call.  When the
fallback request returns a surface `fb` (it is assumed never to fail), the call
returns `true` and the bound surface shows, instead of the frame payload, the
diagnostic rendering on `fb` (with the on-screen message on top, if any): the
text blitter of the driver's format draws the message for an unsupported mode
and the string `"> WxH, XRGB8888"` (32-bit) or `"> WxH, RGB565"` (16-bit) with the
requested `W` and `H` in decimal.  Every following content frame of the same
resolution requests no mode, returns `true` and again shows the diagnostic
rendering.  For 640x480 at 32 bits the string is `"> 640x480, XRGB8888"`. -/
theorem frame_degraded_mode (E : Env) (A : Assets) (W H : Nat)
    (hW : W < 2 ^ 32) (hH : H < 2 ^ 32) :
    (∀ (s : Sys) (f : Mem) (pitch : Nat) (msg : Option (List Nat)),
      s.vid.menu_active = false →
      (s.vid.was_in_menu = true ∨ s.vid.frame_width ≠ W ∨ s.vid.frame_height ≠ H) →
      E.SDL_SetVideoMode (s.log ++ [Event.menu_driver_frame, Event.set_output W H s.vid.rgb32])
        W H (bits_per_pixel s.vid.rgb32) (surface_flags s.vid.vsync) = none →
      (sdl_dingux_gfx_frame E A s (some f) W H pitch msg).1.vid.mode_valid = false ∧
      ∀ fb : SDL_Surface,
        E.SDL_SetVideoMode (s.log ++ [Event.menu_driver_frame, Event.set_output W H s.vid.rgb32,
            Event.SDL_SetVideoMode W H (bits_per_pixel s.vid.rgb32)
              (surface_flags s.vid.vsync)])
          320 240 (bits_per_pixel s.vid.rgb32) (surface_flags s.vid.vsync) = some fb →
        (sdl_dingux_gfx_frame E A s (some f) W H pitch msg).2 = some true ∧
        Degraded (sdl_dingux_gfx_frame E A s (some f) W H pitch msg).1 W H
          (osd_text A s.vid (diagnostic_surface A s.vid fb W H) msg)) ∧
    (∀ (t : Sys) (cur : SDL_Surface) (f : Mem) (pitch : Nat) (msg : Option (List Nat)),
      Degraded t W H cur →
      (sdl_dingux_gfx_frame E A t (some f) W H pitch msg).2 = some true ∧
      frame_requests E A t (some f) W H pitch msg = [] ∧
      Degraded (sdl_dingux_gfx_frame E A t (some f) W H pitch msg).1 W H
        (osd_text A t.vid (diagnostic_surface A t.vid cur W H) msg)) ∧
    display_mode_string 640 480 true = ascii "> 640x480, XRGB8888" ∧
    ascii "> " ++ ascii (Nat.repr 640) ++ ascii "x" ++ ascii (Nat.repr 480) ++ ascii ", XRGB8888"
      = ascii "> 640x480, XRGB8888" := by
  refine ⟨?_, ?_, by decide, by decide⟩
  · intro s f pitch msg hm htrig hfail
    have hc2 : (s.vid.was_in_menu || s.vid.frame_width != W ||
        s.vid.frame_height != H) = true := by
      simpa [Bool.or_eq_true, bne_iff_ne, or_assoc] using htrig
    have hstep : frame_mode_step E s W H =
        sdl_dingux_set_output E (s.emit Event.menu_driver_frame) W H s.vid.rgb32 := by
      unfold frame_mode_step
      simp only [Sys.emit, hm, Bool.not_false, if_true, hc2]
    have hso := set_output_none E (s.emit Event.menu_driver_frame) W H s.vid.rgb32
      (by simpa [Sys.emit] using hfail)
    constructor
    · rw [frame_eq, hstep, hso]
      simp only
      split <;> rfl
    · intro fb hfb
      have hfb' : E.SDL_SetVideoMode
          ((s.emit Event.menu_driver_frame).log ++ [Event.set_output W H s.vid.rgb32,
            Event.SDL_SetVideoMode W H (bits_per_pixel s.vid.rgb32)
              (surface_flags (s.emit Event.menu_driver_frame).vid.vsync)])
          SDL_DINGUX_MENU_WIDTH SDL_DINGUX_MENU_HEIGHT (bits_per_pixel s.vid.rgb32)
          (surface_flags (s.emit Event.menu_driver_frame).vid.vsync) = some fb := by
        simpa [Sys.emit, SDL_DINGUX_MENU_WIDTH, SDL_DINGUX_MENU_HEIGHT] using hfb
      rw [hfb'] at hso
      rw [frame_eq, hstep, hso]
      refine ⟨rfl, hm, hm, rfl, rfl, rfl, ?_⟩
      have hd := frame_draw_degraded A
        { s.vid with frame_width := W, frame_height := H, screen := some fb,
                     mode_valid := false }
        fb f W H pitch hm rfl hW hH
      have hc := diagnostic_surface_congr A s.vid
        { s.vid with frame_width := W, frame_height := H, screen := some fb,
                     mode_valid := false }
        fb W H rfl rfl rfl rfl
      have ho := osd_text_congr A s.vid
        { s.vid with frame_width := W, frame_height := H, screen := some fb,
                     mode_valid := false }
        (diagnostic_surface A s.vid fb W H) msg rfl rfl rfl rfl rfl
      simp only at hd hc ho
      simp only [Sys.emit]
      rw [hd, hc, ho]
  · intro t cur f pitch msg hdeg
    obtain ⟨hm, hwim, hfw, hfh, hmv, hscr⟩ := hdeg
    have hrule : transition_rule t.vid W H = [] := by
      unfold transition_rule
      simp [hm, hwim, hfw, hfh]
    refine ⟨?_, frame_requests_idle E A t f W H pitch msg hrule, ?_⟩
    · rw [frame_eq, frame_mode_step_idle E t W H hrule]
      simp only [Sys.emit, hscr]
    · have hd := frame_draw_degraded A t.vid cur f W H pitch hm hmv (by rw [hfw]; exact hW)
        (by rw [hfh]; exact hH)
      rw [hfw, hfh] at hd
      rw [frame_eq, frame_mode_step_idle E t W H hrule]
      simp only [Sys.emit, hscr]
      refine ⟨hm, hm, hfw, hfh, hmv, ?_⟩
      simp only
      rw [hd]

/-- Witness of `frame_degraded_mode`: the 32-bit demo driver, bound to 320x240, is
fed 640x480 frames, a mode `demo_env` refuses. -/
theorem frame_degraded_mode_witness :
    (sdl_dingux_gfx_frame demo_env demo_assets (demo_sys true) (some (fun _ => 0))
      640 480 2560 none).1.vid.mode_valid = false ∧
    (sdl_dingux_gfx_frame demo_env demo_assets (demo_sys true) (some (fun _ => 0))
      640 480 2560 none).2 = some true ∧
    Degraded (sdl_dingux_gfx_frame demo_env demo_assets (demo_sys true) (some (fun _ => 0))
        640 480 2560 none).1 640 480
      (osd_text demo_assets (demo_sys true).vid
        (diagnostic_surface demo_assets (demo_sys true).vid (demo_surface 320 240 1280) 640 480)
        none) ∧
    frame_requests demo_env demo_assets
      (sdl_dingux_gfx_frame demo_env demo_assets (demo_sys true) (some (fun _ => 0))
        640 480 2560 none).1 (some (fun _ => 1)) 640 480 2560 none = [] := by
  have h0 := (frame_degraded_mode demo_env demo_assets 640 480 (by decide) (by decide)).1
    (demo_sys true) (fun _ => 0) 2560 none rfl
    (Or.inr (Or.inl (by decide))) (by simp [demo_env])
  have h1 := h0.2 (demo_surface 320 240 1280)
    (by simp [demo_env, bits_per_pixel, demo_sys, demo_vid, calloc_vid])
  have h2 := (frame_degraded_mode demo_env demo_assets 640 480 (by decide) (by decide)).2.1
    _ _ (fun _ => 1) 2560 none h1.2
  exact ⟨h0.1, h1.1, h1.2, h2.2.1⟩

theorem run_reachable (E : Env) (A : Assets) (ops : List Op) :
    ∀ (s s1 : Sys), Reachable E A s → run E A s ops = some s1 → Reachable E A s1 := by
  induction ops with
  | nil =>
    intro s s1 hs h
    simp only [run, Option.some.injEq] at h
    exact h ▸ hs
  | cons op ops ih =>
    intro s s1 hs h
    simp only [run] at h
    cases hstep : step E A s op with
    | none => rw [hstep] at h; simp at h
    | some s2 =>
      rw [hstep] at h
      exact ih s2 s1 (Reachable.step s s2 op hs hstep) h

theorem demo_boot_reachable (rgb32 vsync : Bool) :
    Reachable demo_env demo_assets (demo_boot rgb32 vsync) := by
  have h : sdl_dingux_gfx_init demo_env demo_assets [] ⟨rgb32, vsync⟩ demo_settings true true
      = (some (demo_boot rgb32 vsync).vid, (demo_boot rgb32 vsync).log) := by
    cases rgb32 <;> cases vsync <;> rfl
  exact Reachable.init [] ⟨rgb32, vsync⟩ demo_settings _ _ h

/-! ## Menu surface -/

/-- C10 (the code at a failing input): a 32-bit driver after `init`, the menu
switched on, one menu frame (which requests 320x240 at 16 bits) and the vsync flag
toggled by `sdl_dingux_gfx_set_nonblock_state`, which requests 320x240 at 32 bits,
the driver's content format.  In this reachable state the menu is active, the
most recent request is for 32 bits per pixel, and the next menu frame requests
no mode: it copies the 16-bit menu texture with `sdl_dingux_blit_frame16` into the
surface of pitch 1280 granted for 32 bits. -/
theorem menu_frame_on_32bpp_surface :
    run demo_env demo_assets (demo_boot true false) menu_session = some menu_state ∧
    Reachable demo_env demo_assets menu_state ∧
    menu_state.vid.menu_active = true ∧
    mode_requests menu_state.log = [(320, 240, 32), (320, 240, 16), (320, 240, 32)] ∧
    (mode_requests menu_state.log).getLast? = some (320, 240, 32) ∧
    frame_requests demo_env demo_assets menu_state (some (fun _ => 0)) 320 240 640 none = [] ∧
    (sdl_dingux_gfx_frame demo_env demo_assets menu_state (some (fun _ => 0))
      320 240 640 none).2 = some true ∧
    (sdl_dingux_gfx_frame demo_env demo_assets menu_state (some (fun _ => 0))
      320 240 640 none).1.vid.screen =
      some { demo_surface 320 240 1280 with
        pixels := sdl_dingux_blit_frame16 (demo_surface 320 240 1280).pixels
          menu_state.vid.menu_texture 320 240 1280 640 } := by
  have hrun : run demo_env demo_assets (demo_boot true false) menu_session = some menu_state :=
    rfl
  refine ⟨hrun, run_reachable demo_env demo_assets menu_session _ _
    (demo_boot_reachable true false) hrun, by decide, by decide, by decide, by decide,
    by decide, rfl⟩


/-! ## Menu texture, sync flag and settings -/

/-- C11: `sdl_dingux_set_texture_frame` is a silent no-op whenever `rgb32` is true, or
`width > 320`, or `height > 240`: the whole driver state, the menu texture with
it, and the trace are unchanged. -/
theorem set_texture_frame_rejected (s : Sys) (frame : Mem) (rgb32 : Bool) (width height : Nat)
    (h : rgb32 = true ∨ width > 320 ∨ height > 240) :
    sdl_dingux_set_texture_frame s frame rgb32 width height = s ∧
    (∀ k, (sdl_dingux_set_texture_frame s frame rgb32 width height).vid.menu_texture k =
      s.vid.menu_texture k) := by
  have e : sdl_dingux_set_texture_frame s frame rgb32 width height = s := by
    unfold sdl_dingux_set_texture_frame
    rw [if_pos]
    simp only [SDL_DINGUX_MENU_WIDTH, SDL_DINGUX_MENU_HEIGHT, Bool.or_eq_true,
      decide_eq_true_eq]
    rcases h with h | h | h
    · exact Or.inl (Or.inl h)
    · exact Or.inl (Or.inr h)
    · exact Or.inr h
  exact ⟨e, fun k => by rw [e]⟩

/-- Witness of `set_texture_frame_rejected`: a 32-bit texture, and a texture 400 wide. -/
theorem set_texture_frame_rejected_witness :
    sdl_dingux_set_texture_frame (demo_sys false) (fun _ => 7) true 320 240 = demo_sys false ∧
    sdl_dingux_set_texture_frame (demo_sys false) (fun _ => 7) false 400 240 = demo_sys false :=
  ⟨(set_texture_frame_rejected (demo_sys false) (fun _ => 7) true 320 240 (Or.inl rfl)).1,
   (set_texture_frame_rejected (demo_sys false) (fun _ => 7) false 400 240
      (Or.inr (Or.inl (by decide)))).1⟩

/-- C13: `sdl_dingux_gfx_set_nonblock_state(data, toggle, ...)` on a valid handle leaves
`vsync = !toggle`.  When the previous `vsync` differs from `!toggle`, the call is
one call of `sdl_dingux_set_output` with the recorded `(frame_width, frame_height,
rgb32)` on the state whose `vsync` is already `!toggle`: the output mode manager
is entered exactly once, and its first request carries the flags of the new sync
flag.  When `vsync` already equals `!toggle`, the state and the trace are
unchanged, so no mode request is made. -/
theorem set_nonblock_state_spec (E : Env) (s : Sys) (toggle : Bool) :
    (sdl_dingux_gfx_set_nonblock_state E s toggle).vid.vsync = !toggle ∧
    (s.vid.vsync ≠ !toggle →
      sdl_dingux_gfx_set_nonblock_state E s toggle =
        sdl_dingux_set_output E { s with vid := { s.vid with vsync := !toggle } }
          s.vid.frame_width s.vid.frame_height s.vid.rgb32 ∧
      set_output_calls (sdl_dingux_gfx_set_nonblock_state E s toggle).log =
        set_output_calls s.log ++ [(s.vid.frame_width, s.vid.frame_height, s.vid.rgb32)] ∧
      ∃ more, (sdl_dingux_gfx_set_nonblock_state E s toggle).log =
        s.log ++ (Event.set_output s.vid.frame_width s.vid.frame_height s.vid.rgb32 ::
          Event.SDL_SetVideoMode s.vid.frame_width s.vid.frame_height
            (bits_per_pixel s.vid.rgb32) (surface_flags (!toggle)) :: more)) ∧
    (s.vid.vsync = !toggle →
      sdl_dingux_gfx_set_nonblock_state E s toggle = s ∧
      mode_requests (sdl_dingux_gfx_set_nonblock_state E s toggle).log = mode_requests s.log ∧
      set_output_calls (sdl_dingux_gfx_set_nonblock_state E s toggle).log =
        set_output_calls s.log) := by
  refine ⟨?_, ?_, ?_⟩
  · unfold sdl_dingux_gfx_set_nonblock_state
    simp only
    split
    · rw [set_output_keeps]
    · rename_i h
      revert h
      cases s.vid.vsync <;> cases toggle <;> simp
  · intro h
    have hb : (s.vid.vsync != !toggle) = true := by
      revert h
      cases s.vid.vsync <;> cases toggle <;> simp
    have e : sdl_dingux_gfx_set_nonblock_state E s toggle =
        sdl_dingux_set_output E { s with vid := { s.vid with vsync := !toggle } }
          s.vid.frame_width s.vid.frame_height s.vid.rgb32 := by
      unfold sdl_dingux_gfx_set_nonblock_state
      simp only [hb, if_true]
    refine ⟨e, ?_, ?_⟩
    · rw [e, set_output_calls_set_output]
    · rw [e, set_output_log]
      exact ⟨_, rfl⟩
  · intro h
    have hb : (s.vid.vsync != !toggle) = false := by simp [h]
    have e : sdl_dingux_gfx_set_nonblock_state E s toggle = s := by
      unfold sdl_dingux_gfx_set_nonblock_state
      simp only [hb, Bool.false_eq_true, if_false]
    exact ⟨e, by rw [e], by rw [e]⟩

/-- Witness of `set_nonblock_state_spec` on the demo driver (`vsync = false`):
`toggle = false` changes the flag and requests the mode again, `toggle = true`
changes nothing. -/
theorem set_nonblock_state_spec_witness :
    set_output_calls (sdl_dingux_gfx_set_nonblock_state demo_env (demo_sys false) false).log =
      set_output_calls (demo_sys false).log ++ [(320, 240, false)] ∧
    sdl_dingux_gfx_set_nonblock_state demo_env (demo_sys false) true = demo_sys false :=
  ⟨((set_nonblock_state_spec demo_env (demo_sys false) false).2.1 (by decide)).2.1,
   ((set_nonblock_state_spec demo_env (demo_sys false) true).2.2 (by decide)).1⟩

theorem apply_state_changes_fixed (s : Sys) (st : Settings)
    (h1 : s.vid.keep_aspect = st.video_dingux_ipu_keep_aspect)
    (h2 : s.vid.integer_scaling = st.video_scale_integer) :
    sdl_dingux_apply_state_changes s (some st) = s := by
  unfold sdl_dingux_apply_state_changes
  simp [h1, h2]

theorem set_filtering_fixed (s : Sys) (st : Settings)
    (h : s.vid.filter_type = st.video_dingux_ipu_filter_type) :
    sdl_dingux_set_filtering s (some st) = s := by
  unfold sdl_dingux_set_filtering
  simp [h]

theorem apply_state_changes_cache (s : Sys) (st : Settings) :
    (sdl_dingux_apply_state_changes s (some st)).vid.keep_aspect =
      st.video_dingux_ipu_keep_aspect ∧
    (sdl_dingux_apply_state_changes s (some st)).vid.integer_scaling =
      st.video_scale_integer := by
  unfold sdl_dingux_apply_state_changes
  simp only [Sys.emit]
  by_cases h1 : s.vid.keep_aspect = st.video_dingux_ipu_keep_aspect <;>
    by_cases h2 : s.vid.integer_scaling = st.video_scale_integer <;>
    simp [h1, h2]

theorem apply_state_changes_log (s : Sys) (st : Settings) :
    (sdl_dingux_apply_state_changes s (some st)).log =
      s.log ++
        ((if s.vid.keep_aspect = st.video_dingux_ipu_keep_aspect then []
          else [Event.dingux_ipu_set_aspect_ratio_enable st.video_dingux_ipu_keep_aspect]) ++
         (if s.vid.integer_scaling = st.video_scale_integer then []
          else [Event.dingux_ipu_set_integer_scaling_enable st.video_scale_integer])) := by
  unfold sdl_dingux_apply_state_changes
  simp only [Sys.emit]
  by_cases h1 : s.vid.keep_aspect = st.video_dingux_ipu_keep_aspect <;>
    by_cases h2 : s.vid.integer_scaling = st.video_scale_integer <;>
    simp [h1, h2]

theorem set_filtering_cache (s : Sys) (st : Settings) :
    (sdl_dingux_set_filtering s (some st)).vid.filter_type = st.video_dingux_ipu_filter_type := by
  unfold sdl_dingux_set_filtering
  simp only [Sys.emit]
  by_cases h : s.vid.filter_type = st.video_dingux_ipu_filter_type <;> simp [h]

theorem set_filtering_log (s : Sys) (st : Settings) :
    (sdl_dingux_set_filtering s (some st)).log =
      s.log ++ (if s.vid.filter_type = st.video_dingux_ipu_filter_type then []
        else [Event.dingux_ipu_set_filter_type st.video_dingux_ipu_filter_type]) := by
  unfold sdl_dingux_set_filtering
  simp only [Sys.emit]
  by_cases h : s.vid.filter_type = st.video_dingux_ipu_filter_type <;> simp [h]

/-- C14: settings sync issues no redundant scaler calls.  With the configuration
`st`, `sdl_dingux_apply_state_changes` appends to the trace exactly one
`dingux_ipu_set_aspect_ratio_enable(st.keep_aspect)` iff the cached `keep_aspect`
differs from it and exactly one `dingux_ipu_set_integer_scaling_enable(st.scale_integer)`
iff the cached `integer_scaling` differs from it, and nothing else;
`sdl_dingux_set_filtering` appends exactly one `dingux_ipu_set_filter_type(st.filter_type)`
iff the cached `filter_type` differs from it, and nothing else.  Afterwards the
cached values equal the configuration, and applying the same configuration
again changes neither the state nor the trace. -/
theorem settings_sync_no_redundant_calls (s : Sys) (st : Settings) :
    (sdl_dingux_apply_state_changes s (some st)).log =
      s.log ++
        ((if s.vid.keep_aspect = st.video_dingux_ipu_keep_aspect then []
          else [Event.dingux_ipu_set_aspect_ratio_enable st.video_dingux_ipu_keep_aspect]) ++
         (if s.vid.integer_scaling = st.video_scale_integer then []
          else [Event.dingux_ipu_set_integer_scaling_enable st.video_scale_integer])) ∧
    (sdl_dingux_apply_state_changes s (some st)).vid.keep_aspect =
      st.video_dingux_ipu_keep_aspect ∧
    (sdl_dingux_apply_state_changes s (some st)).vid.integer_scaling =
      st.video_scale_integer ∧
    (sdl_dingux_set_filtering s (some st)).log =
      s.log ++ (if s.vid.filter_type = st.video_dingux_ipu_filter_type then []
        else [Event.dingux_ipu_set_filter_type st.video_dingux_ipu_filter_type]) ∧
    (sdl_dingux_set_filtering s (some st)).vid.filter_type =
      st.video_dingux_ipu_filter_type ∧
    sdl_dingux_apply_state_changes (sdl_dingux_apply_state_changes s (some st)) (some st) =
      sdl_dingux_apply_state_changes s (some st) ∧
    sdl_dingux_set_filtering (sdl_dingux_set_filtering s (some st)) (some st) =
      sdl_dingux_set_filtering s (some st) :=
  ⟨apply_state_changes_log s st, (apply_state_changes_cache s st).1,
   (apply_state_changes_cache s st).2, set_filtering_log s st, set_filtering_cache s st,
   apply_state_changes_fixed _ st (apply_state_changes_cache s st).1
     (apply_state_changes_cache s st).2,
   set_filtering_fixed _ st (set_filtering_cache s st)⟩


/-! ## Reachable states -/

theorem scaler_after_append (sc : Scaler) (l1 l2 : List Event) :
    scaler_after sc (l1 ++ l2) = scaler_after (scaler_after sc l1) l2 :=
  List.foldl_append _ _ _ _

theorem scaler_after_surface_calls (sc : Scaler) (screen : SDL_Surface) :
    scaler_after sc (frame_surface_calls screen) = sc := by
  unfold frame_surface_calls
  split <;> rfl

theorem set_output_scaler (E : Env) (sc : Scaler) (s : Sys) (width height : Nat)
    (rgb32 : Bool) :
    scaler_after sc (sdl_dingux_set_output E s width height rgb32).log = scaler_after sc s.log ∧
    cached_scaler (sdl_dingux_set_output E s width height rgb32).vid = cached_scaler s.vid := by
  constructor
  · rw [set_output_log, scaler_after_append]
    split <;> rfl
  · rw [set_output_keeps]
    rfl

theorem frame_mode_step_scaler (E : Env) (sc : Scaler) (s : Sys) (width height : Nat) :
    scaler_after sc (frame_mode_step E s width height).log = scaler_after sc s.log ∧
    cached_scaler (frame_mode_step E s width height).vid = cached_scaler s.vid := by
  have hemit : scaler_after sc (s.emit Event.menu_driver_frame).log = scaler_after sc s.log := by
    simp only [Sys.emit, scaler_after_append]
    rfl
  unfold frame_mode_step
  simp only
  split
  · split
    · rw [(set_output_scaler E sc _ width height _).1, (set_output_scaler E sc _ width height _).2]
      exact ⟨hemit, rfl⟩
    · exact ⟨hemit, rfl⟩
  · split
    · simp only
      rw [(set_output_scaler E sc _ _ _ _).1]
      refine ⟨hemit, ?_⟩
      have := (set_output_scaler E sc (s.emit Event.menu_driver_frame)
        SDL_DINGUX_MENU_WIDTH SDL_DINGUX_MENU_HEIGHT false).2
      simp only [cached_scaler] at this ⊢
      exact this
    · exact ⟨hemit, rfl⟩

theorem frame_scaler (E : Env) (A : Assets) (sc : Scaler) (s : Sys) (frame : Option Mem)
    (width height pitch : Nat) (msg : Option (List Nat)) :
    scaler_after sc (sdl_dingux_gfx_frame E A s frame width height pitch msg).1.log =
      scaler_after sc s.log ∧
    cached_scaler (sdl_dingux_gfx_frame E A s frame width height pitch msg).1.vid =
      cached_scaler s.vid := by
  cases frame with
  | none => exact ⟨rfl, rfl⟩
  | some f =>
    rw [frame_eq]
    have h := frame_mode_step_scaler E sc s width height
    cases hsc : (frame_mode_step E s width height).vid.screen with
    | none => exact h
    | some screen =>
      simp only [scaler_after_append, scaler_after_surface_calls]
      exact ⟨h.1, h.2⟩

/-- Every operation keeps the cached scaler settings equal to the scaler. -/
theorem step_scaler (E : Env) (A : Assets) (sc : Scaler) (s s1 : Sys) (op : Op)
    (hstep : step E A s op = some s1) (h : scaler_after sc s.log = cached_scaler s.vid) :
    scaler_after sc s1.log = cached_scaler s1.vid := by
  cases op with
  | frame frame width height pitch msg =>
    simp only [step] at hstep
    split at hstep
    · simp at hstep
    · simp only [Option.some.injEq] at hstep
      subst hstep
      rw [(frame_scaler E A sc s frame width height pitch msg).1,
        (frame_scaler E A sc s frame width height pitch msg).2]
      exact h
  | set_texture_enable state =>
    simp only [step, sdl_dingux_set_texture_enable, Option.some.injEq] at hstep
    subst hstep
    split <;> exact h
  | set_texture_frame frame rgb32 width height =>
    simp only [step, sdl_dingux_set_texture_frame, Option.some.injEq] at hstep
    subst hstep
    split <;> exact h
  | set_nonblock_state toggle =>
    simp only [step, sdl_dingux_gfx_set_nonblock_state, Option.some.injEq] at hstep
    subst hstep
    split
    · rw [(set_output_scaler E sc _ _ _ _).1, (set_output_scaler E sc _ _ _ _).2]
      exact h
    · exact h
  | set_filtering settings =>
    simp only [step, Option.some.injEq] at hstep
    subst hstep
    cases settings with
    | none => exact h
    | some st =>
      rw [set_filtering_log, scaler_after_append, h]
      unfold sdl_dingux_set_filtering
      simp only [Sys.emit]
      by_cases hf : s.vid.filter_type = st.video_dingux_ipu_filter_type
      · simp [hf, scaler_after]
      · simp [hf, scaler_after, Scaler.call, cached_scaler]
  | apply_state_changes settings =>
    simp only [step, Option.some.injEq] at hstep
    subst hstep
    cases settings with
    | none => exact h
    | some st =>
      rw [apply_state_changes_log, scaler_after_append, h]
      unfold sdl_dingux_apply_state_changes
      simp only [Sys.emit]
      by_cases h1 : s.vid.keep_aspect = st.video_dingux_ipu_keep_aspect <;>
        by_cases h2 : s.vid.integer_scaling = st.video_scale_integer <;>
        simp [h1, h2, scaler_after, Scaler.call, cached_scaler]
  | alive quit_event =>
    simp only [step, sdl_dingux_gfx_alive, Option.some.injEq] at hstep
    subst hstep
    split <;> exact h

theorem init_scaler (E : Env) (A : Assets) (sc : Scaler) (log : List Event)
    (video : video_info) (settings : Settings) (vid : sdl_dingux_video) (log1 : List Event)
    (h : sdl_dingux_gfx_init E A log video settings true true = (some vid, log1)) :
    scaler_after sc log1 = cached_scaler vid := by
  unfold sdl_dingux_gfx_init at h
  simp only [call_SDL_SetVideoMode, Bool.not_true, Bool.false_eq_true, if_false] at h
  split at h
  · simp at h
  · simp only [Prod.mk.injEq, Option.some.injEq] at h
    obtain ⟨hv, hl⟩ := h
    subst hv
    subst hl
    simp [scaler_after, Scaler.call, cached_scaler, List.foldl_append]

theorem reachable_scaler (E : Env) (A : Assets) (sc : Scaler) (s : Sys)
    (h : Reachable E A s) : scaler_after sc s.log = cached_scaler s.vid := by
  induction h with
  | init log video settings vid log1 h => exact init_scaler E A sc log video settings vid log1 h
  | step s s1 op _ hstep ih => exact step_scaler E A sc s s1 op hstep ih


/-- With an infallible fallback mode, every operation that returns leaves a surface
bound. -/
theorem step_screen (E : Env) (A : Assets) (hE : FallbackNeverFails E) (s s1 : Sys) (op : Op)
    (hstep : step E A s op = some s1) (h : s.vid.screen ≠ none) : s1.vid.screen ≠ none := by
  cases op with
  | frame frame width height pitch msg =>
    simp only [step] at hstep
    split at hstep
    · simp at hstep
    · simp only [Option.some.injEq] at hstep
      subst hstep
      cases frame with
      | none => exact h
      | some f =>
        rw [frame_eq]
        have hs := frame_mode_step_screen E hE s width height h
        cases hsc : (frame_mode_step E s width height).vid.screen with
        | none => exact absurd hsc hs
        | some screen => simp
  | set_texture_enable state =>
    simp only [step, sdl_dingux_set_texture_enable, Option.some.injEq] at hstep
    subst hstep
    split <;> exact h
  | set_texture_frame frame rgb32 width height =>
    simp only [step, sdl_dingux_set_texture_frame, Option.some.injEq] at hstep
    subst hstep
    split <;> exact h
  | set_nonblock_state toggle =>
    simp only [step, sdl_dingux_gfx_set_nonblock_state, Option.some.injEq] at hstep
    subst hstep
    split
    · exact set_output_screen E hE _ _ _ _
    · exact h
  | set_filtering settings =>
    simp only [step, Option.some.injEq] at hstep
    subst hstep
    cases settings with
    | none => exact h
    | some st =>
      unfold sdl_dingux_set_filtering
      simp only [Sys.emit]
      split <;> exact h
  | apply_state_changes settings =>
    simp only [step, Option.some.injEq] at hstep
    subst hstep
    cases settings with
    | none => exact h
    | some st =>
      unfold sdl_dingux_apply_state_changes
      simp only [Sys.emit]
      split <;> split <;> exact h
  | alive quit_event =>
    simp only [step, sdl_dingux_gfx_alive, Option.some.injEq] at hstep
    subst hstep
    split <;> exact h

theorem reachable_screen (E : Env) (A : Assets) (hE : FallbackNeverFails E) (s : Sys)
    (h : Reachable E A s) : s.vid.screen ≠ none := by
  induction h with
  | init log video settings vid log1 h => exact (init_ok E A log video settings vid log1 h).1
  | step s s1 op _ hstep ih => exact step_screen E A hE s s1 op hstep ih

theorem frame_result (E : Env) (A : Assets) (s : Sys) (frame : Option Mem)
    (width height pitch : Nat) (msg : Option (List Nat)) :
    (sdl_dingux_gfx_frame E A s frame width height pitch msg).2 = some true ∨
    ((sdl_dingux_gfx_frame E A s frame width height pitch msg).2 = none ∧
      ∃ f, frame = some f ∧ (frame_mode_step E s width height).vid.screen = none) := by
  cases frame with
  | none => exact Or.inl rfl
  | some f =>
    rw [frame_eq]
    cases hsc : (frame_mode_step E s width height).vid.screen with
    | none => exact Or.inr ⟨rfl, f, rfl, rfl⟩
    | some screen => exact Or.inl rfl

/-! ## Frame result -/

/-- C12: `sdl_dingux_gfx_frame` never returns false, and returns true in every
state the driver reaches after a successful `init` when the fallback mode request
never fails (the only other outcome is the dereference of a null surface, which
needs the fallback request to fail).  With a null frame payload the call is a
no-op in every state whatsoever: it returns true, the driver state is unchanged
and the trace of collaborator calls is unchanged, whatever `menu_active`,
`was_in_menu`, the frame size and the message are. -/
theorem frame_returns_true (E : Env) (A : Assets) :
    (∀ (s : Sys) (width height pitch : Nat) (msg : Option (List Nat)),
      sdl_dingux_gfx_frame E A s none width height pitch msg = (s, some true)) ∧
    (∀ (s : Sys) (frame : Option Mem) (width height pitch : Nat) (msg : Option (List Nat)),
      (sdl_dingux_gfx_frame E A s frame width height pitch msg).2 ≠ some false) ∧
    (FallbackNeverFails E → ∀ (s : Sys), Reachable E A s →
      ∀ (frame : Option Mem) (width height pitch : Nat) (msg : Option (List Nat)),
        (sdl_dingux_gfx_frame E A s frame width height pitch msg).2 = some true) := by
  refine ⟨fun s width height pitch msg => rfl, ?_, ?_⟩
  · intro s frame width height pitch msg
    rcases frame_result E A s frame width height pitch msg with h | h
    · rw [h]; simp
    · rw [h.1]; simp
  · intro hE s hs frame width height pitch msg
    rcases frame_result E A s frame width height pitch msg with h | ⟨_, _, _, h⟩
    · exact h
    · exact absurd h (frame_mode_step_screen E hE s width height (reachable_screen E A hE s hs))

/-- Witness of `frame_returns_true`: the 16-bit demo driver after `init`, given a
224x160 content frame with a message. -/
theorem frame_returns_true_witness :
    FallbackNeverFails demo_env ∧ Reachable demo_env demo_assets (demo_boot false true) ∧
    (sdl_dingux_gfx_frame demo_env demo_assets (demo_boot false true) (some (fun _ => 0))
      224 160 448 (some [65])).2 = some true :=
  ⟨demo_env_fallback, demo_boot_reachable false true,
   (frame_returns_true demo_env demo_assets).2.2 demo_env_fallback (demo_boot false true)
     (demo_boot_reachable false true) (some (fun _ => 0)) 224 160 448 (some [65])⟩

/-! ## Scaler state -/

theorem gfx_free_log (A : Assets) (s : Sys) :
    sdl_dingux_gfx_free A s = s.log ++ (Event.SDL_QuitSubSystem ::
      ((if s.vid.keep_aspect = true then []
        else [Event.dingux_ipu_set_aspect_ratio_enable true]) ++
       (if s.vid.integer_scaling = false then []
        else [Event.dingux_ipu_set_integer_scaling_enable false]) ++
       (if s.vid.filter_type = A.DINGUX_IPU_FILTER_BICUBIC then []
        else [Event.dingux_ipu_set_filter_type A.DINGUX_IPU_FILTER_BICUBIC]))) := by
  unfold sdl_dingux_gfx_free
  cases s.vid.keep_aspect <;> cases s.vid.integer_scaling <;>
    by_cases h : s.vid.filter_type = A.DINGUX_IPU_FILTER_BICUBIC <;> simp [h]

/-- C15: with the scaler modelled as a state changed only by the driver's scaler
calls, in every state reached after a successful `init` (by any sequence of driver
operations, from any scaler state `sc` before the trace) the cached fields
`keep_aspect`, `integer_scaling` and `filter_type` equal the scaler state;
`sdl_dingux_gfx_free` then leaves the scaler in the default state (aspect ratio
kept, integer scaling off, bicubic filter), and the calls it adds to the trace are
`SDL_QuitSubSystem` followed by one scaler call for each field that differs from
its default, and none for a field that has its default value. -/
theorem scaler_cache_invariant (E : Env) (A : Assets) (sc : Scaler) (s : Sys)
    (h : Reachable E A s) :
    scaler_after sc s.log = cached_scaler s.vid ∧
    scaler_after sc (sdl_dingux_gfx_free A s) = default_scaler A ∧
    sdl_dingux_gfx_free A s = s.log ++ (Event.SDL_QuitSubSystem ::
      ((if s.vid.keep_aspect = true then []
        else [Event.dingux_ipu_set_aspect_ratio_enable true]) ++
       (if s.vid.integer_scaling = false then []
        else [Event.dingux_ipu_set_integer_scaling_enable false]) ++
       (if s.vid.filter_type = A.DINGUX_IPU_FILTER_BICUBIC then []
        else [Event.dingux_ipu_set_filter_type A.DINGUX_IPU_FILTER_BICUBIC]))) := by
  have hinv := reachable_scaler E A sc s h
  refine ⟨hinv, ?_, gfx_free_log A s⟩
  rw [gfx_free_log, scaler_after_append, hinv]
  cases h1 : s.vid.keep_aspect <;> cases h2 : s.vid.integer_scaling <;>
    by_cases h3 : s.vid.filter_type = A.DINGUX_IPU_FILTER_BICUBIC <;>
    simp [h1, h2, h3, scaler_after, Scaler.call, cached_scaler, default_scaler]

/-- Witness of `scaler_cache_invariant`: the 16-bit demo driver after `init`, from
a scaler that had every setting away from its default. -/
theorem scaler_cache_invariant_witness :
    Reachable demo_env demo_assets (demo_boot false true) ∧
    scaler_after ⟨false, true, 7⟩ (sdl_dingux_gfx_free demo_assets (demo_boot false true)) =
      default_scaler demo_assets :=
  ⟨demo_boot_reachable false true,
   (scaler_cache_invariant demo_env demo_assets ⟨false, true, 7⟩ (demo_boot false true)
     (demo_boot_reachable false true)).2.1⟩

/-! ## Glyph table -/

theorem font_lut_entry_eq (A : Assets) (symbol_index i j : Nat) :
    font_lut_entry A symbol_index i j =
      Nat.testBit (A.bitmap_bin (A.FONT_OFFSET symbol_index + (i + j * A.FONT_WIDTH) / 8))
        ((i + j * A.FONT_WIDTH) % 8) := by
  unfold font_lut_entry
  simp only []
  have h7 : (i + j * A.FONT_WIDTH) &&& 7 = (i + j * A.FONT_WIDTH) % 8 :=
    Nat.and_pow_two_sub_one_eq_mod _ 3
  have hlt : (i + j * A.FONT_WIDTH) % 8 < 8 := Nat.mod_lt _ (by decide)
  rw [h7, Nat.one_shiftLeft, Nat.shiftRight_eq_div_pow]
  have hp : (2 : Nat) ^ ((i + j * A.FONT_WIDTH) % 8) % 2 ^ 8 = 2 ^ ((i + j * A.FONT_WIDTH) % 8) := by
    apply Nat.mod_eq_of_lt
    exact Nat.pow_lt_pow_right (by decide) hlt
  rw [hp, Nat.and_two_pow]
  have h3 : (2 : Nat) ^ 3 = 8 := by decide
  rw [h3]
  cases Nat.testBit (A.bitmap_bin (A.FONT_OFFSET symbol_index + (i + j * A.FONT_WIDTH) / 8))
      ((i + j * A.FONT_WIDTH) % 8) with
  | false => simp
  | true => simp [Nat.pos_pow_of_pos]

/-- The innermost loop of `sdl_dingux_init_font_lut`, run for `n` columns. -/
theorem font_lut_row (A : Assets) (s j : Nat) (n : Nat) (lut : Nat → Nat → Bool) :
    (List.range n).foldl (fun lut i =>
        font_lut_set lut s (i + j * A.FONT_WIDTH) (font_lut_entry A s i j)) lut =
      fun s1 c => if s1 = s ∧ j * A.FONT_WIDTH ≤ c ∧ c < n + j * A.FONT_WIDTH then
        font_lut_entry A s (c - j * A.FONT_WIDTH) j else lut s1 c := by
  induction n with
  | zero =>
    funext s1 c
    simp only [List.range_zero, List.foldl_nil]
    rw [if_neg]
    omega
  | succ n ih =>
    rw [List.range_succ, List.foldl_append, ih]
    funext s1 c
    simp only [List.foldl_cons, List.foldl_nil, font_lut_set]
    by_cases h1 : s1 = s ∧ c = n + j * A.FONT_WIDTH
    · rw [if_pos h1, if_pos ⟨h1.1, by omega, by omega⟩]
      have : c - j * A.FONT_WIDTH = n := by omega
      rw [this]
    · rw [if_neg h1]
      by_cases h2 : s1 = s ∧ j * A.FONT_WIDTH ≤ c ∧ c < n + j * A.FONT_WIDTH
      · rw [if_pos h2, if_pos ⟨h2.1, h2.2.1, by omega⟩]
      · rw [if_neg h2, if_neg]
        intro h3
        rcases h3 with ⟨h3, h4, h5⟩
        by_cases h6 : c = n + j * A.FONT_WIDTH
        · exact h1 ⟨h3, h6⟩
        · exact h2 ⟨h3, h4, by omega⟩

/-- The loop over the rows of one glyph, run for `m` rows. -/
theorem font_lut_glyph (A : Assets) (s : Nat) (m : Nat) (lut : Nat → Nat → Bool) :
    (List.range m).foldl (fun lut j =>
        (List.range A.FONT_WIDTH).foldl (fun lut i =>
          font_lut_set lut s (i + j * A.FONT_WIDTH) (font_lut_entry A s i j)) lut) lut =
      fun s1 c => if s1 = s ∧ c < m * A.FONT_WIDTH then
        font_lut_entry A s (c % A.FONT_WIDTH) (c / A.FONT_WIDTH) else lut s1 c := by
  induction m with
  | zero =>
    funext s1 c
    simp only [List.range_zero, List.foldl_nil]
    rw [if_neg]
    omega
  | succ m ih =>
    rw [List.range_succ, List.foldl_append, ih]
    funext s1 c
    simp only [List.foldl_cons, List.foldl_nil, font_lut_row]
    by_cases h1 : s1 = s ∧ m * A.FONT_WIDTH ≤ c ∧ c < A.FONT_WIDTH + m * A.FONT_WIDTH
    · have hlt : c < (m + 1) * A.FONT_WIDTH := by
        rw [Nat.add_mul, Nat.one_mul]; omega
      rw [if_pos h1, if_pos ⟨h1.1, hlt⟩]
      have hw : 0 < A.FONT_WIDTH := by omega
      have hd : c / A.FONT_WIDTH = m := by
        apply Nat.div_eq_of_lt_le
        · rw [Nat.mul_comm] at h1; rw [Nat.mul_comm]; exact h1.2.1
        · exact hlt
      have hm : c % A.FONT_WIDTH = c - m * A.FONT_WIDTH := by
        have := Nat.div_add_mod c A.FONT_WIDTH
        rw [hd, Nat.mul_comm] at this
        omega
      rw [hd, hm]
    · rw [if_neg h1]
      by_cases h2 : s1 = s ∧ c < m * A.FONT_WIDTH
      · have hlt : c < (m + 1) * A.FONT_WIDTH := by
          rw [Nat.add_mul, Nat.one_mul]; omega
        rw [if_pos h2, if_pos ⟨h2.1, hlt⟩]
      · rw [if_neg h2, if_neg]
        intro h3
        rcases h3 with ⟨h3, h4⟩
        rw [Nat.add_mul, Nat.one_mul] at h4
        by_cases h5 : c < m * A.FONT_WIDTH
        · exact h2 ⟨h3, h5⟩
        · exact h1 ⟨h3, by omega, by omega⟩

/-- The loop over the glyphs, run for `k` glyphs. -/
theorem font_lut_glyphs (A : Assets) (k : Nat) (lut : Nat → Nat → Bool) :
    (List.range k).foldl (fun lut symbol_index =>
      (List.range A.FONT_HEIGHT).foldl (fun lut j =>
        (List.range A.FONT_WIDTH).foldl (fun lut i =>
          font_lut_set lut symbol_index (i + j * A.FONT_WIDTH)
            (font_lut_entry A symbol_index i j)) lut) lut) lut =
      fun s1 c => if s1 < k ∧ c < A.FONT_HEIGHT * A.FONT_WIDTH then
        font_lut_entry A s1 (c % A.FONT_WIDTH) (c / A.FONT_WIDTH) else lut s1 c := by
  induction k with
  | zero =>
    funext s1 c
    simp only [List.range_zero, List.foldl_nil]
    rw [if_neg]
    omega
  | succ k ih =>
    rw [List.range_succ, List.foldl_append, ih]
    funext s1 c
    simp only [List.foldl_cons, List.foldl_nil, font_lut_glyph]
    by_cases h1 : s1 = k ∧ c < A.FONT_HEIGHT * A.FONT_WIDTH
    · rw [if_pos h1, if_pos ⟨by omega, h1.2⟩, h1.1]
    · rw [if_neg h1]
      by_cases h2 : s1 < k ∧ c < A.FONT_HEIGHT * A.FONT_WIDTH
      · rw [if_pos h2, if_pos ⟨by omega, h2.2⟩]
      · rw [if_neg h2, if_neg]
        intro h3
        by_cases h5 : s1 = k
        · exact h1 ⟨h5, h3.2⟩
        · exact h2 ⟨by omega, h3.2⟩

/-- The table built by `sdl_dingux_init_font_lut`, entry by entry. -/
theorem init_font_lut_eq (A : Assets) (font_lut : Nat → Nat → Bool) (s c : Nat) :
    sdl_dingux_init_font_lut A font_lut s c =
      if s < SDL_DINGUX_NUM_FONT_GLYPHS ∧ c < A.FONT_HEIGHT * A.FONT_WIDTH then
        Nat.testBit (A.bitmap_bin (A.FONT_OFFSET s + c / 8)) (c % 8)
      else font_lut s c := by
  unfold sdl_dingux_init_font_lut
  rw [font_lut_glyphs]
  simp only []
  by_cases h : s < SDL_DINGUX_NUM_FONT_GLYPHS ∧ c < A.FONT_HEIGHT * A.FONT_WIDTH
  · rw [if_pos h, if_pos h, font_lut_entry_eq, Nat.mod_add_div']
  · rw [if_neg h, if_neg h]

/-- C16: `sdl_dingux_init_font_lut` determines every entry of the 256 glyph grids
from the font asset alone.  For every prior table, every glyph index `s < 256` and
every cell `i < FONT_WIDTH`, `j < FONT_HEIGHT`, entry `i + j*FONT_WIDTH` of glyph
`s` is true iff bit `(i + j*FONT_WIDTH) mod 8` of asset byte
`FONT_OFFSET(s) + (i + j*FONT_WIDTH) div 8` is set; the same holds for every entry
index `c < FONT_WIDTH*FONT_HEIGHT` (each is such a cell), so two prior tables give
the same entries; and building the table a second time gives the table built
once. -/
theorem init_font_lut_spec (A : Assets) (font_lut : Nat → Nat → Bool) :
    (∀ s i j, s < 256 → i < A.FONT_WIDTH → j < A.FONT_HEIGHT →
      sdl_dingux_init_font_lut A font_lut s (i + j * A.FONT_WIDTH) =
        Nat.testBit (A.bitmap_bin (A.FONT_OFFSET s + (i + j * A.FONT_WIDTH) / 8))
          ((i + j * A.FONT_WIDTH) % 8)) ∧
    (∀ s c, s < 256 → c < A.FONT_WIDTH * A.FONT_HEIGHT →
      (sdl_dingux_init_font_lut A font_lut s c =
        Nat.testBit (A.bitmap_bin (A.FONT_OFFSET s + c / 8)) (c % 8) ∧
       ∃ i j, i < A.FONT_WIDTH ∧ j < A.FONT_HEIGHT ∧ c = i + j * A.FONT_WIDTH)) ∧
    (∀ (other : Nat → Nat → Bool) s c, s < 256 → c < A.FONT_WIDTH * A.FONT_HEIGHT →
      sdl_dingux_init_font_lut A font_lut s c = sdl_dingux_init_font_lut A other s c) ∧
    sdl_dingux_init_font_lut A (sdl_dingux_init_font_lut A font_lut) =
      sdl_dingux_init_font_lut A font_lut := by
  refine ⟨?_, ?_, ?_, ?_⟩
  · intro s i j hs hi hj
    rw [init_font_lut_eq, if_pos]
    refine ⟨hs, ?_⟩
    calc i + j * A.FONT_WIDTH < A.FONT_WIDTH + j * A.FONT_WIDTH := by omega
      _ = (j + 1) * A.FONT_WIDTH := by rw [Nat.add_mul, Nat.one_mul, Nat.add_comm]
      _ ≤ A.FONT_HEIGHT * A.FONT_WIDTH := Nat.mul_le_mul_right _ hj
  · intro s c hs hc
    rw [Nat.mul_comm] at hc
    refine ⟨by rw [init_font_lut_eq, if_pos ⟨hs, hc⟩], c % A.FONT_WIDTH, c / A.FONT_WIDTH, ?_, ?_, ?_⟩
    · apply Nat.mod_lt
      rcases Nat.eq_zero_or_pos A.FONT_WIDTH with h0 | h0
      · rw [h0] at hc; simp at hc
      · exact h0
    · rw [Nat.mul_comm] at hc
      exact Nat.div_lt_of_lt_mul hc
    · exact (Nat.mod_add_div' c A.FONT_WIDTH).symm
  · intro other s c hs hc
    rw [Nat.mul_comm] at hc
    rw [init_font_lut_eq, init_font_lut_eq, if_pos ⟨hs, hc⟩, if_pos ⟨hs, hc⟩]
  · funext s c
    rw [init_font_lut_eq]
    split
    · rename_i h
      rw [init_font_lut_eq, if_pos h]
    · rfl

/-- Witness of `init_font_lut_spec`: the top-left cell of the glyph of `A` in the
demo font, built over an empty table. -/
theorem init_font_lut_spec_witness :
    65 < 256 ∧ 0 < demo_assets.FONT_WIDTH ∧ 0 < demo_assets.FONT_HEIGHT ∧
    sdl_dingux_init_font_lut demo_assets (fun _ _ => false) 65 0 = true :=
  ⟨by decide, by decide, by decide,
   (init_font_lut_spec demo_assets (fun _ _ => false)).1 65 0 0 (by decide) (by decide)
     (by decide)⟩

/-! ## Glyph image -/

theorem pixel16_store16 (m : Mem) (k v : Nat) :
    pixel16 (store16 m k v) = Function.update (pixel16 m) k (bytes16 v) := by
  funext p
  by_cases h : p = k
  · subst h
    simp [pixel16, store16, bytes16]
  · rw [Function.update_noteq h]
    have h1 : ¬ (2 * p = 2 * k) := by omega
    have h2 : ¬ (2 * p = 2 * k + 1) := by omega
    have h3 : ¬ (2 * p + 1 = 2 * k) := by omega
    have h4 : ¬ (2 * p + 1 = 2 * k + 1) := by omega
    simp only [pixel16, store16, if_neg h1, if_neg h2, if_neg h3, if_neg h4]

theorem pixel32_store32 (m : Mem) (k v : Nat) :
    pixel32 (store32 m k v) = Function.update (pixel32 m) k (bytes32 v) := by
  funext p
  by_cases h : p = k
  · subst h
    simp [pixel32, store32, bytes32]
  · rw [Function.update_noteq h]
    simp only [pixel32, store32]
    refine Prod.ext ?_ (Prod.ext ?_ (Prod.ext ?_ ?_)) <;> simp only [] <;> split_ifs <;>
      first | rfl | omega

/-- The 16-bit pixels after a list of stores. -/
theorem pixel16_run_stores16 (ws : List (Nat × Nat)) :
    ∀ m : Mem, pixel16 (run_stores16 ws m) =
      ws.foldl (fun (P : Nat → Nat × Nat) (w : Nat × Nat) => Function.update P w.1 (bytes16 w.2))
        (pixel16 m) := by
  induction ws with
  | nil => intro m; rfl
  | cons w ws ih =>
    intro m
    obtain ⟨k, v⟩ := w
    simp only [run_stores16, List.foldl_cons]
    rw [ih, pixel16_store16]

/-- The 32-bit pixels after a list of stores. -/
theorem pixel32_run_stores32 (ws : List (Nat × Nat)) :
    ∀ m : Mem, pixel32 (run_stores32 ws m) =
      ws.foldl (fun (P : Nat → Nat × Nat × Nat × Nat) (w : Nat × Nat) =>
        Function.update P w.1 (bytes32 w.2)) (pixel32 m) := by
  induction ws with
  | nil => intro m; rfl
  | cons w ws ih =>
    intro m
    obtain ⟨k, v⟩ := w
    simp only [run_stores32, List.foldl_cons]
    rw [ih, pixel32_store32]

/-- One row of a glyph, `n` columns wide, on a pixel map: the lit columns take the
colour, the pixels one row below them take zero. -/
theorem glyph_row_image {α : Type} (enc : Nat → α) (glyph : Nat → Bool)
    (colour stride b off n : Nat) (hn : n ≤ stride) (P : Nat → α) :
    ((List.range n).flatMap (fun i =>
        if glyph (i + off) then [(b + i, colour), (b + i + stride, 0)] else [])).foldl
      (fun (P : Nat → α) (w : Nat × Nat) => Function.update P w.1 (enc w.2)) P =
    fun p =>
      if b ≤ p ∧ p < b + n ∧ glyph (p - b + off) = true then enc colour
      else if b + stride ≤ p ∧ p < b + stride + n ∧ glyph (p - b - stride + off) = true then enc 0
      else P p := by
  induction n with
  | zero =>
    funext p
    simp only [List.range_zero, List.flatMap_nil, List.foldl_nil]
    rw [if_neg (by omega), if_neg (by omega)]
  | succ n ih =>
    rw [List.range_succ, List.flatMap_append, List.foldl_append, ih (by omega)]
    funext p
    simp only [List.flatMap_cons, List.flatMap_nil, List.append_nil]
    cases hg : glyph (n + off) with
    | false =>
      simp only [Bool.false_eq_true, if_false, List.foldl_nil]
      by_cases h1 : b ≤ p ∧ p < b + n ∧ glyph (p - b + off) = true
      · rw [if_pos h1, if_pos ⟨h1.1, by omega, h1.2.2⟩]
      · rw [if_neg h1]
        have h1n : ¬ (b ≤ p ∧ p < b + (n + 1) ∧ glyph (p - b + off) = true) := by
          rintro ⟨ha, hb, hc⟩
          by_cases hpn : p = b + n
          · have : p - b = n := by omega
            rw [this, hg] at hc
            exact Bool.noConfusion hc
          · exact h1 ⟨ha, by omega, hc⟩
        rw [if_neg h1n]
        by_cases h2 : b + stride ≤ p ∧ p < b + stride + n ∧ glyph (p - b - stride + off) = true
        · rw [if_pos h2, if_pos ⟨h2.1, by omega, h2.2.2⟩]
        · rw [if_neg h2, if_neg]
          rintro ⟨ha, hb, hc⟩
          by_cases hpn : p = b + stride + n
          · have : p - b - stride = n := by omega
            rw [this, hg] at hc
            exact Bool.noConfusion hc
          · exact h2 ⟨ha, by omega, hc⟩
    | true =>
      simp only [if_true, List.foldl_cons, List.foldl_nil]
      by_cases hp2 : p = b + n + stride
      · subst hp2
        rw [Function.update_same, if_neg (by omega), if_pos]
        refine ⟨by omega, by omega, ?_⟩
        have : b + n + stride - b - stride = n := by omega
        rw [this]; exact hg
      · rw [Function.update_noteq hp2]
        by_cases hp1 : p = b + n
        · subst hp1
          rw [Function.update_same, if_pos]
          refine ⟨by omega, by omega, ?_⟩
          have : b + n - b = n := by omega
          rw [this]; exact hg
        · rw [Function.update_noteq hp1]
          by_cases h1 : b ≤ p ∧ p < b + n ∧ glyph (p - b + off) = true
          · rw [if_pos h1, if_pos ⟨h1.1, by omega, h1.2.2⟩]
          · rw [if_neg h1]
            have h1n : ¬ (b ≤ p ∧ p < b + (n + 1) ∧ glyph (p - b + off) = true) := by
              rintro ⟨ha, hb, hc⟩
              exact h1 ⟨ha, by omega, hc⟩
            rw [if_neg h1n]
            by_cases h2 : b + stride ≤ p ∧ p < b + stride + n ∧
                glyph (p - b - stride + off) = true
            · rw [if_pos h2, if_pos ⟨h2.1, by omega, h2.2.2⟩]
            · rw [if_neg h2, if_neg]
              rintro ⟨ha, hb, hc⟩
              exact h2 ⟨ha, by omega, hc⟩

theorem ite_rows_merge {α : Type} (r1 r2 a1 a2 t1 t2 : Prop) [Decidable r1] [Decidable r2]
    [Decidable a1] [Decidable a2] [Decidable t1] [Decidable t2] (u v w : α)
    (h1 : t1 ↔ (r1 ∨ (¬ r2 ∧ a1))) (h2 : t2 ↔ (r2 ∨ a2)) :
    (if r1 then u else if r2 then v else if a1 then u else if a2 then v else w) =
      if t1 then u else if t2 then v else w := by
  by_cases hr1 : r1 <;> by_cases hr2 : r2 <;> by_cases ha1 : a1 <;> by_cases ha2 : a2 <;>
    simp [hr1, hr2, ha1, ha2, h1, h2]

theorem row_offset_lt (y j m stride : Nat) (h : j < m) :
    (y + j) * stride + stride ≤ (y + m) * stride := by
  have := Nat.mul_le_mul_right stride (show y + j + 1 ≤ y + m by omega)
  rw [Nat.add_mul, Nat.one_mul] at this
  exact this

/-- The stores of the first `m` rows of a glyph, applied to a pixel map: the
image of the cell, and nothing outside it. -/
theorem glyph_rows_image {α : Type} (enc : Nat → α) (A : Assets) (glyph : Nat → Bool)
    (colour stride x y : Nat) (hx : x + A.FONT_WIDTH ≤ stride) (hx0 : x < stride)
    (P : Nat → α) (m : Nat) (hm : (y + m) * stride ≤ 2 ^ 32) :
    (∀ i j, i < A.FONT_WIDTH →
      ((List.range m).flatMap (fun j =>
          (List.range A.FONT_WIDTH).flatMap (fun i =>
            if glyph (i + j * A.FONT_WIDTH) then
              [(((y + j) * stride + x) % 2 ^ 32 + i, colour),
               (((y + j) * stride + x) % 2 ^ 32 + i + stride, 0)]
            else []))).foldl
        (fun (P : Nat → α) (w : Nat × Nat) => Function.update P w.1 (enc w.2)) P
        ((y + j) * stride + x + i) =
      if j < m ∧ glyph (i + j * A.FONT_WIDTH) = true then enc colour
      else if 1 ≤ j ∧ j ≤ m ∧ glyph (i + (j - 1) * A.FONT_WIDTH) = true then enc 0
      else P ((y + j) * stride + x + i)) ∧
    (∀ p, (∀ i j, i < A.FONT_WIDTH → j ≤ m → p ≠ (y + j) * stride + x + i) →
      ((List.range m).flatMap (fun j =>
          (List.range A.FONT_WIDTH).flatMap (fun i =>
            if glyph (i + j * A.FONT_WIDTH) then
              [(((y + j) * stride + x) % 2 ^ 32 + i, colour),
               (((y + j) * stride + x) % 2 ^ 32 + i + stride, 0)]
            else []))).foldl
        (fun (P : Nat → α) (w : Nat × Nat) => Function.update P w.1 (enc w.2)) P p = P p) := by
  induction m with
  | zero =>
    constructor
    · intro i j _
      simp only [List.range_zero, List.flatMap_nil, List.foldl_nil]
      rw [if_neg (by omega), if_neg (by omega)]
    · intro p _
      rfl
  | succ m ih =>
    have hsucc : (y + (m + 1)) * stride = (y + m) * stride + stride := by
      rw [← Nat.add_assoc, Nat.add_mul, Nat.one_mul]
    have ih := ih (by omega)
    have hmod : ((y + m) * stride + x) % 2 ^ 32 = (y + m) * stride + x :=
      Nat.mod_eq_of_lt (by omega)
    rw [List.range_succ, List.flatMap_append, List.foldl_append]
    simp only [List.flatMap_cons, List.flatMap_nil, List.append_nil]
    rw [hmod, glyph_row_image enc glyph colour stride ((y + m) * stride + x) (m * A.FONT_WIDTH)
      A.FONT_WIDTH (by omega)]
    constructor
    · intro i j hi
      simp only []
      rw [ih.1 i j hi]
      apply ite_rows_merge
      · constructor
        · rintro ⟨hlt, hg⟩
          by_cases hjm : j = m
          · subst hjm
            refine Or.inl ⟨by omega, by omega, ?_⟩
            have hsub : (y + j) * stride + x + i - ((y + j) * stride + x) = i := by omega
            rw [hsub]; exact hg
          · have := row_offset_lt y j m stride (by omega)
            exact Or.inr ⟨fun h => by omega, by omega, hg⟩
        · rintro (⟨ha, hb, hc⟩ | ⟨_, hlt, hg⟩)
          · rcases Nat.lt_trichotomy j m with hj | hj | hj
            · have := row_offset_lt y j m stride hj
              omega
            · subst hj
              have hsub : (y + j) * stride + x + i - ((y + j) * stride + x) = i := by omega
              rw [hsub] at hc
              exact ⟨by omega, hc⟩
            · have := row_offset_lt y m j stride hj
              omega
          · exact ⟨by omega, hg⟩
      · constructor
        · rintro ⟨h1, h2, hg⟩
          by_cases hjm : j = m + 1
          · subst hjm
            refine Or.inl ⟨by omega, by omega, ?_⟩
            have hsub : (y + (m + 1)) * stride + x + i - ((y + m) * stride + x) - stride = i := by
              omega
            rw [hsub]
            rw [Nat.add_sub_cancel] at hg
            exact hg
          · exact Or.inr ⟨h1, by omega, hg⟩
        · rintro (⟨ha, hb, hc⟩ | ⟨h1, h2, hg⟩)
          · rcases Nat.lt_trichotomy j (m + 1) with hj | hj | hj
            · rcases Nat.lt_or_ge j m with hj2 | hj2
              · have := row_offset_lt y j m stride hj2
                omega
              · have hjm : j = m := by omega
                subst hjm
                omega
            · subst hj
              have hsub : (y + (m + 1)) * stride + x + i - ((y + m) * stride + x) - stride = i := by
                omega
              rw [hsub] at hc
              refine ⟨by omega, by omega, ?_⟩
              rw [Nat.add_sub_cancel]
              exact hc
            · have := row_offset_lt y (m + 1) j stride hj
              omega
          · exact ⟨h1, by omega, hg⟩
    · intro p hp
      simp only []
      rw [if_neg, if_neg]
      · exact ih.2 p (fun i j hi hj => hp i j hi (by omega))
      · rintro ⟨ha, hb, _⟩
        apply hp (p - ((y + m) * stride + x) - stride) (m + 1) (by omega) (Nat.le_refl _)
        rw [hsucc]
        omega
      · rintro ⟨ha, hb, _⟩
        apply hp (p - ((y + m) * stride + x)) m (by omega) (by omega)
        omega

theorem glyph_index_eq (symbol : Nat) :
    glyph_index symbol = if symbol = 339 then 156 else if symbol = 338 then 140 else symbol := by
  unfold glyph_index
  by_cases h : symbol = 339
  · subst h; rfl
  · simp only [if_neg h]

/-- One iteration of the text loop at a byte that is neither the terminator nor a
space, with the `x` check passed and a glyph index below 256: the stores of that
glyph, then the rest of the loop one cell to the right. -/
theorem blit_text_loop_glyph (A : Assets) (font_lut : Nat → Nat → Bool)
    (colour screen_stride screen_width y fuel x c : Nat) (rest : List Nat)
    (hc0 : c ≠ 0) (hc : c ≠ 32)
    (hx : (x + A.FONT_WIDTH_STRIDE + 1) % 2 ^ 32 < screen_width)
    (hg : glyph_index ((A.utf8_walk (c :: rest)).1 % 2 ^ 32) < SDL_DINGUX_NUM_FONT_GLYPHS) :
    blit_text_loop A font_lut colour screen_stride screen_width y (fuel + 1) x (c :: rest) =
      glyph_writes A (font_lut (glyph_index ((A.utf8_walk (c :: rest)).1 % 2 ^ 32)))
          colour screen_stride x y ++
        blit_text_loop A font_lut colour screen_stride screen_width y fuel
          ((x + A.FONT_WIDTH_STRIDE) % 2 ^ 32) (A.utf8_walk (c :: rest)).2 := by
  simp only [blit_text_loop, if_neg hc0, if_neg hc, ge_iff_le, if_neg (Nat.not_le.mpr hx)]
  unfold glyph_index at hg
  simp only [] at hg
  rw [if_neg (Nat.not_le.mpr hg)]
  rfl

/-- One iteration of the text loop at a code point whose glyph index is 256 or
more: no store, and the loop goes on at the same cursor column. -/
theorem blit_text_loop_skip (A : Assets) (font_lut : Nat → Nat → Bool)
    (colour screen_stride screen_width y fuel x c : Nat) (rest : List Nat)
    (hc0 : c ≠ 0) (hc : c ≠ 32)
    (hx : (x + A.FONT_WIDTH_STRIDE + 1) % 2 ^ 32 < screen_width)
    (hg : SDL_DINGUX_NUM_FONT_GLYPHS ≤ glyph_index ((A.utf8_walk (c :: rest)).1 % 2 ^ 32)) :
    blit_text_loop A font_lut colour screen_stride screen_width y (fuel + 1) x (c :: rest) =
      blit_text_loop A font_lut colour screen_stride screen_width y fuel x
        (A.utf8_walk (c :: rest)).2 := by
  simp only [blit_text_loop, if_neg hc0, if_neg hc, ge_iff_le, if_neg (Nat.not_le.mpr hx)]
  unfold glyph_index at hg
  simp only [] at hg
  rw [if_pos hg]

/-- One iteration of the text loop at a space: no store, and the loop goes on one
cell to the right. -/
theorem blit_text_loop_space (A : Assets) (font_lut : Nat → Nat → Bool)
    (colour screen_stride screen_width y fuel x : Nat) (rest : List Nat)
    (hx : (x + A.FONT_WIDTH_STRIDE + 1) % 2 ^ 32 < screen_width) :
    blit_text_loop A font_lut colour screen_stride screen_width y (fuel + 1) x (32 :: rest) =
      blit_text_loop A font_lut colour screen_stride screen_width y fuel
        ((x + A.FONT_WIDTH_STRIDE) % 2 ^ 32) rest := by
  simp only [blit_text_loop, ge_iff_le, if_neg (Nat.not_le.mpr hx)]
  simp

/-- The pixels of a glyph cell after the stores of one glyph, for any pixel
format: `enc` gives the stored form of a value. -/
theorem glyph_writes_image {α : Type} (enc : Nat → α) (A : Assets) (glyph : Nat → Bool)
    (colour stride x y : Nat) (hx : x + A.FONT_WIDTH ≤ stride) (hx0 : x < stride)
    (hno : (y + A.FONT_HEIGHT) * stride ≤ 2 ^ 32) (P : Nat → α) :
    (∀ i j, i < A.FONT_WIDTH → j ≤ A.FONT_HEIGHT →
      (glyph_writes A glyph colour stride x y).foldl
        (fun (P : Nat → α) (w : Nat × Nat) => Function.update P w.1 (enc w.2)) P
        ((y + j) * stride + x + i) =
      if j < A.FONT_HEIGHT ∧ glyph (i + j * A.FONT_WIDTH) = true then enc colour
      else if 1 ≤ j ∧ glyph (i + (j - 1) * A.FONT_WIDTH) = true then enc 0
      else P ((y + j) * stride + x + i)) ∧
    (∀ p, (∀ i j, i < A.FONT_WIDTH → j ≤ A.FONT_HEIGHT → p ≠ (y + j) * stride + x + i) →
      (glyph_writes A glyph colour stride x y).foldl
        (fun (P : Nat → α) (w : Nat × Nat) => Function.update P w.1 (enc w.2)) P p = P p) := by
  have h := glyph_rows_image enc A glyph colour stride x y hx hx0 P A.FONT_HEIGHT hno
  constructor
  · intro i j hi hj
    have := h.1 i j hi
    unfold glyph_writes
    simp only [] at this ⊢
    rw [this]
    by_cases h1 : j < A.FONT_HEIGHT ∧ glyph (i + j * A.FONT_WIDTH) = true
    · rw [if_pos h1, if_pos h1]
    · rw [if_neg h1, if_neg h1]
      by_cases h2 : 1 ≤ j ∧ glyph (i + (j - 1) * A.FONT_WIDTH) = true
      · rw [if_pos h2, if_pos ⟨h2.1, hj, h2.2⟩]
      · rw [if_neg h2, if_neg (fun h3 => h2 ⟨h3.1, h3.2.2⟩)]
  · intro p hp
    have := h.2 p hp
    unfold glyph_writes
    simp only [] at this ⊢
    exact this

/-- C17: a visible glyph and its drop shadow.  When the loop of a text blitter is
at a byte `c` that is neither the terminator nor a space, the cell at `(x, y)`
passes the bounds checks (`x + FONT_WIDTH_STRIDE + 1 < screen_width` and
`y + FONT_HEIGHT + 1 < screen_height`, with `FONT_WIDTH <= FONT_WIDTH_STRIDE + 1`,
rows that fit in the pixel stride and a pixel count within 32 bits), and the
remapped code point `g` is below 256, then: `g` is the decoded code point with 339
mapped to 156 and 338 to 140; the iteration performs exactly the stores of glyph
`g` at `(x, y)` before the loop goes on; the cell lies inside the surface; and on
a 16-bit and on a 32-bit buffer alike, after these stores pixel `(x+i, y+j)`, for
`i < FONT_WIDTH` and `j <= FONT_HEIGHT`, holds the colour if `j < FONT_HEIGHT` and
`font_lut[g][i + j*FONT_WIDTH]`, else zero if `j >= 1` and
`font_lut[g][i + (j-1)*FONT_WIDTH]`, else what it held before, and every pixel
outside the cell holds what it held before. -/
theorem glyph_image (A : Assets) (font_lut : Nat → Nat → Bool)
    (colour screen_stride screen_width screen_height x y fuel c : Nat) (rest : List Nat)
    (m : Mem) (hc0 : c ≠ 0) (hc : c ≠ 32)
    (hg : glyph_index ((A.utf8_walk (c :: rest)).1 % 2 ^ 32) < SDL_DINGUX_NUM_FONT_GLYPHS)
    (hx : x + A.FONT_WIDTH_STRIDE + 1 < screen_width)
    (hy : y + A.FONT_HEIGHT + 1 < screen_height)
    (hfont : A.FONT_WIDTH ≤ A.FONT_WIDTH_STRIDE + 1)
    (hw : screen_width ≤ screen_stride)
    (hh : screen_height * screen_stride ≤ 2 ^ 32) :
    (glyph_index ((A.utf8_walk (c :: rest)).1 % 2 ^ 32) =
      if (A.utf8_walk (c :: rest)).1 % 2 ^ 32 = 339 then 156
      else if (A.utf8_walk (c :: rest)).1 % 2 ^ 32 = 338 then 140
      else (A.utf8_walk (c :: rest)).1 % 2 ^ 32) ∧
    blit_text_loop A font_lut colour screen_stride screen_width y (fuel + 1) x (c :: rest) =
      glyph_writes A (font_lut (glyph_index ((A.utf8_walk (c :: rest)).1 % 2 ^ 32)))
          colour screen_stride x y ++
        blit_text_loop A font_lut colour screen_stride screen_width y fuel
          ((x + A.FONT_WIDTH_STRIDE) % 2 ^ 32) (A.utf8_walk (c :: rest)).2 ∧
    (∀ i j, i < A.FONT_WIDTH → j ≤ A.FONT_HEIGHT →
      x + i < screen_width ∧ y + j < screen_height) ∧
    (∀ i j, i < A.FONT_WIDTH → j ≤ A.FONT_HEIGHT →
      pixel16 (run_stores16 (glyph_writes A
          (font_lut (glyph_index ((A.utf8_walk (c :: rest)).1 % 2 ^ 32)))
          colour screen_stride x y) m) ((y + j) * screen_stride + x + i) =
        if j < A.FONT_HEIGHT ∧ font_lut (glyph_index ((A.utf8_walk (c :: rest)).1 % 2 ^ 32))
            (i + j * A.FONT_WIDTH) = true then bytes16 colour
        else if 1 ≤ j ∧ font_lut (glyph_index ((A.utf8_walk (c :: rest)).1 % 2 ^ 32))
            (i + (j - 1) * A.FONT_WIDTH) = true then bytes16 0
        else pixel16 m ((y + j) * screen_stride + x + i)) ∧
    (∀ k, (∀ i j, i < A.FONT_WIDTH → j ≤ A.FONT_HEIGHT →
        k ≠ (y + j) * screen_stride + x + i) →
      pixel16 (run_stores16 (glyph_writes A
          (font_lut (glyph_index ((A.utf8_walk (c :: rest)).1 % 2 ^ 32)))
          colour screen_stride x y) m) k = pixel16 m k) ∧
    (∀ i j, i < A.FONT_WIDTH → j ≤ A.FONT_HEIGHT →
      pixel32 (run_stores32 (glyph_writes A
          (font_lut (glyph_index ((A.utf8_walk (c :: rest)).1 % 2 ^ 32)))
          colour screen_stride x y) m) ((y + j) * screen_stride + x + i) =
        if j < A.FONT_HEIGHT ∧ font_lut (glyph_index ((A.utf8_walk (c :: rest)).1 % 2 ^ 32))
            (i + j * A.FONT_WIDTH) = true then bytes32 colour
        else if 1 ≤ j ∧ font_lut (glyph_index ((A.utf8_walk (c :: rest)).1 % 2 ^ 32))
            (i + (j - 1) * A.FONT_WIDTH) = true then bytes32 0
        else pixel32 m ((y + j) * screen_stride + x + i)) ∧
    (∀ k, (∀ i j, i < A.FONT_WIDTH → j ≤ A.FONT_HEIGHT →
        k ≠ (y + j) * screen_stride + x + i) →
      pixel32 (run_stores32 (glyph_writes A
          (font_lut (glyph_index ((A.utf8_walk (c :: rest)).1 % 2 ^ 32)))
          colour screen_stride x y) m) k = pixel32 m k) := by
  have hx1 : x + A.FONT_WIDTH ≤ screen_stride := by omega
  have hx0 : x < screen_stride := by omega
  have hno : (y + A.FONT_HEIGHT) * screen_stride ≤ 2 ^ 32 :=
    Nat.le_trans (Nat.mul_le_mul_right _ (by omega)) hh
  have hguard : (x + A.FONT_WIDTH_STRIDE + 1) % 2 ^ 32 < screen_width :=
    Nat.lt_of_le_of_lt (Nat.mod_le _ _) hx
  refine ⟨glyph_index_eq _, blit_text_loop_glyph A font_lut colour screen_stride screen_width y
    fuel x c rest hc0 hc hguard hg, fun i j hi hj => ⟨by omega, by omega⟩, ?_, ?_, ?_, ?_⟩
  · intro i j hi hj
    rw [pixel16_run_stores16]
    exact (glyph_writes_image bytes16 A _ colour screen_stride x y hx1 hx0 hno (pixel16 m)).1
      i j hi hj
  · intro k hk
    rw [pixel16_run_stores16]
    exact (glyph_writes_image bytes16 A _ colour screen_stride x y hx1 hx0 hno (pixel16 m)).2 k hk
  · intro i j hi hj
    rw [pixel32_run_stores32]
    exact (glyph_writes_image bytes32 A _ colour screen_stride x y hx1 hx0 hno (pixel32 m)).1
      i j hi hj
  · intro k hk
    rw [pixel32_run_stores32]
    exact (glyph_writes_image bytes32 A _ colour screen_stride x y hx1 hx0 hno (pixel32 m)).2 k hk

/-- Witness of `glyph_image`: the letter `A` of the demo font drawn at `(6, 30)`
on a 320x240 surface; its top-left pixel takes the colour `0xFFDF`. -/
theorem glyph_image_witness :
    (65 ≠ 0 ∧ 65 ≠ 32) ∧
    glyph_index ((demo_assets.utf8_walk [65]).1 % 2 ^ 32) < SDL_DINGUX_NUM_FONT_GLYPHS ∧
    (6 + demo_assets.FONT_WIDTH_STRIDE + 1 < 320 ∧ 30 + demo_assets.FONT_HEIGHT + 1 < 240) ∧
    (demo_assets.FONT_WIDTH ≤ demo_assets.FONT_WIDTH_STRIDE + 1 ∧ 320 ≤ 320 ∧
      240 * 320 ≤ 2 ^ 32) ∧
    pixel16 (run_stores16 (glyph_writes demo_assets
        ((demo_vid false (demo_surface 320 240 640)).font_lut 65) 0xFFDF 320 6 30)
        (fun _ => 0)) 9606 = (0xDF, 0xFF) :=
  ⟨⟨by decide, by decide⟩, by decide, ⟨by decide, by decide⟩,
   ⟨by decide, by decide, by decide⟩,
   ((glyph_image demo_assets (demo_vid false (demo_surface 320 240 640)).font_lut 0xFFDF
      320 320 240 6 30 1 65 [] (fun _ => 0) (by decide) (by decide) (by decide) (by decide)
      (by decide) (by decide) (by decide) (by decide)).2.2.2.1 0 0 (by decide)
      (by decide)).trans rfl⟩

/-! ## Unsupported code points -/

/-- The text loop, seen on the decoded items of the string. -/
theorem blit_text_loop_tokens (A : Assets) (font_lut : Nat → Nat → Bool)
    (colour screen_stride screen_width y : Nat) (fuel : Nat) :
    ∀ (x : Nat) (str : List Nat),
      blit_text_loop A font_lut colour screen_stride screen_width y fuel x str =
        blit_tokens A font_lut colour screen_stride screen_width y x
          (decode_string A fuel str) := by
  induction fuel with
  | zero => intro x str; simp [blit_text_loop, decode_string, blit_tokens]
  | succ fuel ih =>
    intro x str
    cases str with
    | nil => simp [blit_text_loop, decode_string, blit_tokens]
    | cons c rest =>
      by_cases hc0 : c = 0
      · simp [blit_text_loop, decode_string, blit_tokens, hc0]
      · by_cases hx : (x + A.FONT_WIDTH_STRIDE + 1) % 2 ^ 32 < screen_width
        · by_cases hc : c = 32
          · subst hc
            rw [blit_text_loop_space A font_lut colour screen_stride screen_width y fuel x rest hx,
              ih]
            simp only [decode_string, if_neg hc0, if_true, blit_tokens, ge_iff_le,
              if_neg (Nat.not_le.mpr hx)]
          · by_cases hg : glyph_index ((A.utf8_walk (c :: rest)).1 % 2 ^ 32) <
                SDL_DINGUX_NUM_FONT_GLYPHS
            · rw [blit_text_loop_glyph A font_lut colour screen_stride screen_width y fuel x c
                rest hc0 hc hx hg, ih]
              simp only [decode_string, if_neg hc0, if_neg hc, blit_tokens, ge_iff_le,
                if_neg (Nat.not_le.mpr hx), if_neg (Nat.not_le.mpr hg)]
            · rw [blit_text_loop_skip A font_lut colour screen_stride screen_width y fuel x c
                rest hc0 hc hx (Nat.le_of_not_lt hg), ih]
              simp only [decode_string, if_neg hc0, if_neg hc, blit_tokens, ge_iff_le,
                if_neg (Nat.not_le.mpr hx), if_pos (Nat.le_of_not_lt hg)]
        · have hx1 : screen_width ≤ (x + A.FONT_WIDTH_STRIDE + 1) % 2 ^ 32 := Nat.le_of_not_lt hx
          rw [blit_text_loop_stop A font_lut colour screen_stride screen_width y (fuel + 1) x
            (c :: rest) hx1]
          by_cases hc : c = 32
          · simp only [decode_string, if_neg hc0, if_pos hc, blit_tokens, ge_iff_le, if_pos hx1]
          · simp only [decode_string, if_neg hc0, if_neg hc, blit_tokens, ge_iff_le, if_pos hx1]

theorem blit_tokens_stop (A : Assets) (font_lut : Nat → Nat → Bool)
    (colour screen_stride screen_width y x : Nat) (toks : List Token)
    (hx : screen_width ≤ (x + A.FONT_WIDTH_STRIDE + 1) % 2 ^ 32) :
    blit_tokens A font_lut colour screen_stride screen_width y x toks = [] := by
  cases toks with
  | nil => rfl
  | cons t ts => simp only [blit_tokens, ge_iff_le, if_pos hx]

/-- Deleting the code points without a glyph from the items changes no store. -/
theorem blit_tokens_filter (A : Assets) (font_lut : Nat → Nat → Bool)
    (colour screen_stride screen_width y : Nat) (toks : List Token) :
    ∀ x : Nat,
      blit_tokens A font_lut colour screen_stride screen_width y x toks =
        blit_tokens A font_lut colour screen_stride screen_width y x
          (toks.filter Token.supported) := by
  induction toks with
  | nil => intro x; rfl
  | cons t ts ih =>
    intro x
    by_cases hx : screen_width ≤ (x + A.FONT_WIDTH_STRIDE + 1) % 2 ^ 32
    · rw [blit_tokens_stop A font_lut colour screen_stride screen_width y x _ hx,
        blit_tokens_stop A font_lut colour screen_stride screen_width y x _ hx]
    · cases t with
      | space =>
        simp only [List.filter, Token.supported, blit_tokens, ge_iff_le, if_neg hx]
        exact ih _
      | cp symbol =>
        by_cases hg : glyph_index (symbol % 2 ^ 32) < SDL_DINGUX_NUM_FONT_GLYPHS
        · simp only [List.filter, Token.supported, decide_eq_true hg, blit_tokens, ge_iff_le,
            if_neg hx, if_neg (Nat.not_le.mpr hg)]
          rw [ih]
        · simp only [List.filter, Token.supported, decide_eq_false hg, blit_tokens, ge_iff_le,
            if_neg hx, if_pos (Nat.le_of_not_lt hg)]
          exact ih _

/-- The stores of a text blitter depend on the string through its supported items
only. -/
theorem blit_text_writes_filter (A : Assets) (font_lut : Nat → Nat → Bool)
    (colour screen_stride screen_width screen_height x y : Nat) (str str1 : List Nat)
    (h : decode_string A (str1.length + 1) str1 =
      (decode_string A (str.length + 1) str).filter Token.supported) :
    blit_text_writes A font_lut colour screen_stride screen_width screen_height x y str =
      blit_text_writes A font_lut colour screen_stride screen_width screen_height x y str1 := by
  unfold blit_text_writes
  split
  · rfl
  · rw [blit_text_loop_tokens, blit_text_loop_tokens, h, ← blit_tokens_filter]

theorem decode_string_fuel_aux (A : Assets)
    (hwalk : ∀ c rest, (A.utf8_walk (c :: rest)).2.length ≤ rest.length) (n : Nat) :
    ∀ (fuel1 fuel2 : Nat) (str : List Nat), str.length ≤ n → str.length < fuel1 →
      str.length < fuel2 → decode_string A fuel1 str = decode_string A fuel2 str := by
  induction n with
  | zero =>
    intro fuel1 fuel2 str hn h1 h2
    have : str = [] := List.eq_nil_of_length_eq_zero (by omega)
    subst this
    cases fuel1 <;> cases fuel2 <;> simp [decode_string]
  | succ n ih =>
    intro fuel1 fuel2 str hn h1 h2
    cases fuel1 with
    | zero => omega
    | succ fuel1 =>
      cases fuel2 with
      | zero => omega
      | succ fuel2 =>
        cases str with
        | nil => simp [decode_string]
        | cons c rest =>
          simp only [List.length_cons] at hn h1 h2
          have hw := hwalk c rest
          simp only [decode_string]
          rw [ih fuel1 fuel2 rest (by omega) (by omega) (by omega),
            ih fuel1 fuel2 (A.utf8_walk (c :: rest)).2 (by omega) (by omega) (by omega)]

/-- The iteration bound of `decode_string` is never reached when the decoder
advances by at least one byte. -/
theorem decode_string_fuel (A : Assets)
    (hwalk : ∀ c rest, (A.utf8_walk (c :: rest)).2.length ≤ rest.length)
    (fuel : Nat) (str : List Nat) (h : str.length < fuel) :
    decode_string A fuel str = decode_string A (str.length + 1) str :=
  decode_string_fuel_aux A hwalk str.length fuel (str.length + 1) str (Nat.le_refl _) h
    (Nat.lt_succ_self _)

/-- C18: code points without a glyph are skipped.  If the items of `str1` are the
items of `str` with every code point deleted whose glyph index (339 read as 156,
338 as 140) is 256 or more, then each text blitter leaves the same surface for
`str1` as for `str`, from every surface and start position.  In the loop, such a
code point makes no store and leaves the cursor column as it is, whereas a space
and a drawn glyph move the cursor column by `FONT_WIDTH_STRIDE` (in `unsigned`
arithmetic). -/
theorem unsupported_code_points_skipped (A : Assets) (vid : sdl_dingux_video)
    (screen : SDL_Surface) (x y : Nat) (str str1 : List Nat)
    (h : decode_string A (str1.length + 1) str1 =
      (decode_string A (str.length + 1) str).filter Token.supported) :
    sdl_dingux_blit_text16 A vid screen x y str = sdl_dingux_blit_text16 A vid screen x y str1 ∧
    sdl_dingux_blit_text32 A vid screen x y str = sdl_dingux_blit_text32 A vid screen x y str1 ∧
    (∀ (font_lut : Nat → Nat → Bool) (colour screen_stride screen_width y fuel x c : Nat)
        (rest : List Nat), c ≠ 0 → c ≠ 32 →
      (x + A.FONT_WIDTH_STRIDE + 1) % 2 ^ 32 < screen_width →
      SDL_DINGUX_NUM_FONT_GLYPHS ≤ glyph_index ((A.utf8_walk (c :: rest)).1 % 2 ^ 32) →
      blit_text_loop A font_lut colour screen_stride screen_width y (fuel + 1) x (c :: rest) =
        blit_text_loop A font_lut colour screen_stride screen_width y fuel x
          (A.utf8_walk (c :: rest)).2) ∧
    (∀ (font_lut : Nat → Nat → Bool) (colour screen_stride screen_width y fuel x : Nat)
        (rest : List Nat),
      (x + A.FONT_WIDTH_STRIDE + 1) % 2 ^ 32 < screen_width →
      blit_text_loop A font_lut colour screen_stride screen_width y (fuel + 1) x (32 :: rest) =
        blit_text_loop A font_lut colour screen_stride screen_width y fuel
          ((x + A.FONT_WIDTH_STRIDE) % 2 ^ 32) rest) ∧
    (∀ (font_lut : Nat → Nat → Bool) (colour screen_stride screen_width y fuel x c : Nat)
        (rest : List Nat), c ≠ 0 → c ≠ 32 →
      (x + A.FONT_WIDTH_STRIDE + 1) % 2 ^ 32 < screen_width →
      glyph_index ((A.utf8_walk (c :: rest)).1 % 2 ^ 32) < SDL_DINGUX_NUM_FONT_GLYPHS →
      blit_text_loop A font_lut colour screen_stride screen_width y (fuel + 1) x (c :: rest) =
        glyph_writes A (font_lut (glyph_index ((A.utf8_walk (c :: rest)).1 % 2 ^ 32)))
            colour screen_stride x y ++
          blit_text_loop A font_lut colour screen_stride screen_width y fuel
            ((x + A.FONT_WIDTH_STRIDE) % 2 ^ 32) (A.utf8_walk (c :: rest)).2) := by
  refine ⟨?_, ?_, ?_, ?_, ?_⟩
  · unfold sdl_dingux_blit_text16 sdl_dingux_blit_text16_writes
    rw [blit_text_writes_filter A _ _ _ _ _ x y str str1 h]
  · unfold sdl_dingux_blit_text32 sdl_dingux_blit_text32_writes
    rw [blit_text_writes_filter A _ _ _ _ _ x y str str1 h]
  · intro font_lut colour screen_stride screen_width y fuel x c rest hc0 hc hx hg
    exact blit_text_loop_skip A font_lut colour screen_stride screen_width y fuel x c rest
      hc0 hc hx hg
  · intro font_lut colour screen_stride screen_width y fuel x rest hx
    exact blit_text_loop_space A font_lut colour screen_stride screen_width y fuel x rest hx
  · intro font_lut colour screen_stride screen_width y fuel x c rest hc0 hc hx hg
    exact blit_text_loop_glyph A font_lut colour screen_stride screen_width y fuel x c rest
      hc0 hc hx hg

/-- Witness of `unsupported_code_points_skipped`: `"A", U+0394, "A"` (the Greek
capital delta, bytes `CE 94`, code point 916) against `"AA"` on the 16-bit demo
surface. -/
theorem unsupported_code_points_skipped_witness :
    decode_string demo_assets 3 [65, 65] =
      (decode_string demo_assets 5 [65, 0xCE, 0x94, 65]).filter Token.supported ∧
    decode_string demo_assets 5 [65, 0xCE, 0x94, 65] =
      [Token.cp 65, Token.cp 916, Token.cp 65] ∧
    sdl_dingux_blit_text16 demo_assets (demo_vid false (demo_surface 320 240 640))
        (demo_surface 320 240 640) 6 30 [65, 0xCE, 0x94, 65] =
      sdl_dingux_blit_text16 demo_assets (demo_vid false (demo_surface 320 240 640))
        (demo_surface 320 240 640) 6 30 [65, 65] :=
  ⟨by decide, by decide,
   (unsupported_code_points_skipped demo_assets (demo_vid false (demo_surface 320 240 640))
     (demo_surface 320 240 640) 6 30 [65, 0xCE, 0x94, 65] [65, 65] (by decide)).1⟩

/-! ## The two text blitters -/

/-- The pixel indices stored by the text loop do not depend on the colour. -/
theorem blit_tokens_indices (A : Assets) (font_lut : Nat → Nat → Bool)
    (colour1 colour2 screen_stride screen_width y : Nat) (toks : List Token) :
    ∀ x : Nat,
      (blit_tokens A font_lut colour1 screen_stride screen_width y x toks).map Prod.fst =
        (blit_tokens A font_lut colour2 screen_stride screen_width y x toks).map Prod.fst := by
  have hglyph : ∀ (glyph : Nat → Bool) (x : Nat),
      (glyph_writes A glyph colour1 screen_stride x y).map Prod.fst =
        (glyph_writes A glyph colour2 screen_stride x y).map Prod.fst := by
    intro glyph x
    unfold glyph_writes
    simp only [List.map_flatMap]
    congr 1
    funext j
    congr 1
    funext i
    split <;> rfl
  induction toks with
  | nil => intro x; rfl
  | cons t ts ih =>
    intro x
    by_cases hx : screen_width ≤ (x + A.FONT_WIDTH_STRIDE + 1) % 2 ^ 32
    · rw [blit_tokens_stop A font_lut colour1 screen_stride screen_width y x _ hx,
        blit_tokens_stop A font_lut colour2 screen_stride screen_width y x _ hx]
    · cases t with
      | space =>
        simp only [blit_tokens, ge_iff_le, if_neg hx]
        exact ih _
      | cp symbol =>
        by_cases hg : glyph_index (symbol % 2 ^ 32) < SDL_DINGUX_NUM_FONT_GLYPHS
        · simp only [blit_tokens, ge_iff_le, if_neg hx, if_neg (Nat.not_le.mpr hg),
            List.map_append]
          rw [ih, hglyph]
        · simp only [blit_tokens, ge_iff_le, if_neg hx, if_pos (Nat.le_of_not_lt hg)]
          exact ih _

/-- On a surface whose width, height and pixel stride are below `2^16`, the two
text blitters store at the same pixel indices in the same order. -/
theorem blit_text_same_indices (A : Assets) (vid : sdl_dingux_video)
    (screen16 screen32 : SDL_Surface) (x y : Nat) (str : List Nat)
    (hw : screen16.w = screen32.w) (hh : screen16.h = screen32.h)
    (hp : screen16.pitch >>> 1 = screen32.pitch >>> 2)
    (hw16 : screen16.w < 2 ^ 16) (hh16 : screen16.h < 2 ^ 16)
    (hp16 : screen16.pitch >>> 1 < 2 ^ 16) :
    (sdl_dingux_blit_text16_writes A vid screen16 x y str).map Prod.fst =
      (sdl_dingux_blit_text32_writes A vid screen32 x y str).map Prod.fst := by
  unfold sdl_dingux_blit_text16_writes sdl_dingux_blit_text32_writes blit_text_writes
  rw [← hw, ← hh, ← hp, Nat.mod_eq_of_lt hw16, Nat.mod_eq_of_lt hh16, Nat.mod_eq_of_lt hp16,
    Nat.mod_eq_of_lt (Nat.lt_trans hw16 (by decide)),
    Nat.mod_eq_of_lt (Nat.lt_trans hh16 (by decide)),
    Nat.mod_eq_of_lt (Nat.lt_trans hp16 (by decide))]
  split
  · rfl
  · rw [blit_text_loop_tokens, blit_text_loop_tokens]
    exact blit_tokens_indices A _ _ _ _ _ _ _ _

/-- C19 (the code at a failing input): a surface 320 pixels wide and 65556 rows
high with a pixel stride of 320, the string `"A"` at `(6, 30)`.  The 16-bit blitter
keeps the height in a `uint16_t`, reads it as 20, fails its `y` check and stores
nothing; the 32-bit blitter on the same geometry stores the glyph pixel and its
shadow. -/
theorem blit_text16_truncates_geometry :
    sdl_dingux_blit_text16_writes demo_assets (demo_vid false (demo_surface 320 65556 640))
      (demo_surface 320 65556 640) 6 30 [65] = [] ∧
    sdl_dingux_blit_text32_writes demo_assets (demo_vid true (demo_surface 320 65556 1280))
      (demo_surface 320 65556 1280) 6 30 [65] = [(9606, 0xFFFFFF), (9926, 0)] ∧
    (demo_surface 320 65556 640).pitch >>> 1 = (demo_surface 320 65556 1280).pitch >>> 2 := by
  decide

/-! ## Font colour -/

theorem init_font_color_eq (r g b : Nat) (hr : r < 256) (hg : g < 256) (hb : b < 256) :
    ((((r <<< 16) % 2 ^ 32) ||| ((g <<< 8) % 2 ^ 32)) ||| b =
      (r <<< 16) ||| (g <<< 8) ||| b) ∧
    ((((((r >>> 3) <<< 11) % 2 ^ 32) ||| (((g >>> 3) <<< 6) % 2 ^ 32)) ||| (b >>> 3)) % 2 ^ 16 =
      ((r >>> 3) <<< 11) ||| ((g >>> 3) <<< 6) ||| (b >>> 3)) ∧
    (r <<< 16) ||| (g <<< 8) ||| b < 2 ^ 24 ∧
    ((r >>> 3) <<< 11) ||| ((g >>> 3) <<< 6) ||| (b >>> 3) < 2 ^ 16 := by
  have h1 : r <<< 16 < 2 ^ 24 := by rw [Nat.shiftLeft_eq]; omega
  have h2 : g <<< 8 < 2 ^ 16 := by rw [Nat.shiftLeft_eq]; omega
  have h3 : (r >>> 3) <<< 11 < 2 ^ 16 := by
    rw [Nat.shiftLeft_eq, Nat.shiftRight_eq_div_pow]; omega
  have h4 : (g >>> 3) <<< 6 < 2 ^ 11 := by
    rw [Nat.shiftLeft_eq, Nat.shiftRight_eq_div_pow]; omega
  have h5 : b >>> 3 < 2 ^ 5 := by
    rw [Nat.shiftRight_eq_div_pow]; omega
  have h6 : (r <<< 16) ||| (g <<< 8) ||| b < 2 ^ 24 :=
    Nat.or_lt_two_pow (Nat.or_lt_two_pow h1 (by omega)) (by omega)
  have h7 : ((r >>> 3) <<< 11) ||| ((g >>> 3) <<< 6) ||| (b >>> 3) < 2 ^ 16 :=
    Nat.or_lt_two_pow (Nat.or_lt_two_pow h3 (by omega)) (by omega)
  refine ⟨?_, ?_, h6, h7⟩
  · rw [Nat.mod_eq_of_lt (show r <<< 16 < 2 ^ 32 by omega),
      Nat.mod_eq_of_lt (show g <<< 8 < 2 ^ 32 by omega)]
  · rw [Nat.mod_eq_of_lt (show (r >>> 3) <<< 11 < 2 ^ 32 by omega),
      Nat.mod_eq_of_lt (show (g >>> 3) <<< 6 < 2 ^ 32 by omega), Nat.mod_eq_of_lt h7]

/-- C20 (counterexample): with no configuration the channels are (255, 255, 255);
`font_colour32` is `0x00FFFFFF`, but `font_colour16` is `0xFFDF`, not `0xFFFF`, and
not the RGB565 conversion `((r >> 3) << 11) | ((g >> 2) << 5) | (b >> 3)` of
white. -/
theorem init_font_color_white_not_ffff :
    sdl_dingux_init_font_color none = (0xFFFFFF, 0xFFDF) ∧
    (sdl_dingux_init_font_color none).2 ≠ 0xFFFF ∧
    (sdl_dingux_init_font_color none).2 ≠
      ((255 >>> 3) <<< 11) ||| ((255 >>> 2) <<< 5) ||| (255 >>> 3) := by
  decide

/-- C20 (amended): for the channel values `(r, g, b)` taken from the configuration
(each masked to 8 bits), or (255, 255, 255) without a configuration,
`sdl_dingux_init_font_color` gives `font_colour32 = (r << 16) | (g << 8) | b` and
`font_colour16 = ((r >> 3) << 11) | ((g >> 3) << 6) | (b >> 3)`: every channel is
cut to 5 bits and green sits in bits 6 to 10.  Both values fit their fields. -/
theorem init_font_color_spec (settings : Option Settings) (r g b : Nat)
    (h : (r, g, b) =
      match settings with
      | none => (0xFF, 0xFF, 0xFF)
      | some st =>
        ((st.video_msg_color_r % 2 ^ 32) &&& 0xFF, (st.video_msg_color_g % 2 ^ 32) &&& 0xFF,
         (st.video_msg_color_b % 2 ^ 32) &&& 0xFF)) :
    (r < 256 ∧ g < 256 ∧ b < 256) ∧
    sdl_dingux_init_font_color settings =
      ((r <<< 16) ||| (g <<< 8) ||| b,
       ((r >>> 3) <<< 11) ||| ((g >>> 3) <<< 6) ||| (b >>> 3)) ∧
    (sdl_dingux_init_font_color settings).1 < 2 ^ 24 ∧
    (sdl_dingux_init_font_color settings).2 < 2 ^ 16 := by
  have hmask : ∀ n : Nat, n &&& 0xFF < 256 := by
    intro n
    have := Nat.and_pow_two_sub_one_eq_mod n 8
    have e : (2 : Nat) ^ 8 - 1 = 0xFF := by decide
    rw [e] at this
    rw [this]
    exact Nat.mod_lt _ (by decide)
  have hb : r < 256 ∧ g < 256 ∧ b < 256 := by
    cases settings with
    | none =>
      simp only [Prod.mk.injEq] at h
      omega
    | some st =>
      simp only [Prod.mk.injEq] at h
      obtain ⟨h1, h2, h3⟩ := h
      rw [h1, h2, h3]
      exact ⟨hmask _, hmask _, hmask _⟩
  have heq : sdl_dingux_init_font_color settings =
      ((((r <<< 16) % 2 ^ 32) ||| ((g <<< 8) % 2 ^ 32)) ||| b,
       (((((r >>> 3) <<< 11) % 2 ^ 32) ||| (((g >>> 3) <<< 6) % 2 ^ 32)) ||| (b >>> 3))
         % 2 ^ 16) := by
    cases settings with
    | none =>
      simp only [Prod.mk.injEq] at h
      obtain ⟨h1, h2, h3⟩ := h
      subst h1 h2 h3
      rfl
    | some st =>
      simp only [Prod.mk.injEq] at h
      obtain ⟨h1, h2, h3⟩ := h
      subst h1 h2 h3
      rfl
  have hc := init_font_color_eq r g b hb.1 hb.2.1 hb.2.2
  rw [hc.1, hc.2.1] at heq
  refine ⟨hb, heq, ?_, ?_⟩
  · rw [heq]; exact hc.2.2.1
  · rw [heq]; exact hc.2.2.2

/-- Witness of `init_font_color_spec`: white, with no configuration. -/
theorem init_font_color_spec_witness :
    sdl_dingux_init_font_color none =
      ((255 <<< 16) ||| (255 <<< 8) ||| 255,
       ((255 >>> 3) <<< 11) ||| ((255 >>> 3) <<< 6) ||| (255 >>> 3)) :=
  (init_font_color_spec none 255 255 255 rfl).2.1

/-! ## Negotiated display mode -/

theorem last_mode_request_snoc (E : Env) (log : List Event) (e : Event) :
    last_mode_request E (log ++ [e]) =
      match mode_request_result E log e with
      | some r => some r
      | none => last_mode_request E log := by
  simp only [last_mode_request, List.reverse_append, List.reverse_cons, List.reverse_nil,
    List.nil_append, List.singleton_append, last_mode_request_rev, List.reverse_reverse]

theorem mode_request_result_none (E : Env) (before : List Event) (e : Event)
    (h : e.mode_request = none) : mode_request_result E before e = none := by
  cases e <;> first | rfl | simp [Event.mode_request] at h

/-- Events that are no display-mode request leave the most recent request as it is. -/
theorem last_mode_request_append (E : Env) (l : List Event) :
    ∀ log : List Event, (∀ e ∈ l, e.mode_request = none) →
      last_mode_request E (log ++ l) = last_mode_request E log := by
  induction l with
  | nil => intro log _; rw [List.append_nil]
  | cons e l ih =>
    intro log h
    have : log ++ e :: l = (log ++ [e]) ++ l := by simp
    rw [this, ih (log ++ [e]) (fun e1 h1 => h e1 (List.mem_cons_of_mem _ h1)),
      last_mode_request_snoc, mode_request_result_none E log e (h e (List.mem_cons_self _ _))]

theorem last_mode_request_emit (E : Env) (s : Sys) (e : Event) (h : e.mode_request = none) :
    last_mode_request E (s.emit e).log = last_mode_request E s.log := by
  simp only [Sys.emit]
  rw [last_mode_request_snoc, mode_request_result_none E s.log e h]

theorem last_mode_request_surface_calls (E : Env) (log : List Event) (screen : SDL_Surface) :
    last_mode_request E (log ++ frame_surface_calls screen) = last_mode_request E log := by
  apply last_mode_request_append
  intro e he
  unfold frame_surface_calls at he
  split at he
  · simp at he
    rcases he with h | h | h <;> subst h <;> rfl
  · simp at he
    subst he
    rfl

/-- A call of `sdl_dingux_set_output` that leaves `mode_valid` set has made one
request, for the size and format it was given, and the request was granted. -/
theorem set_output_negotiated (E : Env) (s : Sys) (width height : Nat) (rgb32 : Bool)
    (hv : (sdl_dingux_set_output E s width height rgb32).vid.mode_valid = true) :
    (sdl_dingux_set_output E s width height rgb32).vid.screen ≠ none ∧
    last_mode_request E (sdl_dingux_set_output E s width height rgb32).log =
      some ((width, height, bits_per_pixel rgb32), true) ∧
    (sdl_dingux_set_output E s width height rgb32).vid.frame_width = width ∧
    (sdl_dingux_set_output E s width height rgb32).vid.frame_height = height := by
  cases h : E.SDL_SetVideoMode (s.log ++ [Event.set_output width height rgb32]) width height
      (bits_per_pixel rgb32) (surface_flags s.vid.vsync) with
  | none =>
    rw [set_output_none E s width height rgb32 h] at hv
    simp at hv
  | some sc =>
    rw [set_output_some E s width height rgb32 sc h]
    refine ⟨by simp, ?_, rfl, rfl⟩
    have : s.log ++ [Event.set_output width height rgb32,
        Event.SDL_SetVideoMode width height (bits_per_pixel rgb32) (surface_flags s.vid.vsync)] =
        (s.log ++ [Event.set_output width height rgb32]) ++
          [Event.SDL_SetVideoMode width height (bits_per_pixel rgb32)
            (surface_flags s.vid.vsync)] := by simp
    simp only [this, last_mode_request_snoc, mode_request_result, h, Option.isSome_some]

/-- The mode step of a frame keeps the record of the mode in agreement with the
display; outside the menu the granted request is for the driver's pixel format. -/
theorem frame_mode_step_negotiated (E : Env) (s : Sys) (width height : Nat)
    (hs : ModeNegotiated E s)
    (hv : (frame_mode_step E s width height).vid.mode_valid = true) :
    (frame_mode_step E s width height).vid.screen ≠ none ∧
    ∃ bpp, last_mode_request E (frame_mode_step E s width height).log =
        some (((frame_mode_step E s width height).vid.frame_width,
          (frame_mode_step E s width height).vid.frame_height, bpp), true) ∧
      (s.vid.menu_active = false →
        bpp = bits_per_pixel s.vid.rgb32 ∧
        (frame_mode_step E s width height).vid.frame_width = width ∧
        (frame_mode_step E s width height).vid.frame_height = height) := by
  have hemit : last_mode_request E (s.emit Event.menu_driver_frame).log =
      last_mode_request E s.log := last_mode_request_emit E s _ rfl
  unfold frame_mode_step at hv ⊢
  simp only [Sys.emit] at hv ⊢
  cases hm : s.vid.menu_active with
  | false =>
    simp only [hm, Bool.not_false, if_true] at hv ⊢
    by_cases hc : (s.vid.was_in_menu || s.vid.frame_width != width ||
        s.vid.frame_height != height) = true
    · simp only [hc, if_true] at hv ⊢
      have h := set_output_negotiated E _ width height s.vid.rgb32 hv
      exact ⟨h.1, bits_per_pixel s.vid.rgb32, by rw [h.2.1, h.2.2.1, h.2.2.2],
        fun _ => ⟨rfl, h.2.2.1, h.2.2.2⟩⟩
    · have hc2 := Bool.eq_false_iff.mpr hc
      simp only [hc2, Bool.false_eq_true, if_false] at hv ⊢
      simp only [Bool.or_eq_true, bne_iff_ne, not_or, Bool.not_eq_true, ne_eq, not_not] at hc
      obtain ⟨⟨hw, hfw⟩, hfh⟩ := hc
      obtain ⟨hsc, bpp, hl, hb⟩ := hs hv
      refine ⟨hsc, bpp, ?_, fun _ => ⟨hb hw, hfw, hfh⟩⟩
      simp only [Sys.emit] at hemit
      rw [hemit, hl]
  | true =>
    simp only [hm, Bool.not_true, Bool.false_eq_true, if_false] at hv ⊢
    cases hw : s.vid.was_in_menu with
    | false =>
      simp only [hw, Bool.not_false, if_true] at hv ⊢
      have h := set_output_negotiated E _ SDL_DINGUX_MENU_WIDTH SDL_DINGUX_MENU_HEIGHT false hv
      exact ⟨h.1, bits_per_pixel false, by rw [h.2.1, h.2.2.1, h.2.2.2],
        fun h0 => Bool.noConfusion h0⟩
    | true =>
      simp only [hw, Bool.not_true, Bool.false_eq_true, if_false] at hv ⊢
      obtain ⟨hsc, bpp, hl, _⟩ := hs hv
      refine ⟨hsc, bpp, ?_, fun h0 => Bool.noConfusion h0⟩
      simp only [Sys.emit] at hemit
      rw [hemit, hl]

/-- Every operation that returns keeps the record of the mode in agreement with
the display. -/
theorem step_negotiated (E : Env) (A : Assets) (s s1 : Sys) (op : Op)
    (hstep : step E A s op = some s1) (h : ModeNegotiated E s) : ModeNegotiated E s1 := by
  cases op with
  | frame frame width height pitch msg =>
    simp only [step] at hstep
    split at hstep
    · simp at hstep
    · simp only [Option.some.injEq] at hstep
      subst hstep
      cases frame with
      | none => exact h
      | some f =>
        rw [frame_eq]
        cases hsc : (frame_mode_step E s width height).vid.screen with
        | none =>
          intro hv
          exact absurd hsc (frame_mode_step_negotiated E s width height h hv).1
        | some screen =>
          intro hv
          obtain ⟨_, bpp, hl, hb⟩ := frame_mode_step_negotiated E s width height h hv
          refine ⟨by simp, bpp, ?_, fun hw => ?_⟩
          · simp only [last_mode_request_surface_calls]
            exact hl
          · have hr : (frame_mode_step E s width height).vid.rgb32 = s.vid.rgb32 := by
              unfold frame_mode_step
              simp only [Sys.emit]
              split
              · split
                · rw [set_output_keeps]
                · rfl
              · split
                · simp only []
                  rw [set_output_keeps]
                · rfl
            simp only [hr]
            exact (hb hw).1
  | set_texture_enable state =>
    simp only [step, sdl_dingux_set_texture_enable, Option.some.injEq] at hstep
    subst hstep
    split <;> exact h
  | set_texture_frame frame rgb32 width height =>
    simp only [step, sdl_dingux_set_texture_frame, Option.some.injEq] at hstep
    subst hstep
    split <;> exact h
  | set_nonblock_state toggle =>
    simp only [step, sdl_dingux_gfx_set_nonblock_state, Option.some.injEq] at hstep
    subst hstep
    split
    · intro hv
      have hn := set_output_negotiated E _ _ _ _ hv
      refine ⟨hn.1, bits_per_pixel s.vid.rgb32, ?_, fun _ => ?_⟩
      · rw [hn.2.1, hn.2.2.1, hn.2.2.2]
      · rw [set_output_keeps]
    · exact h
  | set_filtering settings =>
    simp only [step, Option.some.injEq] at hstep
    subst hstep
    cases settings with
    | none => exact h
    | some st =>
      unfold sdl_dingux_set_filtering
      simp only []
      split
      · intro hv
        obtain ⟨hsc, bpp, hl, hb⟩ := h hv
        refine ⟨hsc, bpp, ?_, hb⟩
        simp only [Sys.emit, last_mode_request_snoc, mode_request_result]
        exact hl
      · exact h
  | apply_state_changes settings =>
    simp only [step, Option.some.injEq] at hstep
    subst hstep
    cases settings with
    | none => exact h
    | some st =>
      intro hv
      have hfix : (sdl_dingux_apply_state_changes s (some st)).vid.mode_valid = s.vid.mode_valid ∧
          (sdl_dingux_apply_state_changes s (some st)).vid.screen = s.vid.screen ∧
          (sdl_dingux_apply_state_changes s (some st)).vid.frame_width = s.vid.frame_width ∧
          (sdl_dingux_apply_state_changes s (some st)).vid.frame_height = s.vid.frame_height ∧
          (sdl_dingux_apply_state_changes s (some st)).vid.was_in_menu = s.vid.was_in_menu ∧
          (sdl_dingux_apply_state_changes s (some st)).vid.rgb32 = s.vid.rgb32 := by
        unfold sdl_dingux_apply_state_changes
        simp only [Sys.emit]
        split <;> split <;> exact ⟨rfl, rfl, rfl, rfl, rfl, rfl⟩
      have hlog : last_mode_request E (sdl_dingux_apply_state_changes s (some st)).log =
          last_mode_request E s.log := by
        rw [apply_state_changes_log]
        apply last_mode_request_append
        intro e he
        simp only [List.mem_append] at he
        rcases he with he | he
        · split at he
          · simp at he
          · simp at he; subst he; rfl
        · split at he
          · simp at he
          · simp at he; subst he; rfl
      rw [hfix.1] at hv
      obtain ⟨hsc, bpp, hl, hb⟩ := h hv
      rw [hfix.2.1, hfix.2.2.1, hfix.2.2.2.1, hfix.2.2.2.2.1, hfix.2.2.2.2.2, hlog]
      exact ⟨hsc, bpp, hl, hb⟩
  | alive quit_event =>
    simp only [step, sdl_dingux_gfx_alive, Option.some.injEq] at hstep
    subst hstep
    split <;> exact h

theorem init_negotiated (E : Env) (A : Assets) (log : List Event) (video : video_info)
    (settings : Settings) (vid : sdl_dingux_video) (log1 : List Event)
    (h : sdl_dingux_gfx_init E A log video settings true true = (some vid, log1)) :
    ModeNegotiated E { vid := vid, log := log1 } := by
  have hok := init_ok E A log video settings vid log1 h
  unfold sdl_dingux_gfx_init at h
  simp only [call_SDL_SetVideoMode, Bool.not_true, Bool.false_eq_true, if_false] at h
  split at h
  · simp at h
  · rename_i sc hsc
    simp only [Prod.mk.injEq, Option.some.injEq] at h
    obtain ⟨_, hl⟩ := h
    intro _
    refine ⟨hok.1, bits_per_pixel video.rgb32, ?_, fun _ => by rw [hok.2.2.2.1]⟩
    simp only []
    rw [← hl]
    simp only [last_mode_request_snoc, mode_request_result, hsc, Option.isSome_some, hok.2.1,
      hok.2.2.1]

theorem reachable_negotiated (E : Env) (A : Assets) (s : Sys) (h : Reachable E A s) :
    ModeNegotiated E s := by
  induction h with
  | init log video settings vid log1 h => exact init_negotiated E A log video settings vid log1 h
  | step s s1 op _ hstep ih => exact step_negotiated E A s s1 op hstep ih

theorem frame_draw_content (A : Assets) (vid : sdl_dingux_video) (screen : SDL_Surface)
    (frame : Mem) (width height pitch : Nat) (hm : vid.menu_active = false)
    (hv : vid.mode_valid = true) :
    frame_draw A vid screen frame width height pitch =
      { screen with pixels :=
          if vid.rgb32 then
            sdl_dingux_blit_frame32 screen.pixels frame width height screen.pitch pitch
          else sdl_dingux_blit_frame16 screen.pixels frame width height screen.pitch pitch } := by
  unfold frame_draw
  simp only [hm, hv, Bool.not_false, if_true]
  split <;> rfl

theorem frame_mode_step_menu_flag (E : Env) (s : Sys) (width height : Nat) :
    (frame_mode_step E s width height).vid.menu_active = s.vid.menu_active := by
  unfold frame_mode_step
  simp only [Sys.emit]
  split
  · split
    · rw [set_output_keeps]
    · rfl
  · split
    · simp only []
      rw [set_output_keeps]
    · rfl

/-- C21: content is blitted only into a surface negotiated for it.  In every state
reached after a successful `init` through the public operations, when a call of
`sdl_dingux_gfx_frame` with a `width` x `height` payload finds `menu_active` false
and, after its mode step, `mode_valid` true, then the call returns true, it binds
the surface carrying the copy of the payload made by the frame blitter of the
driver's format (and the on-screen text), `mode_valid` is still true afterwards,
and the most recent `SDL_SetVideoMode` request in the trace, at the time of the
copy and at the return, is for `(width, height, rgb32 ? 32 : 16)` and was
granted. -/
theorem content_blit_negotiated (E : Env) (A : Assets) (s : Sys) (hs : Reachable E A s)
    (frame : Mem) (width height pitch : Nat) (msg : Option (List Nat))
    (hm : s.vid.menu_active = false)
    (hv : (frame_mode_step E s width height).vid.mode_valid = true) :
    (sdl_dingux_gfx_frame E A s (some frame) width height pitch msg).2 = some true ∧
    (∃ screen, (frame_mode_step E s width height).vid.screen = some screen ∧
      (sdl_dingux_gfx_frame E A s (some frame) width height pitch msg).1.vid.screen =
        some (osd_text A (frame_mode_step E s width height).vid
          { screen with pixels :=
              if s.vid.rgb32 then
                sdl_dingux_blit_frame32 screen.pixels frame width height screen.pitch pitch
              else
                sdl_dingux_blit_frame16 screen.pixels frame width height screen.pitch pitch }
          msg)) ∧
    (sdl_dingux_gfx_frame E A s (some frame) width height pitch msg).1.vid.mode_valid = true ∧
    last_mode_request E (frame_mode_step E s width height).log =
      some ((width, height, bits_per_pixel s.vid.rgb32), true) ∧
    last_mode_request E (sdl_dingux_gfx_frame E A s (some frame) width height pitch msg).1.log =
      some ((width, height, bits_per_pixel s.vid.rgb32), true) := by
  obtain ⟨hsc, bpp, hl, hb⟩ :=
    frame_mode_step_negotiated E s width height (reachable_negotiated E A s hs) hv
  obtain ⟨hbpp, hfw, hfh⟩ := hb hm
  rw [hfw, hfh, hbpp] at hl
  have hr : (frame_mode_step E s width height).vid.rgb32 = s.vid.rgb32 := by
    unfold frame_mode_step
    simp only [Sys.emit]
    split
    · split
      · rw [set_output_keeps]
      · rfl
    · split
      · simp only []
        rw [set_output_keeps]
      · rfl
  have hma : (frame_mode_step E s width height).vid.menu_active = false := by
    rw [frame_mode_step_menu_flag, hm]
  rw [frame_eq]
  cases hscr : (frame_mode_step E s width height).vid.screen with
  | none => exact absurd hscr hsc
  | some screen =>
    simp only []
    refine ⟨trivial, ⟨screen, rfl, ?_⟩, hv, hl, ?_⟩
    · rw [frame_draw_content A _ screen frame width height pitch hma hv, hr]
    · rw [last_mode_request_surface_calls]
      exact hl

/-- Witness of `content_blit_negotiated`: a 256x224 frame on the 16-bit demo driver
right after `init`. -/
theorem content_blit_negotiated_witness :
    Reachable demo_env demo_assets (demo_boot false true) ∧
    (demo_boot false true).vid.menu_active = false ∧
    (frame_mode_step demo_env (demo_boot false true) 256 224).vid.mode_valid = true ∧
    last_mode_request demo_env (sdl_dingux_gfx_frame demo_env demo_assets (demo_boot false true)
        (some (fun _ => 0)) 256 224 512 none).1.log = some ((256, 224, 16), true) :=
  ⟨demo_boot_reachable false true, by decide, by decide,
   (content_blit_negotiated demo_env demo_assets (demo_boot false true)
     (demo_boot_reachable false true) (fun _ => 0) 256 224 512 none (by decide)
     (by decide)).2.2.2.2⟩

/-! ## Diagnostic clear -/

/-- C22 (the code at a failing input): the diagnostic message on the 16-bit
320x240 surface with pitch 640, the fallback geometry.  The pixel buffer is
`240 * 640 = 153600` bytes; the `memset` of `w * w * 2 = 204800` bytes zeroes the
bytes at offsets 153600 to 204799 behind it. -/
theorem error_msg_clears_past_surface :
    dirty_surface.h * dirty_surface.pitch = 153600 ∧
    dirty_surface.w * 2 ≤ dirty_surface.pitch ∧
    dirty_surface.pixels 153600 = 0xAA ∧
    (sdl_dingux_blit_video_mode_error_msg demo_assets (demo_vid false dirty_surface)
      dirty_surface).pixels 153600 = 0 ∧
    (sdl_dingux_blit_video_mode_error_msg demo_assets (demo_vid false dirty_surface)
      dirty_surface).pixels 204799 = 0 ∧
    (sdl_dingux_blit_video_mode_error_msg demo_assets (demo_vid false dirty_surface)
      dirty_surface).pixels 204800 = 0xAA := by
  decide

/-! ## Menu texture update -/

/-- C23: an accepted `sdl_dingux_set_texture_frame` call (`rgb32` false,
`width <= 320`, `height <= 240`) copies the input as one block.  Afterwards the
state is the old one with only `menu_texture` replaced and the trace is unchanged;
entry `k` of the texture is input pixel `k` for every `k < width*height`, in
particular input pixel `(row, col)` sits at index `row*width + col` (the row
stride is `width`, not 320); every entry with index `>= width*height` keeps its
value; and `width*height` is at most the `320*240` entries of the texture, so no
byte at or behind offset `2*320*240` changes. -/
theorem set_texture_frame_accepted (s : Sys) (frame : Mem) (width height : Nat)
    (hw : width ≤ SDL_DINGUX_MENU_WIDTH) (hh : height ≤ SDL_DINGUX_MENU_HEIGHT) :
    sdl_dingux_set_texture_frame s frame false width height =
      { s with vid := { s.vid with
          menu_texture :=
            (sdl_dingux_set_texture_frame s frame false width height).vid.menu_texture } } ∧
    (sdl_dingux_set_texture_frame s frame false width height).log = s.log ∧
    (∀ k, k < width * height →
      pixel16 (sdl_dingux_set_texture_frame s frame false width height).vid.menu_texture k =
        pixel16 frame k) ∧
    (∀ row col, row < height → col < width →
      pixel16 (sdl_dingux_set_texture_frame s frame false width height).vid.menu_texture
          (row * width + col) = pixel16 frame (row * width + col)) ∧
    (∀ k, width * height ≤ k →
      pixel16 (sdl_dingux_set_texture_frame s frame false width height).vid.menu_texture k =
        pixel16 s.vid.menu_texture k) ∧
    width * height ≤ SDL_DINGUX_MENU_WIDTH * SDL_DINGUX_MENU_HEIGHT ∧
    (∀ a, 2 * (SDL_DINGUX_MENU_WIDTH * SDL_DINGUX_MENU_HEIGHT) ≤ a →
      (sdl_dingux_set_texture_frame s frame false width height).vid.menu_texture a =
        s.vid.menu_texture a) := by
  have hcap : width * height ≤ SDL_DINGUX_MENU_WIDTH * SDL_DINGUX_MENU_HEIGHT :=
    Nat.mul_le_mul hw hh
  have hcap2 : width * height ≤ 76800 := hcap
  have hacc : (false || decide (width > SDL_DINGUX_MENU_WIDTH) ||
      decide (height > SDL_DINGUX_MENU_HEIGHT)) = false := by
    simp only [Bool.false_or, Bool.or_eq_false_iff, decide_eq_false_iff_not, gt_iff_lt,
      Nat.not_lt]
    exact ⟨hw, hh⟩
  have hn : (width * height) % 2 ^ 32 * 2 % 2 ^ 32 = 2 * (width * height) := by
    rw [Nat.mod_eq_of_lt (by omega), Nat.mod_eq_of_lt (by omega), Nat.mul_comm]
  have htex : (sdl_dingux_set_texture_frame s frame false width height).vid.menu_texture =
      MemCpy.apply ⟨0, 0, 2 * (width * height)⟩ frame s.vid.menu_texture := by
    unfold sdl_dingux_set_texture_frame
    rw [hacc]
    simp only [Bool.false_eq_true, if_false, hn]
  have hin : ∀ k, k < width * height →
      pixel16 (sdl_dingux_set_texture_frame s frame false width height).vid.menu_texture k =
        pixel16 frame k := by
    intro k hk
    rw [htex]
    simp only [pixel16, MemCpy.apply, Nat.zero_le, true_and, Nat.zero_add, Nat.sub_zero]
    rw [if_pos (by omega), if_pos (by omega)]
  refine ⟨?_, ?_, hin, ?_, ?_, hcap, ?_⟩
  · unfold sdl_dingux_set_texture_frame
    rw [hacc]
    rfl
  · unfold sdl_dingux_set_texture_frame
    rw [hacc]
    rfl
  · intro row col hr hc
    apply hin
    calc row * width + col < row * width + width := by omega
      _ = (row + 1) * width := by rw [Nat.add_mul, Nat.one_mul]
      _ ≤ height * width := Nat.mul_le_mul_right _ hr
      _ = width * height := Nat.mul_comm _ _
  · intro k hk
    rw [htex]
    simp only [pixel16, MemCpy.apply, Nat.zero_le, true_and, Nat.zero_add]
    rw [if_neg (by omega), if_neg (by omega)]
  · intro a ha
    rw [htex]
    simp only [MemCpy.apply, Nat.zero_le, true_and, Nat.zero_add]
    have : 2 * (SDL_DINGUX_MENU_WIDTH * SDL_DINGUX_MENU_HEIGHT) = 153600 := rfl
    rw [if_neg (by omega)]

/-- Witness of `set_texture_frame_accepted`: a 2x2 texture of pixels `1, 2, 3, 4`
given to the 16-bit demo driver.  Input pixel `(1, 0)` is at index 2 of the menu
texture; index 320 keeps its value. -/
theorem set_texture_frame_accepted_witness :
    (2 ≤ SDL_DINGUX_MENU_WIDTH ∧ 2 ≤ SDL_DINGUX_MENU_HEIGHT) ∧
    pixel16 (sdl_dingux_set_texture_frame (demo_sys false)
      (fun a => if a % 2 = 0 then a / 2 + 1 else 0) false 2 2).vid.menu_texture (1 * 2 + 0) =
        (3, 0) ∧
    pixel16 (sdl_dingux_set_texture_frame (demo_sys false)
      (fun a => if a % 2 = 0 then a / 2 + 1 else 0) false 2 2).vid.menu_texture 320 =
        pixel16 (demo_sys false).vid.menu_texture 320 :=
  ⟨⟨by decide, by decide⟩,
   ((set_texture_frame_accepted (demo_sys false) (fun a => if a % 2 = 0 then a / 2 + 1 else 0)
      2 2 (by decide) (by decide)).2.2.2.1 1 0 (by decide) (by decide)).trans rfl,
   (set_texture_frame_accepted (demo_sys false) (fun a => if a % 2 = 0 then a / 2 + 1 else 0)
      2 2 (by decide) (by decide)).2.2.2.2.1 320 (by decide)⟩

end SdlDingux
